import Mathlib

/-!
Verification development for the tic-tac-toe AI core
(src/src/components/board.tsx): the terminal-state evaluator
(checkWinnerForMiniMax, isBoardFull), the minimax search with
alpha-beta pruning (minimax), and the move chooser (getBestMove).

The board is a list of cells, each empty (none) or marked by a player.
JavaScript numbers used as scores take values in the integers together
with -Infinity and +Infinity; they are modelled by the type Score below.
The in-place mutation of the board during search (tentative placement,
recursion, restore) is modelled by threading the board through every
call: each search function returns its score together with the board it
leaves behind, so that the restore discipline is a provable property.
-/

inductive Player where
  | X : Player
  | O : Player
deriving DecidableEq

def Player.other : Player → Player
  | Player.X => Player.O
  | Player.O => Player.X

abbrev CellValue := Option Player

abbrev Board := List CellValue

/-- Scores are JavaScript numbers restricted to the values this program
produces: integers, -Infinity and +Infinity. -/
inductive Score where
  | negInf : Score
  | val : Int → Score
  | posInf : Score
deriving DecidableEq

/-- Boolean comparison mirroring the JavaScript relation a <= b. -/
def Score.ble : Score → Score → Bool
  | Score.negInf, _ => true
  | Score.val _, Score.negInf => false
  | Score.val m, Score.val n => decide (m ≤ n)
  | Score.val _, Score.posInf => true
  | Score.posInf, Score.posInf => true
  | Score.posInf, _ => false

/-- Boolean comparison mirroring the JavaScript relation a < b. -/
def Score.blt (a b : Score) : Bool := !(Score.ble b a)

/-- Math.max on scores. -/
def Score.max (a b : Score) : Score := if Score.ble a b then b else a

/-- Math.min on scores. -/
def Score.min (a b : Score) : Score := if Score.ble a b then a else b

instance : LinearOrder Score where
  le a b := Score.ble a b = true
  lt a b := Score.blt a b = true
  le_refl a := by cases a <;> simp [Score.ble]
  le_trans a b c := by
    cases a <;> cases b <;> cases c <;> simp [Score.ble] <;> omega
  le_antisymm a b := by
    cases a <;> cases b <;> simp [Score.ble] <;> omega
  le_total a b := by
    cases a <;> cases b <;> simp [Score.ble] <;> omega
  lt_iff_le_not_le a b := by
    cases a <;> cases b <;> simp [Score.ble, Score.blt] <;> omega
  decidableLE a b := instDecidableEqBool _ _
  decidableLT a b := instDecidableEqBool _ _
  min := Score.min
  max := Score.max
  min_def a b := by
    by_cases h : Score.ble a b = true <;> simp [Score.min, h]
  max_def a b := by
    by_cases h : Score.ble a b = true <;> simp [Score.max, h]

/-- The 8 winning patterns: 3 rows, 3 columns, 2 diagonals. -/
def winPatterns : List (Nat × Nat × Nat) :=
  [(0, 1, 2), (3, 4, 5), (6, 7, 8),
   (0, 3, 6), (1, 4, 7), (2, 5, 8),
   (0, 4, 8), (2, 4, 6)]

/-- The body of checkWinnerForMiniMax's pattern loop: three equal
non-empty cells win for their player. -/
def patCheck (board : Board) (t : Nat × Nat × Nat) : Option Player :=
  match board.getD t.1 none with
  | none => none
  | some q =>
    if board.getD t.2.1 none = some q ∧ board.getD t.2.2 none = some q then
      some q
    else
      none

/-- checkWinnerForMiniMax: first pattern whose three cells hold the same
player wins; otherwise no winner. -/
def checkWinnerForMiniMax (board : Board) : Option Player :=
  winPatterns.findSome? (patCheck board)

/-- isBoardFull: every cell is non-null. -/
def isBoardFull (board : Board) : Bool :=
  board.all fun cell => cell.isSome

/-- One step of the maximizing loop of minimax, the recursive call
abstracted as f.  Mirrors: place X at the first empty index, recurse,
restore, fold Math.max into bestScore and alpha, break when
beta <= alpha. -/
def maxLoop (f : Board → Nat → Bool → Score → Score → Score × Board) :
    List Nat → Board → Nat → Score → Score → Score → Score × Board
  | [], b, _, best, _, _ => (best, b)
  | i :: rest, b, depth, best, alpha, beta =>
    if b.getD i none = none then
      let res := f (b.set i (some Player.X)) (depth + 1) false alpha beta
      let b2 := res.2.set i none
      let best2 := Score.max res.1 best
      let alpha2 := Score.max alpha res.1
      if Score.ble beta alpha2 then (best2, b2)
      else maxLoop f rest b2 depth best2 alpha2 beta
    else maxLoop f rest b depth best alpha beta

/-- One step of the minimizing loop of minimax, the recursive call
abstracted as f. -/
def minLoop (f : Board → Nat → Bool → Score → Score → Score × Board) :
    List Nat → Board → Nat → Score → Score → Score → Score × Board
  | [], b, _, best, _, _ => (best, b)
  | i :: rest, b, depth, best, alpha, beta =>
    if b.getD i none = none then
      let res := f (b.set i (some Player.O)) (depth + 1) true alpha beta
      let b2 := res.2.set i none
      let best2 := Score.min res.1 best
      let beta2 := Score.min beta res.1
      if Score.ble beta2 alpha then (best2, b2)
      else minLoop f rest b2 depth best2 alpha beta2
    else minLoop f rest b depth best alpha beta

/-- minimax with fuel: the fuel only bounds the recursion depth, one
unit per ply; any fuel exceeding the number of empty cells gives the
function's real value.  Base cases in source order: X wins, O wins,
full board, then the maximizing or minimizing loop over all indices. -/
def minimaxF : Nat → Board → Nat → Bool → Score → Score → Score × Board
  | 0, b, _, _, _, _ => (Score.val 0, b)
  | fuel + 1, b, depth, isMaximizing, alpha, beta =>
    match checkWinnerForMiniMax b with
    | some Player.X => (Score.val (10 - (depth : Int)), b)
    | some Player.O => (Score.val ((depth : Int) - 10), b)
    | none =>
      if isBoardFull b then (Score.val 0, b)
      else if isMaximizing then
        maxLoop (minimaxF fuel) (List.range b.length) b depth
          Score.negInf alpha beta
      else
        minLoop (minimaxF fuel) (List.range b.length) b depth
          Score.posInf alpha beta

/-- minimax as in the source: the board has length + 1 fuel available,
which always exceeds the number of empty cells. -/
def minimax (b : Board) (depth : Nat) (isMaximizing : Bool)
    (alpha beta : Score) : Score × Board :=
  minimaxF (b.length + 1) b depth isMaximizing alpha beta

/-- The loop of getBestMove: try X on each empty cell, score it with
minimax(board, 0, false, -Infinity, Infinity), restore, keep the cell
whose score strictly beats the best seen. -/
def getBestMoveLoop : List Nat → Board → Score → Int → Int × Board
  | [], b, _, bestMove => (bestMove, b)
  | i :: rest, b, bestScore, bestMove =>
    if b.getD i none = none then
      let res := minimax (b.set i (some Player.X)) 0 false
        Score.negInf Score.posInf
      let b2 := res.2.set i none
      if Score.blt bestScore res.1 then
        getBestMoveLoop rest b2 res.1 (Int.ofNat i)
      else
        getBestMoveLoop rest b2 bestScore bestMove
    else getBestMoveLoop rest b bestScore bestMove

/-- getBestMove: best score starts at -Infinity, best move at the
sentinel -1. -/
def getBestMove (b : Board) : Int :=
  (getBestMoveLoop (List.range b.length) b Score.negInf (-1)).1

/-- The board the game starts from: Array(9).fill(null). -/
def emptyBoard : Board := List.replicate 9 none

/-- The draw flag computed after each move: !winner && isBoardFull. -/
def isDrawReported (b : Board) : Bool :=
  (checkWinnerForMiniMax b).isNone && isBoardFull b

/-- Modelled from the spec: the maximizing fold of minimax without
alpha-beta pruning ("maximize the returned score across children"),
with the recursive call abstracted as f.  The board is not threaded:
the spec guarantees exploration leaves it unchanged. -/
def plainMaxLoop (f : Board → Nat → Bool → Score) :
    List Nat → Board → Nat → Score
  | [], _, _ => Score.negInf
  | i :: rest, b, depth =>
    if b.getD i none = none then
      Score.max (f (b.set i (some Player.X)) (depth + 1) false)
        (plainMaxLoop f rest b depth)
    else plainMaxLoop f rest b depth

/-- Modelled from the spec: the minimizing fold of minimax without
alpha-beta pruning. -/
def plainMinLoop (f : Board → Nat → Bool → Score) :
    List Nat → Board → Nat → Score
  | [], _, _ => Score.posInf
  | i :: rest, b, depth =>
    if b.getD i none = none then
      Score.min (f (b.set i (some Player.O)) (depth + 1) true)
        (plainMinLoop f rest b depth)
    else plainMinLoop f rest b depth

/-- Modelled from the spec: minimax without alpha-beta pruning, the
reference the pruned search is compared against.  Same base cases and
same fuel discipline as minimaxF. -/
def plainMinimaxF : Nat → Board → Nat → Bool → Score
  | 0, _, _, _ => Score.val 0
  | fuel + 1, b, depth, isMaximizing =>
    match checkWinnerForMiniMax b with
    | some Player.X => Score.val (10 - (depth : Int))
    | some Player.O => Score.val ((depth : Int) - 10)
    | none =>
      if isBoardFull b then Score.val 0
      else if isMaximizing then
        plainMaxLoop (plainMinimaxF fuel) (List.range b.length) b depth
      else
        plainMinLoop (plainMinimaxF fuel) (List.range b.length) b depth

/-- Modelled from the spec: top-level plain minimax value. -/
def plainMinimax (b : Board) (depth : Nat) (isMaximizing : Bool) : Score :=
  plainMinimaxF (b.length + 1) b depth isMaximizing

/-- Modelled from the spec: getBestMove's loop driven by the unpruned
score function instead of the pruned one. -/
def plainGetBestMoveLoop : List Nat → Board → Score → Int → Int
  | [], _, _, bestMove => bestMove
  | i :: rest, b, bestScore, bestMove =>
    if b.getD i none = none then
      let s := plainMinimax (b.set i (some Player.X)) 0 false
      if Score.blt bestScore s then plainGetBestMoveLoop rest b s (Int.ofNat i)
      else plainGetBestMoveLoop rest b bestScore bestMove
    else plainGetBestMoveLoop rest b bestScore bestMove

/-- Modelled from the spec: getBestMove computed from unpruned scores. -/
def plainGetBestMove (b : Board) : Int :=
  plainGetBestMoveLoop (List.range b.length) b Score.negInf (-1)

/-- Modelled from the spec: the Opponent's optimal move for self-play
("both play optimally", the Opponent minimizes the score).  The mirror
image of getBestMove: place O, score with X to move, keep the cell with
the strictly smallest score. -/
def opponentBestMoveLoop : List Nat → Board → Score → Int → Int × Board
  | [], b, _, bestMove => (bestMove, b)
  | i :: rest, b, bestScore, bestMove =>
    if b.getD i none = none then
      let res := minimax (b.set i (some Player.O)) 0 true
        Score.negInf Score.posInf
      let b2 := res.2.set i none
      if Score.blt res.1 bestScore then
        opponentBestMoveLoop rest b2 res.1 (Int.ofNat i)
      else
        opponentBestMoveLoop rest b2 bestScore bestMove
    else opponentBestMoveLoop rest b bestScore bestMove

/-- Modelled from the spec: sentinel and initial bound for the
Opponent's move mirror getBestMove. -/
def opponentBestMove (b : Board) : Int :=
  (opponentBestMoveLoop (List.range b.length) b Score.posInf (-1)).1

/-- Modelled from the spec: self-play, the AI (X) and the Opponent (O)
each playing the search engine's optimal move, stopping at a terminal
position.  One fuel unit per move. -/
def selfPlay : Nat → Board → Bool → Board
  | 0, b, _ => b
  | n + 1, b, xTurn =>
    if (checkWinnerForMiniMax b).isSome ∨ isBoardFull b = true then b
    else
      let m := if xTurn then getBestMove b else opponentBestMove b
      if m < 0 then b
      else
        selfPlay n
          (b.set m.toNat (some (if xTurn then Player.X else Player.O)))
          (!xTurn)

/-- Boards reachable in the game: from the empty board, the player to
move marks an empty cell, but only while no winner is reported (the
click handler and the AI effect both stop once winner is set; a full
board has no empty cell, so the draw state needs no extra guard). -/
inductive Reachable : Board → Player → Prop where
  | init : Reachable emptyBoard Player.X
  | step {b : Board} {p : Player} {i : Nat} :
      Reachable b p →
      checkWinnerForMiniMax b = none →
      i < 9 →
      b.getD i none = none →
      Reachable (b.set i (some p)) p.other

/-- Player q has a completed winning triple on the board. -/
def hasWinTriple (b : Board) (q : Player) : Prop :=
  ∃ t ∈ winPatterns,
    b.getD t.1 none = some q ∧ b.getD t.2.1 none = some q ∧
      b.getD t.2.2 none = some q

instance (b : Board) (q : Player) : Decidable (hasWinTriple b q) := by
  unfold hasWinTriple; infer_instance

/-- Winning pattern t is an Opponent threat with empty cell c: two of
its cells hold O and the remaining cell c is empty. -/
def oThreatAt (b : Board) (t : Nat × Nat × Nat) (c : Nat) : Prop :=
  t ∈ winPatterns ∧ b.getD c none = none ∧
    ((c = t.1 ∧ b.getD t.2.1 none = some Player.O ∧
        b.getD t.2.2 none = some Player.O) ∨
     (c = t.2.1 ∧ b.getD t.1 none = some Player.O ∧
        b.getD t.2.2 none = some Player.O) ∨
     (c = t.2.2 ∧ b.getD t.1 none = some Player.O ∧
        b.getD t.2.1 none = some Player.O))

instance (b : Board) (t : Nat × Nat × Nat) (c : Nat) :
    Decidable (oThreatAt b t c) := by
  unfold oThreatAt; infer_instance

/-! ### Fast evaluator

The kernel evaluates terms call-by-name, so the pair-threaded search
above is expensive to run inside proofs: every recursive result would
be re-evaluated at each of its uses.  The definitions below compute
the same scores but force each recursive result to a constructor
exactly once (Score.force) and drop the returned board.  They are
proved equal to the source-faithful functions and are used whenever a
theorem needs the search evaluated on a concrete board. -/

/-- Force a score to constructor form before fanning it out. -/
def Score.force {A : Sort 1} (s : Score) (k : Score → A) : A :=
  match s with
  | Score.negInf => k Score.negInf
  | Score.val n => k (Score.val n)
  | Score.posInf => k Score.posInf

theorem Score.force_eq {A : Sort 1} (s : Score) (k : Score → A) :
    Score.force s k = k s := by
  cases s <;> rfl

/-- Force a cell to constructor form. -/
def forceCell {A : Sort 1} (c : CellValue) (k : CellValue → A) : A :=
  match c with
  | none => k none
  | some Player.X => k (some Player.X)
  | some Player.O => k (some Player.O)

theorem forceCell_eq {A : Sort 1} (c : CellValue) (k : CellValue → A) :
    forceCell c k = k c := by
  rcases c with _ | p
  · rfl
  · cases p <;> rfl

/-- Force a board to a literal list of literal cells, so that the
evaluator reads each cell in constant work instead of re-walking the
pending set operations. -/
def forceBoard {A : Sort 1} : Board → (Board → A) → A
  | [], k => k []
  | c :: rest, k =>
    forceCell c fun c2 => forceBoard rest fun r => k (c2 :: r)

theorem forceBoard_eq {A : Sort 1} :
    ∀ (b : Board) (k : Board → A), forceBoard b k = k b := by
  intro b
  induction b with
  | nil => intro k; rfl
  | cons c rest ih => intro k; rw [forceBoard, forceCell_eq, ih]

/-- Score-only evaluator for maxLoop. -/
def sMaxLoop (f : Board → Nat → Bool → Score → Score → Score) :
    List Nat → Board → Nat → Score → Score → Score → Score
  | [], _, _, best, _, _ => best
  | i :: rest, b, depth, best, alpha, beta =>
    if b.getD i none = none then
      forceBoard (b.set i (some Player.X)) fun bX =>
        Score.force (f bX (depth + 1) false alpha beta)
          fun s =>
            if Score.ble beta (Score.max alpha s) then Score.max s best
            else sMaxLoop f rest b depth (Score.max s best)
              (Score.max alpha s) beta
    else sMaxLoop f rest b depth best alpha beta

/-- Score-only evaluator for minLoop. -/
def sMinLoop (f : Board → Nat → Bool → Score → Score → Score) :
    List Nat → Board → Nat → Score → Score → Score → Score
  | [], _, _, best, _, _ => best
  | i :: rest, b, depth, best, alpha, beta =>
    if b.getD i none = none then
      forceBoard (b.set i (some Player.O)) fun bO =>
        Score.force (f bO (depth + 1) true alpha beta)
          fun s =>
            if Score.ble (Score.min beta s) alpha then Score.min s best
            else sMinLoop f rest b depth (Score.min s best)
              alpha (Score.min beta s)
    else sMinLoop f rest b depth best alpha beta

/-- Score-only evaluator for minimaxF. -/
def sMinimaxF : Nat → Board → Nat → Bool → Score → Score → Score
  | 0, _, _, _, _, _ => Score.val 0
  | fuel + 1, b, depth, isMaximizing, alpha, beta =>
    match checkWinnerForMiniMax b with
    | some Player.X => Score.val (10 - (depth : Int))
    | some Player.O => Score.val ((depth : Int) - 10)
    | none =>
      if isBoardFull b then Score.val 0
      else if isMaximizing then
        sMaxLoop (sMinimaxF fuel) (List.range b.length) b depth
          Score.negInf alpha beta
      else
        sMinLoop (sMinimaxF fuel) (List.range b.length) b depth
          Score.posInf alpha beta

/-- Score-only evaluator for getBestMove. -/
def sGetBestMoveLoop : List Nat → Board → Score → Int → Int
  | [], _, _, bestMove => bestMove
  | i :: rest, b, bestScore, bestMove =>
    if b.getD i none = none then
      forceBoard (b.set i (some Player.X)) fun bX =>
        Score.force (sMinimaxF (b.length + 1) bX 0 false
            Score.negInf Score.posInf) fun s =>
          if Score.blt bestScore s then sGetBestMoveLoop rest b s (Int.ofNat i)
          else sGetBestMoveLoop rest b bestScore bestMove
    else sGetBestMoveLoop rest b bestScore bestMove

def sGetBestMove (b : Board) : Int :=
  sGetBestMoveLoop (List.range b.length) b Score.negInf (-1)

/-- Score-only evaluator for opponentBestMove. -/
def sOpponentBestMoveLoop : List Nat → Board → Score → Int → Int
  | [], _, _, bestMove => bestMove
  | i :: rest, b, bestScore, bestMove =>
    if b.getD i none = none then
      forceBoard (b.set i (some Player.O)) fun bO =>
        Score.force (sMinimaxF (b.length + 1) bO 0 true
            Score.negInf Score.posInf) fun s =>
          if Score.blt s bestScore then sOpponentBestMoveLoop rest b s (Int.ofNat i)
          else sOpponentBestMoveLoop rest b bestScore bestMove
    else sOpponentBestMoveLoop rest b bestScore bestMove

def sOpponentBestMove (b : Board) : Int :=
  sOpponentBestMoveLoop (List.range b.length) b Score.posInf (-1)

/-! ### List helper lemmas -/

theorem set_getD_same {α : Type} :
    ∀ (l : List α) (i : Nat) (v d : α), i < l.length →
      (l.set i v).getD i d = v := by
  intro l
  induction l with
  | nil => intro i v d h; simp at h
  | cons a l ih =>
    intro i v d h
    cases i with
    | zero => rfl
    | succ j => exact ih j v d (by simpa using h)

theorem set_getD_other {α : Type} :
    ∀ (l : List α) (i j : Nat) (v d : α), i ≠ j →
      (l.set i v).getD j d = l.getD j d := by
  intro l
  induction l with
  | nil => intro i j v d _; rfl
  | cons a l ih =>
    intro i j v d h
    cases i with
    | zero =>
      cases j with
      | zero => exact absurd rfl h
      | succ k => rfl
    | succ i' =>
      cases j with
      | zero => rfl
      | succ k => exact ih i' k v d (by omega)

/-- Writing the empty mark back over an empty cell restores the board. -/
theorem set_getD_id :
    ∀ (l : Board) (i : Nat), l.getD i none = none → l.set i none = l := by
  intro l
  induction l with
  | nil => intro i _; rfl
  | cons a l ih =>
    intro i h
    cases i with
    | zero => rw [List.getD_cons_zero] at h; simp [h]
    | succ j => rw [List.getD_cons_succ] at h; simp [ih j h]

/-! ### Restoration: the search returns the board it was given -/

theorem maxLoop_snd (f : Board → Nat → Bool → Score → Score → Score × Board)
    (hf : ∀ b d t α β, (f b d t α β).2 = b) :
    ∀ (idxs : List Nat) (b : Board) (d : Nat) (s α β : Score),
      (maxLoop f idxs b d s α β).2 = b := by
  intro idxs
  induction idxs with
  | nil => intro b d s α β; rfl
  | cons i rest ih =>
    intro b d s α β
    by_cases hE : b.getD i none = none
    · have hres : (f (b.set i (some Player.X)) (d + 1) false α β).2
          = b.set i (some Player.X) := hf _ _ _ _ _
      have hb2 : (f (b.set i (some Player.X)) (d + 1) false α β).2.set i none
          = b := by
        rw [hres, List.set_set, set_getD_id b i hE]
      simp only [maxLoop, hE, if_pos]
      split
      · exact hb2
      · rw [ih]; exact hb2
    · simp only [maxLoop]
      rw [if_neg hE]
      exact ih b d s α β

theorem minLoop_snd (f : Board → Nat → Bool → Score → Score → Score × Board)
    (hf : ∀ b d t α β, (f b d t α β).2 = b) :
    ∀ (idxs : List Nat) (b : Board) (d : Nat) (s α β : Score),
      (minLoop f idxs b d s α β).2 = b := by
  intro idxs
  induction idxs with
  | nil => intro b d s α β; rfl
  | cons i rest ih =>
    intro b d s α β
    by_cases hE : b.getD i none = none
    · have hres : (f (b.set i (some Player.O)) (d + 1) true α β).2
          = b.set i (some Player.O) := hf _ _ _ _ _
      have hb2 : (f (b.set i (some Player.O)) (d + 1) true α β).2.set i none
          = b := by
        rw [hres, List.set_set, set_getD_id b i hE]
      simp only [minLoop, hE, if_pos]
      split
      · exact hb2
      · rw [ih]; exact hb2
    · simp only [minLoop]
      rw [if_neg hE]
      exact ih b d s α β

theorem minimaxF_snd :
    ∀ (fuel : Nat) (b : Board) (d : Nat) (t : Bool) (α β : Score),
      (minimaxF fuel b d t α β).2 = b := by
  intro fuel
  induction fuel with
  | zero => intro b d t α β; rfl
  | succ fuel ih =>
    intro b d t α β
    simp only [minimaxF]
    rcases hw : checkWinnerForMiniMax b with _ | p
    · simp only []
      split
      · rfl
      · split
        · exact maxLoop_snd (minimaxF fuel) (fun b d t α β => ih b d t α β)
            (List.range b.length) b d Score.negInf α β
        · exact minLoop_snd (minimaxF fuel) (fun b d t α β => ih b d t α β)
            (List.range b.length) b d Score.posInf α β
    · cases p <;> rfl

theorem minimax_snd (b : Board) (d : Nat) (t : Bool) (α β : Score) :
    (minimax b d t α β).2 = b :=
  minimaxF_snd (b.length + 1) b d t α β

theorem getBestMoveLoop_snd :
    ∀ (idxs : List Nat) (b : Board) (s : Score) (m : Int),
      (getBestMoveLoop idxs b s m).2 = b := by
  intro idxs
  induction idxs with
  | nil => intro b s m; rfl
  | cons i rest ih =>
    intro b s m
    by_cases hE : b.getD i none = none
    · have hb2 : (minimax (b.set i (some Player.X)) 0 false
          Score.negInf Score.posInf).2.set i none = b := by
        rw [minimax_snd, List.set_set, set_getD_id b i hE]
      simp only [getBestMoveLoop, hE, if_pos]
      split
      · rw [ih]; exact hb2
      · rw [ih]; exact hb2
    · simp only [getBestMoveLoop]
      rw [if_neg hE]
      exact ih b s m

theorem opponentBestMoveLoop_snd :
    ∀ (idxs : List Nat) (b : Board) (s : Score) (m : Int),
      (opponentBestMoveLoop idxs b s m).2 = b := by
  intro idxs
  induction idxs with
  | nil => intro b s m; rfl
  | cons i rest ih =>
    intro b s m
    by_cases hE : b.getD i none = none
    · have hb2 : (minimax (b.set i (some Player.O)) 0 true
          Score.negInf Score.posInf).2.set i none = b := by
        rw [minimax_snd, List.set_set, set_getD_id b i hE]
      simp only [opponentBestMoveLoop, hE, if_pos]
      split
      · rw [ih]; exact hb2
      · rw [ih]; exact hb2
    · simp only [opponentBestMoveLoop]
      rw [if_neg hE]
      exact ih b s m

/-! ### The fast evaluator agrees with the source-faithful search -/

theorem sMaxLoop_eq (f₁ : Board → Nat → Bool → Score → Score → Score × Board)
    (f₂ : Board → Nat → Bool → Score → Score → Score)
    (hf : ∀ b d t α β, f₂ b d t α β = (f₁ b d t α β).1)
    (hsnd : ∀ b d t α β, (f₁ b d t α β).2 = b) :
    ∀ (idxs : List Nat) (b : Board) (d : Nat) (s α β : Score),
      sMaxLoop f₂ idxs b d s α β = (maxLoop f₁ idxs b d s α β).1 := by
  intro idxs
  induction idxs with
  | nil => intro b d s α β; rfl
  | cons i rest ih =>
    intro b d s α β
    by_cases hE : b.getD i none = none
    · have hb2 : (f₁ (b.set i (some Player.X)) (d + 1) false α β).2.set i none
          = b := by
        rw [hsnd, List.set_set, set_getD_id b i hE]
      simp only [sMaxLoop, maxLoop, hE, if_pos, forceBoard_eq,
        Score.force_eq, hf, hb2]
      split
      · rfl
      · exact ih b d _ _ β
    · simp only [sMaxLoop, maxLoop]
      rw [if_neg hE, if_neg hE]
      exact ih b d s α β

theorem sMinLoop_eq (f₁ : Board → Nat → Bool → Score → Score → Score × Board)
    (f₂ : Board → Nat → Bool → Score → Score → Score)
    (hf : ∀ b d t α β, f₂ b d t α β = (f₁ b d t α β).1)
    (hsnd : ∀ b d t α β, (f₁ b d t α β).2 = b) :
    ∀ (idxs : List Nat) (b : Board) (d : Nat) (s α β : Score),
      sMinLoop f₂ idxs b d s α β = (minLoop f₁ idxs b d s α β).1 := by
  intro idxs
  induction idxs with
  | nil => intro b d s α β; rfl
  | cons i rest ih =>
    intro b d s α β
    by_cases hE : b.getD i none = none
    · have hb2 : (f₁ (b.set i (some Player.O)) (d + 1) true α β).2.set i none
          = b := by
        rw [hsnd, List.set_set, set_getD_id b i hE]
      simp only [sMinLoop, minLoop, hE, if_pos, forceBoard_eq,
        Score.force_eq, hf, hb2]
      split
      · rfl
      · exact ih b d _ α _
    · simp only [sMinLoop, minLoop]
      rw [if_neg hE, if_neg hE]
      exact ih b d s α β

theorem sMinimaxF_eq :
    ∀ (fuel : Nat) (b : Board) (d : Nat) (t : Bool) (α β : Score),
      sMinimaxF fuel b d t α β = (minimaxF fuel b d t α β).1 := by
  intro fuel
  induction fuel with
  | zero => intro b d t α β; rfl
  | succ fuel ih =>
    intro b d t α β
    simp only [sMinimaxF, minimaxF]
    rcases hw : checkWinnerForMiniMax b with _ | p
    · simp only []
      split
      · rfl
      · split
        · exact sMaxLoop_eq (minimaxF fuel) (sMinimaxF fuel) ih
            (minimaxF_snd fuel) (List.range b.length) b d Score.negInf α β
        · exact sMinLoop_eq (minimaxF fuel) (sMinimaxF fuel) ih
            (minimaxF_snd fuel) (List.range b.length) b d Score.posInf α β
    · cases p <;> rfl

theorem sGetBestMoveLoop_eq :
    ∀ (idxs : List Nat) (b : Board) (s : Score) (m : Int),
      sGetBestMoveLoop idxs b s m = (getBestMoveLoop idxs b s m).1 := by
  intro idxs
  induction idxs with
  | nil => intro b s m; rfl
  | cons i rest ih =>
    intro b s m
    by_cases hE : b.getD i none = none
    · have hb2 : (minimax (b.set i (some Player.X)) 0 false
          Score.negInf Score.posInf).2.set i none = b := by
        rw [minimax_snd, List.set_set, set_getD_id b i hE]
      have hfst : sMinimaxF ((b.set i (some Player.X)).length + 1)
          (b.set i (some Player.X)) 0 false Score.negInf Score.posInf
          = (minimax (b.set i (some Player.X)) 0 false
              Score.negInf Score.posInf).1 :=
        sMinimaxF_eq _ _ _ _ _ _
      simp only [sGetBestMoveLoop, getBestMoveLoop, hE, if_pos,
        forceBoard_eq, Score.force_eq, List.length_set, hb2]
      rw [show (b.set i (some Player.X)).length = b.length from
        List.length_set b i (some Player.X)] at hfst
      rw [hfst]
      split
      · exact ih b _ _
      · exact ih b s m
    · simp only [sGetBestMoveLoop, getBestMoveLoop]
      rw [if_neg hE, if_neg hE]
      exact ih b s m

theorem sGetBestMove_eq (b : Board) : sGetBestMove b = getBestMove b :=
  sGetBestMoveLoop_eq (List.range b.length) b Score.negInf (-1)

theorem sOpponentBestMoveLoop_eq :
    ∀ (idxs : List Nat) (b : Board) (s : Score) (m : Int),
      sOpponentBestMoveLoop idxs b s m = (opponentBestMoveLoop idxs b s m).1 := by
  intro idxs
  induction idxs with
  | nil => intro b s m; rfl
  | cons i rest ih =>
    intro b s m
    by_cases hE : b.getD i none = none
    · have hb2 : (minimax (b.set i (some Player.O)) 0 true
          Score.negInf Score.posInf).2.set i none = b := by
        rw [minimax_snd, List.set_set, set_getD_id b i hE]
      have hfst : sMinimaxF ((b.set i (some Player.O)).length + 1)
          (b.set i (some Player.O)) 0 true Score.negInf Score.posInf
          = (minimax (b.set i (some Player.O)) 0 true
              Score.negInf Score.posInf).1 :=
        sMinimaxF_eq _ _ _ _ _ _
      simp only [sOpponentBestMoveLoop, opponentBestMoveLoop, hE, if_pos,
        forceBoard_eq, Score.force_eq, List.length_set, hb2]
      rw [show (b.set i (some Player.O)).length = b.length from
        List.length_set b i (some Player.O)] at hfst
      rw [hfst]
      split
      · exact ih b _ _
      · exact ih b s m
    · simp only [sOpponentBestMoveLoop, opponentBestMoveLoop]
      rw [if_neg hE, if_neg hE]
      exact ih b s m

theorem sOpponentBestMove_eq (b : Board) :
    sOpponentBestMove b = opponentBestMove b :=
  sOpponentBestMoveLoop_eq (List.range b.length) b Score.posInf (-1)

/-! ### Score order lemmas -/

theorem Score.ble_true_iff {a b : Score} : Score.ble a b = true ↔ a ≤ b :=
  Iff.rfl

theorem Score.blt_true_iff {a b : Score} : Score.blt a b = true ↔ a < b :=
  Iff.rfl

theorem Score.ble_false_iff {a b : Score} : Score.ble a b = false ↔ b < a := by
  rw [Bool.eq_false_iff]
  constructor
  · intro h
    exact lt_of_not_le (fun hle => h hle)
  · intro h hle
    exact absurd hle (not_le_of_lt h)

theorem Score.blt_false_iff {a b : Score} : Score.blt a b = false ↔ b ≤ a := by
  unfold Score.blt
  rw [Bool.not_eq_false']
  exact Score.ble_true_iff

theorem Score.max_eq (a b : Score) : Score.max a b = max a b := rfl

theorem Score.min_eq (a b : Score) : Score.min a b = min a b := rfl

theorem Score.negInf_le (a : Score) : Score.negInf ≤ a := by cases a <;> rfl

theorem Score.le_posInf (a : Score) : a ≤ Score.posInf := by cases a <;> rfl

theorem Score.val_le_val {m n : Int} : Score.val m ≤ Score.val n ↔ m ≤ n := by
  rw [← Score.ble_true_iff]
  simp [Score.ble]

theorem Score.val_lt_val {m n : Int} : Score.val m < Score.val n ↔ m < n := by
  rw [← Score.blt_true_iff]
  simp [Score.blt, Score.ble]

theorem Score.negInf_lt_val (n : Int) : Score.negInf < Score.val n := rfl

theorem Score.val_lt_posInf (n : Int) : Score.val n < Score.posInf := rfl

/-- A score that is an integer, neither -Infinity nor +Infinity. -/
def Score.IsVal (s : Score) : Prop := ∃ n : Int, s = Score.val n

theorem Score.max_isVal {a b : Score} (ha : a.IsVal)
    (hb : b = Score.negInf ∨ b.IsVal) : (Score.max a b).IsVal := by
  rcases ha with ⟨m, rfl⟩
  rcases hb with rfl | ⟨n, rfl⟩
  · exact ⟨m, rfl⟩
  · unfold Score.max
    split
    · exact ⟨n, rfl⟩
    · exact ⟨m, rfl⟩

theorem Score.min_isVal {a b : Score} (ha : a.IsVal)
    (hb : b = Score.posInf ∨ b.IsVal) : (Score.min a b).IsVal := by
  rcases ha with ⟨m, rfl⟩
  rcases hb with rfl | ⟨n, rfl⟩
  · exact ⟨m, rfl⟩
  · unfold Score.min
    split
    · exact ⟨m, rfl⟩
    · exact ⟨n, rfl⟩

/-! ### The evaluator and winning triples -/

theorem findSome?_some {α β : Type} :
    ∀ {l : List α} {f : α → Option β} {r : β},
      l.findSome? f = some r → ∃ a ∈ l, f a = some r := by
  intro l
  induction l with
  | nil => intro f r h; simp [List.findSome?] at h
  | cons a l ih =>
    intro f r h
    rw [List.findSome?_cons] at h
    rcases hfa : f a with _ | v
    · simp only [hfa] at h
      rcases ih h with ⟨x, hx, hfx⟩
      exact ⟨x, List.mem_cons_of_mem a hx, hfx⟩
    · simp only [hfa] at h
      exact ⟨a, List.mem_cons_self a l, by rw [hfa, h]⟩

theorem findSome?_none {α β : Type} :
    ∀ {l : List α} {f : α → Option β},
      l.findSome? f = none → ∀ a ∈ l, f a = none := by
  intro l
  induction l with
  | nil => intro f _ a ha; simp at ha
  | cons x l ih =>
    intro f h a ha
    rw [List.findSome?_cons] at h
    rcases hfx : f x with _ | v
    · simp only [hfx] at h
      rcases List.mem_cons.mp ha with rfl | ha'
      · exact hfx
      · exact ih h a ha'
    · simp only [hfx] at h
      exact absurd h (by simp)

theorem cw_some_triple {b : Board} {q : Player}
    (h : checkWinnerForMiniMax b = some q) : hasWinTriple b q := by
  rcases findSome?_some h with ⟨t, ht, hft⟩
  rcases hA : b.getD t.1 none with _ | p
  · simp only [patCheck, hA] at hft
    exact absurd hft (by simp)
  · simp only [patCheck, hA] at hft
    by_cases hcond : b.getD t.2.1 none = some p ∧ b.getD t.2.2 none = some p
    · rw [if_pos hcond] at hft
      obtain rfl : p = q := by injection hft
      exact ⟨t, ht, hA, hcond.1, hcond.2⟩
    · rw [if_neg hcond] at hft
      exact absurd hft (by simp)

theorem triple_cw_ne_none {b : Board} {q : Player}
    (h : hasWinTriple b q) : checkWinnerForMiniMax b ≠ none := by
  intro hn
  rcases h with ⟨t, ht, h1, h2, h3⟩
  have := findSome?_none hn t ht
  simp only [patCheck, h1] at this
  rw [if_pos ⟨h2, h3⟩] at this
  exact absurd this (by simp)

theorem cw_none_no_triple {b : Board} {q : Player}
    (hn : checkWinnerForMiniMax b = none) : ¬ hasWinTriple b q :=
  fun h => triple_cw_ne_none h hn

theorem Player.eq_other_of_ne {p q : Player} (h : p ≠ q) : q = p.other := by
  cases p <;> cases q <;> simp [Player.other] at h ⊢ <;> exact absurd rfl h

theorem cw_eq_some_of_unique {b : Board} {q : Player}
    (h : hasWinTriple b q) (h2 : ¬ hasWinTriple b q.other) :
    checkWinnerForMiniMax b = some q := by
  rcases hcw : checkWinnerForMiniMax b with _ | p
  · exact absurd hcw (triple_cw_ne_none h)
  · by_cases hpq : p = q
    · rw [hpq]
    · have hp : hasWinTriple b p := cw_some_triple hcw
      have : p = q.other := by
        have := Player.eq_other_of_ne (fun hh => hpq hh.symm)
        cases p <;> cases q <;> simp [Player.other] at this ⊢ <;>
          exact absurd rfl hpq
      rw [this] at hp
      exact absurd hp h2

/-! ### Full boards and empty cells -/

theorem exists_empty_of_not_full :
    ∀ {b : Board}, isBoardFull b = false →
      ∃ i, i < b.length ∧ b.getD i none = none := by
  intro b
  induction b with
  | nil => intro h; simp [isBoardFull] at h
  | cons c l ih =>
    intro h
    rw [isBoardFull, List.all_cons, Bool.and_eq_false_iff] at h
    rcases h with h | h
    · refine ⟨0, by simp, ?_⟩
      rcases c with _ | p
      · rfl
      · simp at h
    · rcases ih h with ⟨i, hi, he⟩
      exact ⟨i + 1, by simpa using hi, he⟩

theorem full_no_empty {b : Board} (h : isBoardFull b = true) :
    ∀ {i : Nat}, i < b.length → b.getD i none ≠ none := by
  intro i hi hn
  rw [isBoardFull, List.all_eq_true] at h
  have hmem : b.getD i none ∈ b := by
    rw [List.getD_eq_getElem?_getD, List.getElem?_eq_getElem hi]
    exact List.getElem_mem hi
  have := h _ hmem
  rw [hn] at this
  simp at this

/-! ### The search always returns an integer score -/

theorem maxLoop_isVal (f : Board → Nat → Bool → Score → Score → Score × Board)
    (hval : ∀ b d t α β, ((f b d t α β).1).IsVal) :
    ∀ (idxs : List Nat) (b : Board) (d : Nat) (s α β : Score),
      (s = Score.negInf ∨ s.IsVal) →
      (s.IsVal ∨ ∃ i ∈ idxs, b.getD i none = none) →
      ((maxLoop f idxs b d s α β).1).IsVal := by
  intro idxs
  induction idxs with
  | nil =>
    intro b d s α β _ hne
    rcases hne with hs | ⟨i, hi, _⟩
    · exact hs
    · simp at hi
  | cons i rest ih =>
    intro b d s α β hs hne
    by_cases hE : b.getD i none = none
    · have hres : ((f (b.set i (some Player.X)) (d + 1) false α β).1).IsVal :=
        hval _ _ _ _ _
      have hbest2 : (Score.max (f (b.set i (some Player.X)) (d + 1) false α β).1
          s).IsVal := Score.max_isVal hres hs
      simp only [maxLoop, hE, if_pos]
      split
      · exact hbest2
      · exact ih _ d _ _ β (Or.inr hbest2) (Or.inl hbest2)
    · simp only [maxLoop]
      rw [if_neg hE]
      refine ih b d s α β hs ?_
      rcases hne with hs' | ⟨i', hi', he'⟩
      · exact Or.inl hs'
      · rcases List.mem_cons.mp hi' with rfl | hi''
        · exact absurd he' hE
        · exact Or.inr ⟨i', hi'', he'⟩

theorem minLoop_isVal (f : Board → Nat → Bool → Score → Score → Score × Board)
    (hval : ∀ b d t α β, ((f b d t α β).1).IsVal) :
    ∀ (idxs : List Nat) (b : Board) (d : Nat) (s α β : Score),
      (s = Score.posInf ∨ s.IsVal) →
      (s.IsVal ∨ ∃ i ∈ idxs, b.getD i none = none) →
      ((minLoop f idxs b d s α β).1).IsVal := by
  intro idxs
  induction idxs with
  | nil =>
    intro b d s α β _ hne
    rcases hne with hs | ⟨i, hi, _⟩
    · exact hs
    · simp at hi
  | cons i rest ih =>
    intro b d s α β hs hne
    by_cases hE : b.getD i none = none
    · have hres : ((f (b.set i (some Player.O)) (d + 1) true α β).1).IsVal :=
        hval _ _ _ _ _
      have hbest2 : (Score.min (f (b.set i (some Player.O)) (d + 1) true α β).1
          s).IsVal := Score.min_isVal hres hs
      simp only [minLoop, hE, if_pos]
      split
      · exact hbest2
      · exact ih _ d _ α _ (Or.inr hbest2) (Or.inl hbest2)
    · simp only [minLoop]
      rw [if_neg hE]
      refine ih b d s α β hs ?_
      rcases hne with hs' | ⟨i', hi', he'⟩
      · exact Or.inl hs'
      · rcases List.mem_cons.mp hi' with rfl | hi''
        · exact absurd he' hE
        · exact Or.inr ⟨i', hi'', he'⟩

theorem minimaxF_isVal :
    ∀ (fuel : Nat) (b : Board) (d : Nat) (t : Bool) (α β : Score),
      ((minimaxF fuel b d t α β).1).IsVal := by
  intro fuel
  induction fuel with
  | zero => intro b d t α β; exact ⟨0, rfl⟩
  | succ fuel ih =>
    intro b d t α β
    simp only [minimaxF]
    rcases hw : checkWinnerForMiniMax b with _ | p
    · simp only []
      split
      · exact ⟨0, rfl⟩
      · rcases hF : isBoardFull b with _ | _
        · rcases exists_empty_of_not_full hF with ⟨i, hi, he⟩
          have hmem : i ∈ List.range b.length := List.mem_range.mpr hi
          split
          · exact maxLoop_isVal (minimaxF fuel) (fun b d t α β => ih b d t α β)
              _ b d _ α β (Or.inl rfl) (Or.inr ⟨i, hmem, he⟩)
          · exact minLoop_isVal (minimaxF fuel) (fun b d t α β => ih b d t α β)
              _ b d _ α β (Or.inl rfl) (Or.inr ⟨i, hmem, he⟩)
        · simp_all
    · cases p
      · exact ⟨10 - (d : Int), rfl⟩
      · exact ⟨(d : Int) - 10, rfl⟩

theorem minimax_isVal (b : Board) (d : Nat) (t : Bool) (α β : Score) :
    ((minimax b d t α β).1).IsVal :=
  minimaxF_isVal (b.length + 1) b d t α β

/-- The score getBestMove assigns to a tentative AI move at cell i. -/
def moveScore (b : Board) (i : Nat) : Score :=
  (minimax (b.set i (some Player.X)) 0 false Score.negInf Score.posInf).1

theorem moveScore_isVal (b : Board) (i : Nat) : (moveScore b i).IsVal :=
  minimax_isVal _ 0 false _ _

/-! ### Characterizing getBestMove's loop -/

theorem gbmLoop_no_improve :
    ∀ (idxs : List Nat) (b : Board) (s : Score) (m : Int),
      (∀ i ∈ idxs, b.getD i none = none → moveScore b i ≤ s) →
      (getBestMoveLoop idxs b s m).1 = m := by
  intro idxs
  induction idxs with
  | nil => intro b s m _; rfl
  | cons i rest ih =>
    intro b s m h
    by_cases hE : b.getD i none = none
    · have hb2 : (minimax (b.set i (some Player.X)) 0 false
          Score.negInf Score.posInf).2.set i none = b := by
        rw [minimax_snd, List.set_set, set_getD_id b i hE]
      have hle : moveScore b i ≤ s := h i (List.mem_cons_self i rest) hE
      have hblt : Score.blt s (moveScore b i) = false :=
        Score.blt_false_iff.mpr hle
      simp only [getBestMoveLoop, hE, if_pos, hb2]
      rw [show (minimax (b.set i (some Player.X)) 0 false
        Score.negInf Score.posInf).1 = moveScore b i from rfl]
      rw [hblt]
      simp only [Bool.false_eq_true, if_false]
      exact ih b s m (fun j hj hje => h j (List.mem_cons_of_mem i hj) hje)
    · simp only [getBestMoveLoop]
      rw [if_neg hE]
      exact ih b s m (fun j hj hje => h j (List.mem_cons_of_mem i hj) hje)

theorem gbmLoop_finds :
    ∀ (idxs : List Nat) (b : Board) (s : Score) (m : Int),
      (∃ i ∈ idxs, b.getD i none = none ∧ s < moveScore b i) →
      ∃ (l1 : List Nat) (j : Nat) (l2 : List Nat),
        idxs = l1 ++ j :: l2 ∧ b.getD j none = none ∧ s < moveScore b j ∧
        (∀ i ∈ l1, b.getD i none = none → moveScore b i < moveScore b j) ∧
        (∀ i ∈ l2, b.getD i none = none → moveScore b i ≤ moveScore b j) ∧
        (getBestMoveLoop idxs b s m).1 = Int.ofNat j := by
  intro idxs
  induction idxs with
  | nil => intro b s m h; simp at h
  | cons i rest ih =>
    intro b s m h
    by_cases hE : b.getD i none = none
    · have hb2 : (minimax (b.set i (some Player.X)) 0 false
          Score.negInf Score.posInf).2.set i none = b := by
        rw [minimax_snd, List.set_set, set_getD_id b i hE]
      by_cases himp : s < moveScore b i
      · -- the loop updates to (moveScore b i, i)
        have hblt : Score.blt s (moveScore b i) = true :=
          Score.blt_true_iff.mpr himp
        by_cases hmore : ∃ i' ∈ rest, b.getD i' none = none ∧
            moveScore b i < moveScore b i'
        · rcases ih b (moveScore b i) (Int.ofNat i) hmore with
            ⟨l1, j, l2, hsplit, hj, hjgt, hl1, hl2, hres⟩
          refine ⟨i :: l1, j, l2, by rw [hsplit]; rfl, hj,
            lt_trans himp hjgt, ?_, hl2, ?_⟩
          · intro i' hi' hie
            rcases List.mem_cons.mp hi' with rfl | hi''
            · exact hjgt
            · exact hl1 i' hi'' hie
          · simp only [getBestMoveLoop, hE, if_pos, hb2]
            rw [show (minimax (b.set i (some Player.X)) 0 false
              Score.negInf Score.posInf).1 = moveScore b i from rfl]
            rw [hblt]
            simp only [if_true]
            exact hres
        · push_neg at hmore
          refine ⟨[], i, rest, rfl, hE, himp, by simp, ?_, ?_⟩
          · intro i' hi' hie
            exact hmore i' hi' hie
          · simp only [getBestMoveLoop, hE, if_pos, hb2]
            rw [show (minimax (b.set i (some Player.X)) 0 false
              Score.negInf Score.posInf).1 = moveScore b i from rfl]
            rw [hblt]
            simp only [if_true]
            exact gbmLoop_no_improve rest b (moveScore b i) (Int.ofNat i)
              (fun j hj hje => hmore j hj hje)
      · -- no update: the score at i does not beat s
        have hile : moveScore b i ≤ s := not_lt.mp himp
        have hblt : Score.blt s (moveScore b i) = false :=
          Score.blt_false_iff.mpr hile
        have hrest : ∃ i' ∈ rest, b.getD i' none = none ∧
            s < moveScore b i' := by
          rcases h with ⟨i', hi', hie, hgt⟩
          rcases List.mem_cons.mp hi' with rfl | hi''
          · exact absurd hgt himp
          · exact ⟨i', hi'', hie, hgt⟩
        rcases ih b s m hrest with ⟨l1, j, l2, hsplit, hj, hjgt, hl1, hl2, hres⟩
        refine ⟨i :: l1, j, l2, by rw [hsplit]; rfl, hj, hjgt, ?_, hl2, ?_⟩
        · intro i' hi' hie
          rcases List.mem_cons.mp hi' with rfl | hi''
          · exact lt_of_le_of_lt hile hjgt
          · exact hl1 i' hi'' hie
        · simp only [getBestMoveLoop, hE, if_pos, hb2]
          rw [show (minimax (b.set i (some Player.X)) 0 false
            Score.negInf Score.posInf).1 = moveScore b i from rfl]
          rw [hblt]
          simp only [Bool.false_eq_true, if_false]
          exact hres
    · have hrest : ∃ i' ∈ rest, b.getD i' none = none ∧
          s < moveScore b i' := by
        rcases h with ⟨i', hi', hie, hgt⟩
        rcases List.mem_cons.mp hi' with rfl | hi''
        · exact absurd hie hE
        · exact ⟨i', hi'', hie, hgt⟩
      rcases ih b s m hrest with ⟨l1, j, l2, hsplit, hj, hjgt, hl1, hl2, hres⟩
      refine ⟨i :: l1, j, l2, by rw [hsplit]; rfl, hj, hjgt, ?_, hl2, ?_⟩
      · intro i' hi' hie
        rcases List.mem_cons.mp hi' with rfl | hi''
        · exact absurd hie hE
        · exact hl1 i' hi'' hie
      · simp only [getBestMoveLoop]
        rw [if_neg hE]
        exact hres

/-- Splitting List.range n at an occurrence: everything before is
smaller, everything after is larger. -/
theorem range_decomp {n : Nat} {l1 l2 : List Nat} {j : Nat}
    (h : List.range n = l1 ++ j :: l2) :
    j < n ∧ (∀ i, i < j → i < n → i ∈ l1) ∧ (∀ i, j < i → i < n → i ∈ l2) := by
  have hpw : List.Pairwise (fun a b => a < b) (l1 ++ j :: l2) := by
    rw [← h]
    exact List.sorted_lt_range n
  rw [List.pairwise_append] at hpw
  obtain ⟨hpw1, hpw2, hcross⟩ := hpw
  rw [List.pairwise_cons] at hpw2
  obtain ⟨hjl2, _⟩ := hpw2
  have hmem : ∀ i, i < n ↔ i ∈ l1 ++ j :: l2 := by
    intro i
    rw [← h, List.mem_range]
  constructor
  · exact (hmem j).mpr (List.mem_append_right l1 (List.mem_cons_self j l2))
  constructor
  · intro i hij hin
    rcases List.mem_append.mp ((hmem i).mp hin) with h1 | h12
    · exact h1
    · rcases List.mem_cons.mp h12 with rfl | h2
      · exact absurd hij (lt_irrefl i)
      · exact absurd (hjl2 i h2) (by omega)
  · intro i hji hin
    rcases List.mem_append.mp ((hmem i).mp hin) with h1 | h12
    · have := hcross i h1 j (List.mem_cons_self j l2)
      omega
    · rcases List.mem_cons.mp h12 with rfl | h2
      · exact absurd hji (lt_irrefl i)
      · exact h2

/-- getBestMove picks the first empty cell whose score strictly beats
every earlier empty cell's score and is not beaten later. -/
theorem getBestMove_spec {b : Board}
    (hne : ∃ i, i < b.length ∧ b.getD i none = none) :
    ∃ j : Nat, getBestMove b = Int.ofNat j ∧ j < b.length ∧
      b.getD j none = none ∧
      (∀ i, i < j → b.getD i none = none → moveScore b i < moveScore b j) ∧
      (∀ i, j < i → i < b.length → b.getD i none = none →
        moveScore b i ≤ moveScore b j) := by
  rcases hne with ⟨i0, hi0, he0⟩
  rcases moveScore_isVal b i0 with ⟨n0, hn0⟩
  have hwit : ∃ i ∈ List.range b.length, b.getD i none = none ∧
      Score.negInf < moveScore b i := by
    refine ⟨i0, List.mem_range.mpr hi0, he0, ?_⟩
    rw [hn0]
    exact Score.negInf_lt_val n0
  rcases gbmLoop_finds (List.range b.length) b Score.negInf (-1) hwit with
    ⟨l1, j, l2, hsplit, hj, _, hl1, hl2, hres⟩
  rcases range_decomp hsplit with ⟨hjn, hbefore, hafter⟩
  refine ⟨j, hres, hjn, hj, ?_, ?_⟩
  · intro i hij hie
    exact hl1 i (hbefore i hij (by omega)) hie
  · intro i hji hin hie
    exact hl2 i (hafter i hji hin) hie

/-- If one empty cell's score strictly beats every other empty cell's
score, getBestMove returns that cell. -/
theorem getBestMove_argmax_unique {b : Board} {w : Nat}
    (hw : w < b.length) (hwe : b.getD w none = none)
    (hbest : ∀ i, i < b.length → b.getD i none = none → i ≠ w →
      moveScore b i < moveScore b w) :
    getBestMove b = Int.ofNat w := by
  rcases getBestMove_spec ⟨w, hw, hwe⟩ with ⟨j, hres, hjn, hje, hl1, hl2⟩
  by_cases hjw : j = w
  · rw [hres, hjw]
  · have hjlt : moveScore b j < moveScore b w := hbest j hjn hje hjw
    rcases Nat.lt_or_ge w j with hwj | hwj
    · have := hl1 w hwj hwe
      exact absurd (lt_trans this hjlt) (lt_irrefl _)
    · have hwj' : j < w := by omega
      have := hl2 w hwj' hw hwe
      exact absurd (lt_of_le_of_lt this hjlt) (lt_irrefl _)

/-- With no empty cell the loop never updates and the sentinel comes
back. -/
theorem getBestMove_of_no_empty {b : Board}
    (h : ∀ i, i < b.length → b.getD i none ≠ none) : getBestMove b = -1 := by
  unfold getBestMove
  rw [gbmLoop_no_improve]
  intro i hi hie
  exact absurd hie (h i (List.mem_range.mp hi))

theorem Player.other_ne (p : Player) : p.other ≠ p := by
  cases p <;> simp [Player.other]

theorem reachable_length {b : Board} {p : Player} (h : Reachable b p) :
    b.length = 9 := by
  induction h with
  | init => rfl
  | step _ _ _ _ ih => rw [List.length_set]; exact ih

/-! ### Claim theorems -/

/-- C1: for every board and depth, the score function checks its base
cases in source order: an X win returns 10 - depth, else an O win
returns depth - 10, else a full board returns 0, and only otherwise
does it enter the maximizing or minimizing loop. -/
theorem c1_base_case_order :
    ∀ (b : Board) (d : Nat) (t : Bool) (α β : Score),
      (checkWinnerForMiniMax b = some Player.X →
        minimax b d t α β = (Score.val (10 - (d : Int)), b)) ∧
      (checkWinnerForMiniMax b = some Player.O →
        minimax b d t α β = (Score.val ((d : Int) - 10), b)) ∧
      (checkWinnerForMiniMax b = none → isBoardFull b = true →
        minimax b d t α β = (Score.val 0, b)) ∧
      (checkWinnerForMiniMax b = none → isBoardFull b = false →
        minimax b d t α β =
          (if t then
            maxLoop (minimaxF b.length) (List.range b.length) b d
              Score.negInf α β
          else
            minLoop (minimaxF b.length) (List.range b.length) b d
              Score.posInf α β)) := by
  intro b d t α β
  refine ⟨?_, ?_, ?_, ?_⟩
  · intro h
    simp only [minimax, minimaxF, h]
  · intro h
    simp only [minimax, minimaxF, h]
  · intro h hf
    simp only [minimax, minimaxF, h, hf, if_true]
  · intro h hf
    simp only [minimax, minimaxF, h, hf, Bool.false_eq_true, if_false]

/-- C3: getBestMove scores each empty cell by placing X and calling
minimax at depth 0 with the opponent to move and full bounds, and
returns the first empty cell whose score strictly beats every earlier
empty cell's score and is not beaten by any later one. -/
theorem c3_first_strict_argmax :
    ∀ b : Board, (∃ i, i < b.length ∧ b.getD i none = none) →
      ∃ j : Nat, getBestMove b = Int.ofNat j ∧ j < b.length ∧
        b.getD j none = none ∧
        (∀ i, i < j → b.getD i none = none →
          moveScore b i < moveScore b j) ∧
        (∀ i, j < i → i < b.length → b.getD i none = none →
          moveScore b i ≤ moveScore b j) :=
  fun _ h => getBestMove_spec h

/-- C4: the evaluator reports a winner exactly through the 8 fixed
triples, and the draw flag is set only when there is no winner and the
board is full, so a win takes precedence over a draw. -/
theorem c4_evaluator_triples_and_draw :
    ∀ b : Board, b.length = 9 →
      (∀ p, checkWinnerForMiniMax b = some p → hasWinTriple b p) ∧
      ((∃ p, hasWinTriple b p) → checkWinnerForMiniMax b ≠ none) ∧
      (isDrawReported b = true ↔
        checkWinnerForMiniMax b = none ∧ isBoardFull b = true) ∧
      (isBoardFull b = true → (∃ p, hasWinTriple b p) →
        isDrawReported b = false) := by
  intro b _
  refine ⟨?_, ?_, ?_, ?_⟩
  · intro p h
    exact cw_some_triple h
  · intro ⟨p, hp⟩
    exact triple_cw_ne_none hp
  · simp [isDrawReported, Option.isNone_iff_eq_none, Bool.and_eq_true]
  · intro _ ⟨p, hp⟩
    have := triple_cw_ne_none hp
    simp [isDrawReported, Option.isNone_iff_eq_none]
    intro hcw
    exact absurd hcw this

/-- C5: every call of the search leaves the board exactly as it found
it: minimax, both of its loops (also when a branch is pruned), and
getBestMove's loop all return the board they were given. -/
theorem c5_search_restores_board :
    ∀ (fuel : Nat) (idxs : List Nat) (b : Board) (d : Nat) (t : Bool)
      (α β s : Score) (m : Int),
      (minimax b d t α β).2 = b ∧
      (minimaxF fuel b d t α β).2 = b ∧
      (maxLoop (minimaxF fuel) idxs b d s α β).2 = b ∧
      (minLoop (minimaxF fuel) idxs b d s α β).2 = b ∧
      (getBestMoveLoop idxs b s m).2 = b :=
  fun fuel idxs b d t α β s m =>
    ⟨minimax_snd b d t α β,
     minimaxF_snd fuel b d t α β,
     maxLoop_snd (minimaxF fuel) (minimaxF_snd fuel) idxs b d s α β,
     minLoop_snd (minimaxF fuel) (minimaxF_snd fuel) idxs b d s α β,
     getBestMoveLoop_snd idxs b s m⟩

/-- C6: on a 9-cell board, getBestMove returns the sentinel -1 exactly
when no cell is empty, and otherwise an index in [0,8] whose cell is
empty. -/
theorem c6_sentinel_and_legal_move :
    ∀ b : Board, b.length = 9 →
      ((getBestMove b = -1 ↔ ∀ i, i < 9 → b.getD i none ≠ none) ∧
       ((∃ i, i < 9 ∧ b.getD i none = none) →
         ∃ j : Nat, getBestMove b = Int.ofNat j ∧ j ≤ 8 ∧
           b.getD j none = none)) := by
  intro b hlen
  constructor
  · constructor
    · intro hm1 i hi hie
      rcases getBestMove_spec ⟨i, by omega, hie⟩ with ⟨j, hres, _, _, _, _⟩
      rw [hres] at hm1
      simp [Int.ofNat_eq_coe] at hm1
    · intro hall
      exact getBestMove_of_no_empty (fun i hi => hall i (by omega))
  · intro ⟨i, hi, hie⟩
    rcases getBestMove_spec ⟨i, by omega, hie⟩ with ⟨j, hres, hjn, hje, _, _⟩
    exact ⟨j, hres, by omega, hje⟩

/-- C10: on every board reachable by the game's legal alternating
moves, at most one player has a completed winning triple. -/
theorem c10_no_double_win :
    ∀ (b : Board) (p : Player), Reachable b p →
      ¬ (hasWinTriple b Player.X ∧ hasWinTriple b Player.O) := by
  intro b p h
  induction h with
  | init =>
    intro ⟨hX, _⟩
    exact absurd hX (by decide)
  | @step b p i hr hcw hi he ih =>
    intro ⟨hX, hO⟩
    have hlen : b.length = 9 := reachable_length hr
    have hq : hasWinTriple (b.set i (some p)) p.other := by
      cases p
      · exact hO
      · exact hX
    rcases hq with ⟨t, ht, h1, h2, h3⟩
    have hbi : (b.set i (some p)).getD i none = some p :=
      set_getD_same b i (some p) none (by omega)
    have hcell : ∀ j : Nat,
        (b.set i (some p)).getD j none = some p.other →
        b.getD j none = some p.other := by
      intro j hj
      have hji : i ≠ j := by
        intro hij
        rw [← hij, hbi] at hj
        have := Player.other_ne p
        simp at hj
        exact this hj.symm
      rw [← set_getD_other b i j (some p) none hji]
      exact hj
    have : hasWinTriple b p.other :=
      ⟨t, ht, hcell t.1 h1, hcell t.2.1 h2, hcell t.2.2 h3⟩
    exact absurd hcw (triple_cw_ne_none this)

/-! ### Concrete boards for witnesses -/

def boardXWins : Board :=
  [some Player.X, some Player.X, some Player.X,
   some Player.O, some Player.O, none, none, none, none]

def boardOWins : Board :=
  [some Player.O, some Player.O, some Player.O,
   some Player.X, some Player.X, none, some Player.X, none, none]

def boardDrawn : Board :=
  [some Player.X, some Player.O, some Player.X,
   some Player.O, some Player.O, some Player.X,
   some Player.X, some Player.X, some Player.O]

def boardC7 : Board :=
  [some Player.X, some Player.X, none,
   some Player.O, some Player.O, none, none, none, none]

theorem c1_witness :
    minimax boardXWins 3 true Score.negInf Score.posInf
      = (Score.val 7, boardXWins) ∧
    minimax boardOWins 2 false Score.negInf Score.posInf
      = (Score.val (-8), boardOWins) ∧
    minimax boardDrawn 5 true Score.negInf Score.posInf
      = (Score.val 0, boardDrawn) ∧
    minimax emptyBoard 4 false Score.negInf Score.posInf
      = minLoop (minimaxF emptyBoard.length) (List.range emptyBoard.length)
          emptyBoard 4 Score.posInf Score.negInf Score.posInf := by
  refine ⟨?_, ?_, ?_, ?_⟩
  · have h := (c1_base_case_order boardXWins 3 true Score.negInf
      Score.posInf).1 (by decide)
    rw [h]; decide
  · have h := (c1_base_case_order boardOWins 2 false Score.negInf
      Score.posInf).2.1 (by decide)
    rw [h]; decide
  · exact (c1_base_case_order boardDrawn 5 true Score.negInf
      Score.posInf).2.2.1 (by decide) (by decide)
  · have h := (c1_base_case_order emptyBoard 4 false Score.negInf
      Score.posInf).2.2.2 (by decide) (by decide)
    rw [h]
    simp

theorem c3_witness :
    ∃ j : Nat, getBestMove boardC7 = Int.ofNat j ∧ j < boardC7.length ∧
      boardC7.getD j none = none ∧
      (∀ i, i < j → boardC7.getD i none = none →
        moveScore boardC7 i < moveScore boardC7 j) ∧
      (∀ i, j < i → i < boardC7.length → boardC7.getD i none = none →
        moveScore boardC7 i ≤ moveScore boardC7 j) :=
  c3_first_strict_argmax boardC7 ⟨2, by decide, by decide⟩

theorem c4_witness :
    (∀ p, checkWinnerForMiniMax boardDrawn = some p →
      hasWinTriple boardDrawn p) ∧
    ((∃ p, hasWinTriple boardDrawn p) →
      checkWinnerForMiniMax boardDrawn ≠ none) ∧
    (isDrawReported boardDrawn = true ↔
      checkWinnerForMiniMax boardDrawn = none ∧
        isBoardFull boardDrawn = true) ∧
    (isBoardFull boardDrawn = true → (∃ p, hasWinTriple boardDrawn p) →
      isDrawReported boardDrawn = false) :=
  c4_evaluator_triples_and_draw boardDrawn (by decide)

theorem c6_witness :
    getBestMove boardDrawn = -1 ∧
    (∃ j : Nat, getBestMove boardC7 = Int.ofNat j ∧ j ≤ 8 ∧
      boardC7.getD j none = none) := by
  constructor
  · exact (c6_sentinel_and_legal_move boardDrawn (by decide)).1.mpr (by decide)
  · exact (c6_sentinel_and_legal_move boardC7 (by decide)).2 ⟨2, by decide, by decide⟩

theorem c10_witness :
    ¬ (hasWinTriple (emptyBoard.set 0 (some Player.X)) Player.X ∧
       hasWinTriple (emptyBoard.set 0 (some Player.X)) Player.O) :=
  c10_no_double_win _ _
    (Reachable.step Reachable.init (by decide) (by decide) (by decide))

/-! ### Alpha-beta pruning computes the plain minimax value

The classical fail-soft invariant: calling the pruned search with
bounds alpha < beta returns a value r with
  r <= alpha -> v <= r,  beta <= r -> r <= v,  alpha < r < beta -> r = v
where v is the unpruned value.  At the full window -Infinity/+Infinity
the third case (or degenerate first/second) forces r = v. -/

theorem Score.max_negInf (x : Score) : Score.max Score.negInf x = x := rfl

theorem Score.min_posInf (x : Score) : Score.min Score.posInf x = x := by
  cases x <;> rfl


theorem maxLoopKM (f₁ : Board → Nat → Bool → Score → Score → Score × Board)
    (f₂ : Board → Nat → Bool → Score) (d : Nat)
    (hsnd : ∀ b α β, (f₁ b (d + 1) false α β).2 = b)
    (hKM : ∀ b α β, α < β →
      ((f₁ b (d + 1) false α β).1 ≤ α →
        f₂ b (d + 1) false ≤ (f₁ b (d + 1) false α β).1) ∧
      (β ≤ (f₁ b (d + 1) false α β).1 →
        (f₁ b (d + 1) false α β).1 ≤ f₂ b (d + 1) false) ∧
      (α < (f₁ b (d + 1) false α β).1 → (f₁ b (d + 1) false α β).1 < β →
        (f₁ b (d + 1) false α β).1 = f₂ b (d + 1) false)) :
    ∀ (idxs : List Nat) (b : Board) (s a β : Score), s ≤ a → a < β →
      ((maxLoop f₁ idxs b d s a β).1 ≤ a →
        s ≤ (maxLoop f₁ idxs b d s a β).1 ∧
        plainMaxLoop f₂ idxs b d ≤ (maxLoop f₁ idxs b d s a β).1) ∧
      (β ≤ (maxLoop f₁ idxs b d s a β).1 →
        (maxLoop f₁ idxs b d s a β).1 ≤ plainMaxLoop f₂ idxs b d) ∧
      (a < (maxLoop f₁ idxs b d s a β).1 →
        (maxLoop f₁ idxs b d s a β).1 < β →
        (maxLoop f₁ idxs b d s a β).1
          = Score.max s (plainMaxLoop f₂ idxs b d)) := by
  intro idxs
  induction idxs with
  | nil =>
    intro b s a β hsa hab
    refine ⟨?_, ?_, ?_⟩
    · intro _
      exact ⟨le_refl s, Score.negInf_le s⟩
    · intro hbs
      exact absurd (lt_of_lt_of_le hab (le_trans hbs hsa)) (lt_irrefl a)
    · intro has _
      exact absurd (lt_of_lt_of_le has hsa) (lt_irrefl a)
  | cons i rest ih =>
    intro b s a β hsa hab
    by_cases hE : b.getD i none = none
    · have hb2 : (f₁ (b.set i (some Player.X)) (d + 1) false a β).2.set i none
          = b := by
        rw [hsnd, List.set_set, set_getD_id b i hE]
      obtain ⟨hc1, hc2, hc3⟩ := hKM (b.set i (some Player.X)) a β hab
      set rc := (f₁ (b.set i (some Player.X)) (d + 1) false a β).1 with hrc
      set w := f₂ (b.set i (some Player.X)) (d + 1) false with hwdef
      set V := plainMaxLoop f₂ rest b d with hV
      simp only [maxLoop, plainMaxLoop, hE, if_pos, hb2, ← hrc, ← hwdef, ← hV]
      by_cases hbreak : Score.ble β (Score.max a rc) = true
      · -- pruning branch: beta <= alpha after this child, loop stops
        rw [if_pos hbreak]
        have hb' : β ≤ Score.max a rc := Score.ble_true_iff.mp hbreak
        have hbrc : β ≤ rc := by
          rcases max_choice a rc with hm | hm
          · have ha' : β ≤ a := le_trans hb' (le_of_eq hm)
            exact absurd (lt_of_lt_of_le hab ha') (lt_irrefl a)
          · exact le_trans hb' (le_of_eq hm)
        have hsrc : s ≤ rc := le_trans hsa (le_trans (le_of_lt hab) hbrc)
        refine ⟨?_, ?_, ?_⟩
        · intro hra
          have hrca : rc ≤ a := le_trans (le_max_left rc s) hra
          exact absurd (lt_of_lt_of_le hab (le_trans hbrc hrca)) (lt_irrefl a)
        · intro _
          have h1 : rc ≤ Score.max w V := le_trans (hc2 hbrc) (le_max_left w V)
          exact max_le h1 (le_trans hsrc h1)
        · intro _ hrb
          have hβr : β ≤ Score.max rc s := le_trans hbrc (le_max_left rc s)
          exact absurd (lt_of_le_of_lt hβr hrb) (lt_irrefl β)
      · -- no pruning: the loop continues with updated best and alpha
        rw [if_neg hbreak]
        have hab2 : Score.max a rc < β := by
          rcases lt_or_ge (Score.max a rc) β with h | h
          · exact h
          · exact absurd (Score.ble_true_iff.mpr h) hbreak
        have hrcb : rc < β := lt_of_le_of_lt (le_max_right a rc) hab2
        have hwrc : w ≤ rc := by
          rcases le_or_lt rc a with hrca | harc
          · exact hc1 hrca
          · exact le_of_eq (hc3 harc hrcb).symm
        have hs2a2 : Score.max rc s ≤ Score.max a rc :=
          max_le (le_max_right a rc) (le_trans hsa (le_max_left a rc))
        obtain ⟨ihA, ihB, ihC⟩ := ih b (Score.max rc s) (Score.max a rc) β
          hs2a2 hab2
        set r := (maxLoop f₁ rest b d (Score.max rc s) (Score.max a rc) β).1
          with hrdef
        refine ⟨?_, ?_, ?_⟩
        · intro hra
          have hra2 : r ≤ Score.max a rc := le_trans hra (le_max_left a rc)
          obtain ⟨hsr, hVr⟩ := ihA hra2
          refine ⟨le_trans (le_max_right rc s) hsr, ?_⟩
          refine max_le ?_ hVr
          exact le_trans hwrc (le_trans (le_max_left rc s) hsr)
        · intro hbr
          exact le_trans (ihB hbr) (le_max_right w V)
        · intro har hrb
          rcases le_or_lt r (Score.max a rc) with hra2 | har2
          · obtain ⟨hsr, hVr⟩ := ihA hra2
            have hrcr : rc ≤ r := le_trans (le_max_left rc s) hsr
            have hrrc : r = rc := by
              refine le_antisymm ?_ hrcr
              rcases max_choice a rc with hm | hm
              · have hra' : r ≤ a := le_trans hra2 (le_of_eq hm)
                exact absurd (lt_of_lt_of_le har hra') (lt_irrefl a)
              · exact le_trans hra2 (le_of_eq hm)
            have harc : a < rc := hrrc ▸ har
            have hrw : rc = w := hc3 harc hrcb
            have hsr' : s ≤ r := le_trans (le_max_right rc s) hsr
            have hwr : w ≤ r := le_of_eq (hrw.symm.trans hrrc.symm)
            refine le_antisymm ?_ (max_le hsr' (max_le hwr hVr))
            have hrwV : r ≤ Score.max w V := by
              have : r ≤ w := le_of_eq (hrrc.trans hrw)
              exact le_trans this (le_max_left w V)
            exact le_trans hrwV (le_max_right s (Score.max w V))
          · have hreq : r = Score.max (Score.max rc s) V := ihC har2 hrb
            have har' : a < r := lt_of_le_of_lt (le_max_left a rc) har2
            have hsr : s ≤ r := le_trans hsa (le_of_lt har')
            have hVr : V ≤ r :=
              le_trans (le_max_right (Score.max rc s) V) (le_of_eq hreq.symm)
            have hrcr : rc ≤ r :=
              le_trans (le_trans (le_max_left rc s)
                (le_max_left (Score.max rc s) V)) (le_of_eq hreq.symm)
            have hwr : w ≤ r := le_trans hwrc hrcr
            refine le_antisymm ?_ (max_le hsr (max_le hwr hVr))
            rcases le_or_lt rc a with hrca | harc
            · -- the child failed low, so the final best came from the rest
              have hmax_lt : Score.max rc s < r :=
                lt_of_le_of_lt (max_le hrca hsa) har'
              have hrV : r = V := by
                rcases max_choice (Score.max rc s) V with hm | hm
                · have h1 : r = Score.max rc s := hreq.trans hm
                  exact absurd (h1 ▸ hmax_lt) (lt_irrefl _)
                · exact hreq.trans hm
              rw [hrV]
              exact le_trans (le_max_right w V) (le_max_right s _)
            · have hrw : rc = w := hc3 harc hrcb
              have h1 : Score.max rc s ≤ Score.max s (Score.max w V) := by
                refine max_le ?_ (le_max_left s (Score.max w V))
                exact le_trans (le_of_eq hrw)
                  (le_trans (le_max_left w V) (le_max_right s _))
              have h2 : V ≤ Score.max s (Score.max w V) :=
                le_trans (le_max_right w V) (le_max_right s _)
              exact le_trans (le_of_eq hreq) (max_le h1 h2)
    · simp only [maxLoop, plainMaxLoop]
      rw [if_neg hE, if_neg hE]
      exact ih b s a β hsa hab

theorem minLoopKM (f₁ : Board → Nat → Bool → Score → Score → Score × Board)
    (f₂ : Board → Nat → Bool → Score) (d : Nat)
    (hsnd : ∀ b α β, (f₁ b (d + 1) true α β).2 = b)
    (hKM : ∀ b α β, α < β →
      ((f₁ b (d + 1) true α β).1 ≤ α →
        f₂ b (d + 1) true ≤ (f₁ b (d + 1) true α β).1) ∧
      (β ≤ (f₁ b (d + 1) true α β).1 →
        (f₁ b (d + 1) true α β).1 ≤ f₂ b (d + 1) true) ∧
      (α < (f₁ b (d + 1) true α β).1 → (f₁ b (d + 1) true α β).1 < β →
        (f₁ b (d + 1) true α β).1 = f₂ b (d + 1) true)) :
    ∀ (idxs : List Nat) (b : Board) (s a β : Score), β ≤ s → a < β →
      ((minLoop f₁ idxs b d s a β).1 ≤ a →
        plainMinLoop f₂ idxs b d ≤ (minLoop f₁ idxs b d s a β).1) ∧
      (β ≤ (minLoop f₁ idxs b d s a β).1 →
        (minLoop f₁ idxs b d s a β).1 ≤ s ∧
        (minLoop f₁ idxs b d s a β).1 ≤ plainMinLoop f₂ idxs b d) ∧
      (a < (minLoop f₁ idxs b d s a β).1 →
        (minLoop f₁ idxs b d s a β).1 < β →
        (minLoop f₁ idxs b d s a β).1
          = Score.min s (plainMinLoop f₂ idxs b d)) := by
  intro idxs
  induction idxs with
  | nil =>
    intro b s a β hβs hab
    refine ⟨?_, ?_, ?_⟩
    · intro hra
      exact absurd (lt_of_lt_of_le hab (le_trans hβs hra)) (lt_irrefl a)
    · intro _
      exact ⟨le_refl s, Score.le_posInf s⟩
    · intro _ hrb
      exact absurd (lt_of_le_of_lt hβs hrb) (lt_irrefl β)
  | cons i rest ih =>
    intro b s a β hβs hab
    by_cases hE : b.getD i none = none
    · have hb2 : (f₁ (b.set i (some Player.O)) (d + 1) true a β).2.set i none
          = b := by
        rw [hsnd, List.set_set, set_getD_id b i hE]
      obtain ⟨hc1, hc2, hc3⟩ := hKM (b.set i (some Player.O)) a β hab
      set rc := (f₁ (b.set i (some Player.O)) (d + 1) true a β).1 with hrc
      set w := f₂ (b.set i (some Player.O)) (d + 1) true with hwdef
      set V := plainMinLoop f₂ rest b d with hV
      simp only [minLoop, plainMinLoop, hE, if_pos, hb2, ← hrc, ← hwdef, ← hV]
      by_cases hbreak : Score.ble (Score.min β rc) a = true
      · -- pruning branch: beta <= alpha after this child, loop stops
        rw [if_pos hbreak]
        have hb' : Score.min β rc ≤ a := Score.ble_true_iff.mp hbreak
        have hrca : rc ≤ a := by
          rcases min_choice β rc with hm | hm
          · have hba : β ≤ a := le_trans (le_of_eq hm.symm) hb'
            exact absurd (lt_of_lt_of_le hab hba) (lt_irrefl a)
          · exact le_trans (le_of_eq hm.symm) hb'
        have hrcs : rc ≤ s := le_trans hrca (le_trans (le_of_lt hab) hβs)
        refine ⟨?_, ?_, ?_⟩
        · intro _
          have hwrc : w ≤ rc := hc1 hrca
          refine le_min ?_ ?_
          · exact le_trans (min_le_left w V) hwrc
          · exact le_trans (le_trans (min_le_left w V) hwrc) hrcs
        · intro hbr
          have : β ≤ a :=
            le_trans hbr (le_trans (min_le_left rc s) hrca)
          exact absurd (lt_of_lt_of_le hab this) (lt_irrefl a)
        · intro har _
          have : a < a :=
            lt_of_lt_of_le har (le_trans (min_le_left rc s) hrca)
          exact absurd this (lt_irrefl a)
      · -- no pruning: the loop continues with updated best and beta
        rw [if_neg hbreak]
        have hab2 : a < Score.min β rc := by
          rcases lt_or_ge a (Score.min β rc) with h | h
          · exact h
          · exact absurd (Score.ble_true_iff.mpr h) hbreak
        have harc : a < rc := lt_of_lt_of_le hab2 (min_le_right β rc)
        have hrcw : rc ≤ w := by
          rcases le_or_lt β rc with hbrc | hrcb
          · exact hc2 hbrc
          · exact le_of_eq (hc3 harc hrcb)
        have hβ2s2 : Score.min β rc ≤ Score.min rc s :=
          le_min (min_le_right β rc)
            (le_trans (min_le_left β rc) hβs)
        obtain ⟨ihA, ihB, ihC⟩ := ih b (Score.min rc s) a (Score.min β rc)
          hβ2s2 hab2
        set r := (minLoop f₁ rest b d (Score.min rc s) a (Score.min β rc)).1
          with hrdef
        refine ⟨?_, ?_, ?_⟩
        · intro hra
          have hVr : V ≤ r := ihA hra
          exact le_trans (min_le_right w V) hVr
        · intro hbr
          have hb2r : Score.min β rc ≤ r := le_trans (min_le_left β rc) hbr
          obtain ⟨hrs', hrV⟩ := ihB hb2r
          refine ⟨le_trans hrs' (min_le_right rc s), ?_⟩
          refine le_min ?_ hrV
          exact le_trans (le_trans hrs' (min_le_left rc s)) hrcw
        · intro har hrb
          rcases le_or_lt (Score.min β rc) r with hb2r | hrb2
          · obtain ⟨hrs', hrV⟩ := ihB hb2r
            have hrcr : r ≤ rc := le_trans hrs' (min_le_left rc s)
            have hrrc : r = rc := by
              refine le_antisymm hrcr ?_
              rcases min_choice β rc with hm | hm
              · have hbr' : β ≤ r := le_trans (le_of_eq hm.symm) hb2r
                exact absurd (lt_of_le_of_lt hbr' hrb) (lt_irrefl β)
              · exact le_trans (le_of_eq hm.symm) hb2r
            have hrw : rc = w := hc3 (hrrc ▸ har) (hrrc ▸ hrb)
            have hsr' : r ≤ s := le_trans hrs' (min_le_right rc s)
            have hrw' : r ≤ w := le_of_eq (hrrc.trans hrw)
            refine le_antisymm (le_min hsr' (le_min hrw' hrV)) ?_
            have hVwr : Score.min w V ≤ r := by
              have : w ≤ r := le_of_eq (hrw.symm.trans hrrc.symm)
              exact le_trans (min_le_left w V) this
            exact le_trans (min_le_right s (Score.min w V)) hVwr
          · have hreq : r = Score.min (Score.min rc s) V := ihC har hrb2
            have har' : r < β := lt_of_lt_of_le hrb2 (min_le_left β rc)
            have hsr : r ≤ s :=
              le_trans (le_of_eq hreq)
                (le_trans (min_le_left (Score.min rc s) V) (min_le_right rc s))
            have hVr : r ≤ V :=
              le_trans (le_of_eq hreq) (min_le_right (Score.min rc s) V)
            have hrcr : r ≤ rc :=
              le_trans (le_of_eq hreq)
                (le_trans (min_le_left (Score.min rc s) V) (min_le_left rc s))
            have hwr : r ≤ w := le_trans hrcr hrcw
            refine le_antisymm (le_min hsr (le_min hwr hVr)) ?_
            rcases le_or_lt β rc with hbrc | hrcb
            · -- the child failed high, so the final best came from the rest
              have hmin_gt : r < Score.min rc s :=
                lt_of_lt_of_le har' (le_min hbrc hβs)
              have hrV : r = V := by
                rcases min_choice (Score.min rc s) V with hm | hm
                · have h1 : r = Score.min rc s := hreq.trans hm
                  exact absurd (h1 ▸ hmin_gt) (lt_irrefl _)
                · exact hreq.trans hm
              rw [hrV]
              exact le_trans (min_le_right s (Score.min w V))
                (min_le_right w V)
            · have hrw : rc = w := hc3 harc hrcb
              have h1 : Score.min s (Score.min w V) ≤ Score.min rc s := by
                refine le_min ?_ (min_le_left s (Score.min w V))
                exact le_trans (le_trans (min_le_right s (Score.min w V))
                  (min_le_left w V)) (le_of_eq hrw.symm)
              have h2 : Score.min s (Score.min w V) ≤ V :=
                le_trans (min_le_right s (Score.min w V)) (min_le_right w V)
              exact le_trans (le_min h1 h2) (le_of_eq hreq.symm)
    · simp only [minLoop, plainMinLoop]
      rw [if_neg hE, if_neg hE]
      exact ih b s a β hβs hab

theorem minimaxF_KM :
    ∀ (fuel : Nat) (b : Board) (d : Nat) (t : Bool) (α β : Score), α < β →
      ((minimaxF fuel b d t α β).1 ≤ α →
        plainMinimaxF fuel b d t ≤ (minimaxF fuel b d t α β).1) ∧
      (β ≤ (minimaxF fuel b d t α β).1 →
        (minimaxF fuel b d t α β).1 ≤ plainMinimaxF fuel b d t) ∧
      (α < (minimaxF fuel b d t α β).1 → (minimaxF fuel b d t α β).1 < β →
        (minimaxF fuel b d t α β).1 = plainMinimaxF fuel b d t) := by
  intro fuel
  induction fuel with
  | zero =>
    intro b d t α β _
    exact ⟨fun _ => le_refl _, fun _ => le_refl _, fun _ _ => rfl⟩
  | succ fuel ih =>
    intro b d t α β hab
    simp only [minimaxF, plainMinimaxF]
    rcases hw : checkWinnerForMiniMax b with _ | p
    · simp only []
      rcases hF : isBoardFull b with _ | _
      · simp only [Bool.false_eq_true, if_false]
        cases t
        · simp only [Bool.false_eq_true, if_false]
          have h := minLoopKM (minimaxF fuel) (plainMinimaxF fuel) d
            (fun b' α' β' => minimaxF_snd fuel b' (d + 1) true α' β')
            (fun b' α' β' h' => ih b' (d + 1) true α' β' h')
            (List.range b.length) b Score.posInf α β (Score.le_posInf β) hab
          refine ⟨h.1, fun hbr => (h.2.1 hbr).2, fun h1 h2 => ?_⟩
          exact (h.2.2 h1 h2).trans (Score.min_posInf _)
        · simp only [if_true]
          have h := maxLoopKM (minimaxF fuel) (plainMinimaxF fuel) d
            (fun b' α' β' => minimaxF_snd fuel b' (d + 1) false α' β')
            (fun b' α' β' h' => ih b' (d + 1) false α' β' h')
            (List.range b.length) b Score.negInf α β (Score.negInf_le α) hab
          refine ⟨fun hra => (h.1 hra).2, h.2.1, fun h1 h2 => ?_⟩
          exact (h.2.2 h1 h2).trans (Score.max_negInf _)
      · simp only [if_true]
        exact ⟨fun _ => le_refl _, fun _ => le_refl _, fun _ _ => by trivial⟩
    · cases p
      · exact ⟨fun _ => le_refl _, fun _ => le_refl _, fun _ _ => rfl⟩
      · exact ⟨fun _ => le_refl _, fun _ => le_refl _, fun _ _ => rfl⟩

/-- At the full window the pruned search equals the plain value. -/
theorem minimaxF_full_window (fuel : Nat) (b : Board) (d : Nat) (t : Bool) :
    (minimaxF fuel b d t Score.negInf Score.posInf).1
      = plainMinimaxF fuel b d t := by
  obtain ⟨h1, h2, h3⟩ := minimaxF_KM fuel b d t Score.negInf Score.posInf
    (by decide)
  rcases hr : (minimaxF fuel b d t Score.negInf Score.posInf).1 with _ | n | _
  · have hvr := h1 (by rw [hr])
    rw [hr] at hvr
    exact (le_antisymm hvr (Score.negInf_le _)).symm
  · have h := h3 (by rw [hr]; exact Score.negInf_lt_val n)
      (by rw [hr]; exact Score.val_lt_posInf n)
    rw [hr] at h
    exact h
  · have hrv := h2 (by rw [hr])
    rw [hr] at hrv
    exact le_antisymm hrv (Score.le_posInf _)

theorem gbmLoop_plain_eq :
    ∀ (idxs : List Nat) (b : Board) (s : Score) (m : Int),
      (getBestMoveLoop idxs b s m).1 = plainGetBestMoveLoop idxs b s m := by
  intro idxs
  induction idxs with
  | nil => intro b s m; rfl
  | cons i rest ih =>
    intro b s m
    by_cases hE : b.getD i none = none
    · have hb2 : (minimax (b.set i (some Player.X)) 0 false
          Score.negInf Score.posInf).2.set i none = b := by
        rw [minimax_snd, List.set_set, set_getD_id b i hE]
      have hfst : (minimax (b.set i (some Player.X)) 0 false
          Score.negInf Score.posInf).1
          = plainMinimax (b.set i (some Player.X)) 0 false :=
        minimaxF_full_window _ _ 0 false
      simp only [getBestMoveLoop, plainGetBestMoveLoop, hE, if_pos, hb2, hfst]
      split
      · exact ih b _ _
      · exact ih b s m
    · simp only [getBestMoveLoop, plainGetBestMoveLoop]
      rw [if_neg hE, if_neg hE]
      exact ih b s m

/-- C2: with the initial bounds -Infinity and +Infinity, alpha-beta
pruning never changes the value minimax returns, and therefore never
changes the move getBestMove selects. -/
theorem c2_pruning_preserves_value :
    ∀ (b : Board) (d : Nat) (t : Bool),
      (minimax b d t Score.negInf Score.posInf).1 = plainMinimax b d t ∧
      getBestMove b = plainGetBestMove b := by
  intro b d t
  constructor
  · exact minimaxF_full_window (b.length + 1) b d t
  · unfold getBestMove plainGetBestMove
    exact gbmLoop_plain_eq (List.range b.length) b Score.negInf (-1)

/-! ### Bounds on the plain minimax value -/

theorem plainMaxLoop_le (f₂ : Board → Nat → Bool → Score) {B : Score} :
    ∀ (idxs : List Nat) (b : Board) (d : Nat),
      (∀ i ∈ idxs, b.getD i none = none →
        f₂ (b.set i (some Player.X)) (d + 1) false ≤ B) →
      plainMaxLoop f₂ idxs b d ≤ B := by
  intro idxs
  induction idxs with
  | nil => intro b d _; exact Score.negInf_le B
  | cons i rest ih =>
    intro b d h
    by_cases hE : b.getD i none = none
    · simp only [plainMaxLoop, hE, if_pos]
      exact max_le (h i (List.mem_cons_self i rest) hE)
        (ih b d (fun j hj hje => h j (List.mem_cons_of_mem i hj) hje))
    · simp only [plainMaxLoop]
      rw [if_neg hE]
      exact ih b d (fun j hj hje => h j (List.mem_cons_of_mem i hj) hje)

theorem plainMaxLoop_ge_child (f₂ : Board → Nat → Bool → Score) :
    ∀ (idxs : List Nat) (b : Board) (d : Nat) {i : Nat}, i ∈ idxs →
      b.getD i none = none →
      f₂ (b.set i (some Player.X)) (d + 1) false ≤ plainMaxLoop f₂ idxs b d := by
  intro idxs
  induction idxs with
  | nil => intro b d i hi; simp at hi
  | cons j rest ih =>
    intro b d i hi hie
    rcases List.mem_cons.mp hi with rfl | hi'
    · simp only [plainMaxLoop, hie, if_pos]
      exact le_max_left _ _
    · by_cases hE : b.getD j none = none
      · simp only [plainMaxLoop, hE, if_pos]
        exact le_trans (ih b d hi' hie) (le_max_right _ _)
      · simp only [plainMaxLoop]
        rw [if_neg hE]
        exact ih b d hi' hie

theorem plainMinLoop_ge (f₂ : Board → Nat → Bool → Score) {B : Score} :
    ∀ (idxs : List Nat) (b : Board) (d : Nat),
      (∀ i ∈ idxs, b.getD i none = none →
        B ≤ f₂ (b.set i (some Player.O)) (d + 1) true) →
      B ≤ plainMinLoop f₂ idxs b d := by
  intro idxs
  induction idxs with
  | nil => intro b d _; exact Score.le_posInf B
  | cons i rest ih =>
    intro b d h
    by_cases hE : b.getD i none = none
    · simp only [plainMinLoop, hE, if_pos]
      exact le_min (h i (List.mem_cons_self i rest) hE)
        (ih b d (fun j hj hje => h j (List.mem_cons_of_mem i hj) hje))
    · simp only [plainMinLoop]
      rw [if_neg hE]
      exact ih b d (fun j hj hje => h j (List.mem_cons_of_mem i hj) hje)

theorem plainMinLoop_le_child (f₂ : Board → Nat → Bool → Score) :
    ∀ (idxs : List Nat) (b : Board) (d : Nat) {i : Nat}, i ∈ idxs →
      b.getD i none = none →
      plainMinLoop f₂ idxs b d ≤ f₂ (b.set i (some Player.O)) (d + 1) true := by
  intro idxs
  induction idxs with
  | nil => intro b d i hi; simp at hi
  | cons j rest ih =>
    intro b d i hi hie
    rcases List.mem_cons.mp hi with rfl | hi'
    · simp only [plainMinLoop, hie, if_pos]
      exact min_le_left _ _
    · by_cases hE : b.getD j none = none
      · simp only [plainMinLoop, hE, if_pos]
        exact le_trans (min_le_right _ _) (ih b d hi' hie)
      · simp only [plainMinLoop]
        rw [if_neg hE]
        exact ih b d hi' hie

/-- Every score the plain search can produce from depth d is at most
10 - d, as long as the search cannot run past depth 10. -/
theorem plainMinimaxF_le :
    ∀ (fuel : Nat) (b : Board) (d : Nat) (t : Bool),
      (d : Int) + fuel ≤ 10 →
      plainMinimaxF fuel b d t ≤ Score.val (10 - (d : Int)) := by
  intro fuel
  induction fuel with
  | zero =>
    intro b d t hd
    show Score.val 0 ≤ Score.val (10 - (d : Int))
    rw [Score.val_le_val]
    omega
  | succ fuel ih =>
    intro b d t hd
    have hd9 : (d : Int) ≤ 9 := by
      have : (fuel : Int) ≥ 0 := Int.natCast_nonneg fuel
      push_cast at hd
      omega
    simp only [plainMinimaxF]
    rcases hw : checkWinnerForMiniMax b with _ | p
    · simp only []
      rcases hF : isBoardFull b with _ | _
      · simp only [Bool.false_eq_true, if_false]
        have hchild : ∀ (b' : Board) (t' : Bool),
            plainMinimaxF fuel b' (d + 1) t' ≤ Score.val (10 - (d : Int)) := by
          intro b' t'
          refine le_trans (ih b' (d + 1) t' (by push_cast; push_cast at hd; omega)) ?_
          rw [Score.val_le_val]
          push_cast
          omega
        cases t
        · simp only [Bool.false_eq_true, if_false]
          rcases exists_empty_of_not_full hF with ⟨i, hi, hie⟩
          exact le_trans (plainMinLoop_le_child (plainMinimaxF fuel)
            (List.range b.length) b d (List.mem_range.mpr hi) hie)
            (hchild _ _)
        · simp only [if_true]
          exact plainMaxLoop_le (plainMinimaxF fuel) (List.range b.length) b d
            (fun i _ hie => hchild _ _)
      · simp only [if_true, Score.val_le_val]
        omega
    · cases p
      · simp only [le_refl]
      · rw [Score.val_le_val]
        omega

/-- Every score the plain search can produce from depth d is at least
d - 10, as long as the search cannot run past depth 10. -/
theorem plainMinimaxF_ge :
    ∀ (fuel : Nat) (b : Board) (d : Nat) (t : Bool),
      (d : Int) + fuel ≤ 10 →
      Score.val ((d : Int) - 10) ≤ plainMinimaxF fuel b d t := by
  intro fuel
  induction fuel with
  | zero =>
    intro b d t hd
    show Score.val ((d : Int) - 10) ≤ Score.val 0
    rw [Score.val_le_val]
    omega
  | succ fuel ih =>
    intro b d t hd
    have hd9 : (d : Int) ≤ 9 := by
      have : (fuel : Int) ≥ 0 := Int.natCast_nonneg fuel
      push_cast at hd
      omega
    simp only [plainMinimaxF]
    rcases hw : checkWinnerForMiniMax b with _ | p
    · simp only []
      rcases hF : isBoardFull b with _ | _
      · simp only [Bool.false_eq_true, if_false]
        have hchild : ∀ (b' : Board) (t' : Bool),
            Score.val ((d : Int) - 10) ≤ plainMinimaxF fuel b' (d + 1) t' := by
          intro b' t'
          refine le_trans ?_ (ih b' (d + 1) t' (by push_cast; push_cast at hd; omega))
          rw [Score.val_le_val]
          push_cast
          omega
        cases t
        · simp only [Bool.false_eq_true, if_false]
          exact plainMinLoop_ge (plainMinimaxF fuel) (List.range b.length) b d
            (fun i _ hie => hchild _ _)
        · simp only [if_true]
          rcases exists_empty_of_not_full hF with ⟨i, hi, hie⟩
          exact le_trans (hchild _ _)
            (plainMaxLoop_ge_child (plainMinimaxF fuel)
              (List.range b.length) b d (List.mem_range.mpr hi) hie)
      · simp only [if_true, Score.val_le_val]
        omega
    · cases p
      · rw [Score.val_le_val]
        omega
      · simp only [le_refl]

/-- Without a winner already on the board, a win can come at depth
d + 1 at the earliest, so the value is at most 10 - d - 1. -/
theorem plainMinimaxF_le_of_no_winner :
    ∀ (fuel : Nat) (b : Board) (d : Nat) (t : Bool),
      checkWinnerForMiniMax b = none → 1 ≤ fuel → (d : Int) + fuel ≤ 10 →
      plainMinimaxF fuel b d t ≤ Score.val (10 - (d : Int) - 1) := by
  intro fuel b d t hw hfuel hd
  rcases fuel with _ | fuel
  · omega
  · have hd9 : (d : Int) ≤ 9 := by
      have : (fuel : Int) ≥ 0 := Int.natCast_nonneg fuel
      push_cast at hd
      omega
    simp only [plainMinimaxF, hw]
    have hchild : ∀ (b' : Board) (t' : Bool),
        plainMinimaxF fuel b' (d + 1) t' ≤ Score.val (10 - (d : Int) - 1) := by
      intro b' t'
      refine le_trans (plainMinimaxF_le fuel b' (d + 1) t'
        (by push_cast; push_cast at hd; omega)) ?_
      rw [Score.val_le_val]
      push_cast
      omega
    rcases hF : isBoardFull b with _ | _
    · simp only [Bool.false_eq_true, if_false]
      cases t
      · simp only [Bool.false_eq_true, if_false]
        rcases exists_empty_of_not_full hF with ⟨i, hi, hie⟩
        exact le_trans (plainMinLoop_le_child (plainMinimaxF fuel)
          (List.range b.length) b d (List.mem_range.mpr hi) hie) (hchild _ _)
      · simp only [if_true]
        exact plainMaxLoop_le (plainMinimaxF fuel) (List.range b.length) b d
          (fun i _ hie => hchild _ _)
    · simp only [if_true, Score.val_le_val]
      omega

/-- Without a winner already on the board, a loss can come at depth
d + 1 at the earliest, so the value is at least d + 1 - 10. -/
theorem plainMinimaxF_ge_of_no_winner :
    ∀ (fuel : Nat) (b : Board) (d : Nat) (t : Bool),
      checkWinnerForMiniMax b = none → 1 ≤ fuel → (d : Int) + fuel ≤ 10 →
      Score.val ((d : Int) + 1 - 10) ≤ plainMinimaxF fuel b d t := by
  intro fuel b d t hw hfuel hd
  rcases fuel with _ | fuel
  · omega
  · have hd9 : (d : Int) ≤ 9 := by
      have : (fuel : Int) ≥ 0 := Int.natCast_nonneg fuel
      push_cast at hd
      omega
    simp only [plainMinimaxF, hw]
    have hchild : ∀ (b' : Board) (t' : Bool),
        Score.val ((d : Int) + 1 - 10) ≤ plainMinimaxF fuel b' (d + 1) t' := by
      intro b' t'
      refine le_trans ?_ (plainMinimaxF_ge fuel b' (d + 1) t'
        (by push_cast; push_cast at hd; omega))
      rw [Score.val_le_val]
      push_cast
      omega
    rcases hF : isBoardFull b with _ | _
    · simp only [Bool.false_eq_true, if_false]
      cases t
      · simp only [Bool.false_eq_true, if_false]
        exact plainMinLoop_ge (plainMinimaxF fuel) (List.range b.length) b d
          (fun i _ hie => hchild _ _)
      · simp only [if_true]
        rcases exists_empty_of_not_full hF with ⟨i, hi, hie⟩
        exact le_trans (hchild _ _) (plainMaxLoop_ge_child (plainMinimaxF fuel)
          (List.range b.length) b d (List.mem_range.mpr hi) hie)
    · simp only [if_true, Score.val_le_val]
      omega

/-! ### Triple bookkeeping for tactical claims -/

/-- A triple of the player who did not just move was already there. -/
theorem hasWinTriple_set_other {b : Board} {i : Nat} {p q : Player}
    (hlen : i < b.length) (h : hasWinTriple (b.set i (some p)) q)
    (hne : q ≠ p) : hasWinTriple b q := by
  rcases h with ⟨t, ht, h1, h2, h3⟩
  have hbi : (b.set i (some p)).getD i none = some p :=
    set_getD_same b i (some p) none hlen
  have hcell : ∀ j : Nat, (b.set i (some p)).getD j none = some q →
      b.getD j none = some q := by
    intro j hj
    have hji : i ≠ j := by
      intro hij
      rw [← hij, hbi] at hj
      injection hj with hj'
      exact hne hj'.symm
    rw [← set_getD_other b i j (some p) none hji]
    exact hj
  exact ⟨t, ht, hcell t.1 h1, hcell t.2.1 h2, hcell t.2.2 h3⟩

/-- A board without a reported winner has no winning triple at all. -/
theorem no_triple_of_cw_none {b : Board} (h : checkWinnerForMiniMax b = none)
    (q : Player) : ¬ hasWinTriple b q :=
  cw_none_no_triple h

/-- If neither player has a triple the evaluator reports no winner. -/
theorem cw_none_of_no_triples {b : Board}
    (hX : ¬ hasWinTriple b Player.X) (hO : ¬ hasWinTriple b Player.O) :
    checkWinnerForMiniMax b = none := by
  rcases hcw : checkWinnerForMiniMax b with _ | p
  · rfl
  · cases p
    · exact absurd (cw_some_triple hcw) hX
    · exact absurd (cw_some_triple hcw) hO

/-- The score function's first base case, as a reusable lemma. -/
theorem minimax_fst_of_X_win {b : Board} {d : Nat} {t : Bool} {α β : Score}
    (h : checkWinnerForMiniMax b = some Player.X) :
    (minimax b d t α β).1 = Score.val (10 - (d : Int)) := by
  simp only [minimax, minimaxF, h]

/-- The score function's second base case, as a reusable lemma. -/
theorem minimax_fst_of_O_win {b : Board} {d : Nat} {t : Bool} {α β : Score}
    (h : checkWinnerForMiniMax b = some Player.O) :
    (minimax b d t α β).1 = Score.val ((d : Int) - 10) := by
  simp only [minimax, minimaxF, h]

/-- C7: with exactly one move that completes an immediate
three-in-a-row for the AI on a non-terminal 9-cell board, getBestMove
takes it; in particular it plays cell 2 on [X,X,_,O,O,_,_,_,_]. -/
theorem c7_takes_immediate_win :
    (∀ (b : Board) (w : Nat),
      b.length = 9 → checkWinnerForMiniMax b = none →
      w < 9 → b.getD w none = none →
      hasWinTriple (b.set w (some Player.X)) Player.X →
      (∀ i, i < 9 → b.getD i none = none →
        hasWinTriple (b.set i (some Player.X)) Player.X → i = w) →
      getBestMove b = Int.ofNat w) ∧
    getBestMove boardC7 = 2 := by
  have main : ∀ (b : Board) (w : Nat),
      b.length = 9 → checkWinnerForMiniMax b = none →
      w < 9 → b.getD w none = none →
      hasWinTriple (b.set w (some Player.X)) Player.X →
      (∀ i, i < 9 → b.getD i none = none →
        hasWinTriple (b.set i (some Player.X)) Player.X → i = w) →
      getBestMove b = Int.ofNat w := by
    intro b w hlen hnw hw9 hwE hwin huniq
    have hSw : moveScore b w = Score.val 10 := by
      have hNoO : ¬ hasWinTriple (b.set w (some Player.X)) Player.O := by
        intro h
        exact cw_none_no_triple hnw
          (hasWinTriple_set_other (by omega) h (by decide))
      have hcw : checkWinnerForMiniMax (b.set w (some Player.X))
          = some Player.X := cw_eq_some_of_unique hwin hNoO
      unfold moveScore
      rw [minimax_fst_of_X_win hcw]
      simp
    have hub : ∀ i, i < 9 → b.getD i none = none → i ≠ w →
        moveScore b i < moveScore b w := by
      intro i hi9 hie hiw
      have hlen1 : (b.set i (some Player.X)).length = 9 := by
        rw [List.length_set, hlen]
      have hNoX : ¬ hasWinTriple (b.set i (some Player.X)) Player.X :=
        fun h => hiw (huniq i hi9 hie h)
      have hNoO : ¬ hasWinTriple (b.set i (some Player.X)) Player.O :=
        fun h => cw_none_no_triple hnw
          (hasWinTriple_set_other (by omega) h (by decide))
      have hcwi : checkWinnerForMiniMax (b.set i (some Player.X)) = none :=
        cw_none_of_no_triples hNoX hNoO
      have heq : moveScore b i = plainMinimaxF
          ((b.set i (some Player.X)).length + 1)
          (b.set i (some Player.X)) 0 false :=
        minimaxF_full_window _ _ 0 false
      have hb9 : moveScore b i ≤ Score.val 9 := by
        rw [heq, hlen1]
        refine le_trans (plainMinimaxF_le_of_no_winner 10
          (b.set i (some Player.X)) 0 false hcwi (by omega) (by norm_num)) ?_
        rw [Score.val_le_val]
        norm_num
      rw [hSw]
      exact lt_of_le_of_lt hb9 (Score.val_lt_val.mpr (by norm_num))
    exact getBestMove_argmax_unique (by omega) hwE
      (fun i hib hie hiw => hub i (by omega) hie hiw)
  refine ⟨main, ?_⟩
  exact main boardC7 2 rfl (by decide) (by decide) (by decide) (by decide)
    (by decide)

theorem c7_witness :
    getBestMove [none, some Player.X, some Player.X,
      some Player.O, some Player.O, none, none, none, none]
      = Int.ofNat 0 :=
  c7_takes_immediate_win.1 _ 0 rfl (by decide) (by decide) (by decide)
    (by decide) (by decide)

/-! ### C8: blocking the opponent's threat -/

theorem winPatterns_cells_lt :
    ∀ t ∈ winPatterns, t.1 < 9 ∧ t.2.1 < 9 ∧ t.2.2 < 9 := by decide

theorem winPatterns_cells_distinct :
    ∀ t ∈ winPatterns, t.1 ≠ t.2.1 ∧ t.1 ≠ t.2.2 ∧ t.2.1 ≠ t.2.2 := by decide

/-- Unpack a threat: its pattern, its empty cell, and its two O cells. -/
theorem oThreat_cells {b : Board} {t0 : Nat × Nat × Nat} {c : Nat}
    (h : oThreatAt b t0 c) :
    t0 ∈ winPatterns ∧ b.getD c none = none ∧
      (c = t0.1 ∨ c = t0.2.1 ∨ c = t0.2.2) ∧
      (∀ j, (j = t0.1 ∨ j = t0.2.1 ∨ j = t0.2.2) → j ≠ c →
        b.getD j none = some Player.O) := by
  obtain ⟨hmem, hce, hcases⟩ := h
  refine ⟨hmem, hce, ?_, ?_⟩
  · rcases hcases with ⟨h1, _⟩ | ⟨h1, _⟩ | ⟨h1, _⟩
    · exact Or.inl h1
    · exact Or.inr (Or.inl h1)
    · exact Or.inr (Or.inr h1)
  · intro j hj hjc
    rcases hcases with ⟨h1, h2, h3⟩ | ⟨h1, h2, h3⟩ | ⟨h1, h2, h3⟩ <;>
      rcases hj with rfl | rfl | rfl
    · exact absurd h1.symm hjc
    · exact h2
    · exact h3
    · exact h2
    · exact absurd h1.symm hjc
    · exact h3
    · exact h2
    · exact h3
    · exact absurd h1.symm hjc

/-- Pack a threat from its parts. -/
theorem oThreat_intro {b : Board} {t : Nat × Nat × Nat} {j : Nat}
    (hmem : t ∈ winPatterns) (hj : j = t.1 ∨ j = t.2.1 ∨ j = t.2.2)
    (hje : b.getD j none = none)
    (hcells : ∀ k, (k = t.1 ∨ k = t.2.1 ∨ k = t.2.2) → k ≠ j →
      b.getD k none = some Player.O) :
    oThreatAt b t j := by
  obtain ⟨hd1, hd2, hd3⟩ := winPatterns_cells_distinct t hmem
  refine ⟨hmem, hje, ?_⟩
  rcases hj with rfl | rfl | rfl
  · exact Or.inl ⟨rfl,
      hcells t.2.1 (Or.inr (Or.inl rfl)) (fun h => hd1 h.symm),
      hcells t.2.2 (Or.inr (Or.inr rfl)) (fun h => hd2 h.symm)⟩
  · exact Or.inr (Or.inl ⟨rfl,
      hcells t.1 (Or.inl rfl) hd1,
      hcells t.2.2 (Or.inr (Or.inr rfl)) (fun h => hd3 h.symm)⟩)
  · exact Or.inr (Or.inr ⟨rfl,
      hcells t.1 (Or.inl rfl) hd2,
      hcells t.2.1 (Or.inr (Or.inl rfl)) hd3⟩)

/-- C8 (amended): on a non-terminal 9-cell board where the Opponent
has exactly one threatened triple (two O cells and an empty third cell
c) and the AI has no immediate winning move of its own, getBestMove
blocks at c. -/
theorem c8_blocks_unique_threat :
    ∀ (b : Board) (t0 : Nat × Nat × Nat) (c : Nat),
      b.length = 9 → checkWinnerForMiniMax b = none →
      oThreatAt b t0 c →
      (∀ t' ∈ winPatterns, ∀ c', c' < 9 → oThreatAt b t' c' →
        t' = t0 ∧ c' = c) →
      (∀ i, i < 9 → b.getD i none = none →
        ¬ hasWinTriple (b.set i (some Player.X)) Player.X) →
      getBestMove b = Int.ofNat c := by
  intro b t0 c hlen hnw hthreat huniq hNoX
  obtain ⟨ht0mem, hcE, hcpos, hocells⟩ := oThreat_cells hthreat
  obtain ⟨hp1, hp2, hp3⟩ := winPatterns_cells_lt t0 ht0mem
  have hc9 : c < 9 := by rcases hcpos with h | h | h <;> omega
  have hclen : c < b.length := by omega
  have hlenc : (b.set c (some Player.X)).length = 9 := by
    rw [List.length_set, hlen]
  have hcX : (b.set c (some Player.X)).getD c none = some Player.X :=
    set_getD_same b c (some Player.X) none hclen
  have hcwc : checkWinnerForMiniMax (b.set c (some Player.X)) = none := by
    refine cw_none_of_no_triples (hNoX c hc9 hcE) ?_
    intro h
    exact cw_none_no_triple hnw
      (hasWinTriple_set_other hclen h (by decide))
  -- every legal O reply to the block leaves the board without a winner
  have hchild_nw : ∀ j, j < 9 →
      (b.set c (some Player.X)).getD j none = none →
      checkWinnerForMiniMax
        ((b.set c (some Player.X)).set j (some Player.O)) = none := by
    intro j hj9 hjE
    have hjc : j ≠ c := by
      intro h
      rw [h, hcX] at hjE
      cases hjE
    refine cw_none_of_no_triples ?_ ?_
    · intro h
      have h2 : hasWinTriple (b.set c (some Player.X)) Player.X :=
        hasWinTriple_set_other (by rw [hlenc]; omega) h (by decide)
      exact hNoX c hc9 hcE h2
    · intro h2
      rcases h2 with ⟨t, ht, h1, h2', h3⟩
      by_cases hjin : j = t.1 ∨ j = t.2.1 ∨ j = t.2.2
      · -- the move completes pattern t, so t was a threat at j in b
        have hcells : ∀ k, (k = t.1 ∨ k = t.2.1 ∨ k = t.2.2) → k ≠ j →
            b.getD k none = some Player.O := by
          intro k hk hkj
          have hk'' : ((b.set c (some Player.X)).set j
              (some Player.O)).getD k none = some Player.O := by
            rcases hk with rfl | rfl | rfl
            exacts [h1, h2', h3]
          have hk' : (b.set c (some Player.X)).getD k none
              = some Player.O := by
            rw [← set_getD_other (b.set c (some Player.X)) j k
              (some Player.O) none (fun h => hkj h.symm)]
            exact hk''
          have hkc : k ≠ c := by
            intro h
            rw [h, hcX] at hk'
            cases hk'
          rw [← set_getD_other b c k (some Player.X) none
            (fun h => hkc h.symm)]
          exact hk'
        have hjb : b.getD j none = none := by
          rw [← set_getD_other b c j (some Player.X) none
            (fun h => hjc h.symm)]
          exact hjE
        have hthreat2 : oThreatAt b t j := oThreat_intro ht hjin hjb hcells
        exact hjc (huniq t ht j hj9 hthreat2).2
      · -- pattern t avoids j, so it was already complete before the move
        push_neg at hjin
        obtain ⟨hj1, hj2, hj3⟩ := hjin
        have htc : hasWinTriple (b.set c (some Player.X)) Player.O := by
          refine ⟨t, ht, ?_, ?_, ?_⟩
          · rw [← set_getD_other (b.set c (some Player.X)) j t.1
              (some Player.O) none hj1]
            exact h1
          · rw [← set_getD_other (b.set c (some Player.X)) j t.2.1
              (some Player.O) none hj2]
            exact h2'
          · rw [← set_getD_other (b.set c (some Player.X)) j t.2.2
              (some Player.O) none hj3]
            exact h3
        exact cw_none_no_triple hnw
          (hasWinTriple_set_other hclen htc (by decide))
  -- the blocking move scores at least -8
  have hblock : Score.val (-8) ≤ moveScore b c := by
    have heq : moveScore b c = plainMinimaxF
        ((b.set c (some Player.X)).length + 1)
        (b.set c (some Player.X)) 0 false :=
      minimaxF_full_window _ _ 0 false
    rw [heq]
    simp only [plainMinimaxF, hcwc]
    rcases hF : isBoardFull (b.set c (some Player.X)) with _ | _
    · simp only [Bool.false_eq_true, if_false]
      refine plainMinLoop_ge _ _ _ _ ?_
      intro j hj hjE
      have hj9 : j < 9 := by
        have := List.mem_range.mp hj
        omega
      have hnwj := hchild_nw j hj9 hjE
      refine le_trans ?_ (plainMinimaxF_ge_of_no_winner
        ((b.set c (some Player.X)).length)
        ((b.set c (some Player.X)).set j (some Player.O)) (0 + 1) true
        hnwj (by rw [hlenc]; omega) (by rw [hlenc]; norm_num))
      rw [Score.val_le_val]
      norm_num
    · simp only [if_true]
      rw [Score.val_le_val]
      norm_num
  -- every other move loses at once: O completes the threat
  have hnonblock : ∀ i, i < 9 → b.getD i none = none → i ≠ c →
      moveScore b i ≤ Score.val (-9) := by
    intro i hi9 hie hic
    have hilen : i < b.length := by omega
    have hlen1 : (b.set i (some Player.X)).length = 9 := by
      rw [List.length_set, hlen]
    have hcE1 : (b.set i (some Player.X)).getD c none = none := by
      rw [set_getD_other b i c (some Player.X) none hic]
      exact hcE
    have hcw1 : checkWinnerForMiniMax (b.set i (some Player.X)) = none := by
      refine cw_none_of_no_triples (hNoX i hi9 hie) ?_
      intro h
      exact cw_none_no_triple hnw
        (hasWinTriple_set_other hilen h (by decide))
    have hF1 : isBoardFull (b.set i (some Player.X)) = false := by
      rcases hFF : isBoardFull (b.set i (some Player.X)) with _ | _
      · rfl
      · exact absurd hcE1 (full_no_empty hFF (by rw [hlen1]; omega))
    -- after O replies at c the board has an O triple and no X triple
    have hcell2 : ∀ k, (k = t0.1 ∨ k = t0.2.1 ∨ k = t0.2.2) →
        ((b.set i (some Player.X)).set c (some Player.O)).getD k none
          = some Player.O := by
      intro k hk
      by_cases hkc : k = c
      · rw [hkc]
        exact set_getD_same _ c (some Player.O) none (by rw [hlen1]; omega)
      · have hkO : b.getD k none = some Player.O := hocells k hk hkc
        have hki : k ≠ i := by
          intro h
          rw [h, hie] at hkO
          cases hkO
        rw [set_getD_other _ c k (some Player.O) none (fun h => hkc h.symm)]
        rw [set_getD_other b i k (some Player.X) none (fun h => hki h.symm)]
        exact hkO
    have hOwin : hasWinTriple
        ((b.set i (some Player.X)).set c (some Player.O)) Player.O :=
      ⟨t0, ht0mem, hcell2 t0.1 (Or.inl rfl),
        hcell2 t0.2.1 (Or.inr (Or.inl rfl)),
        hcell2 t0.2.2 (Or.inr (Or.inr rfl))⟩
    have hnoX2 : ¬ hasWinTriple
        ((b.set i (some Player.X)).set c (some Player.O)) Player.X := by
      intro h
      have h2 : hasWinTriple (b.set i (some Player.X)) Player.X :=
        hasWinTriple_set_other (by rw [hlen1]; omega) h (by decide)
      exact hNoX i hi9 hie h2
    have hcw2 : checkWinnerForMiniMax
        ((b.set i (some Player.X)).set c (some Player.O))
        = some Player.O := cw_eq_some_of_unique hOwin hnoX2
    have heq : moveScore b i = plainMinimaxF
        ((b.set i (some Player.X)).length + 1)
        (b.set i (some Player.X)) 0 false :=
      minimaxF_full_window _ _ 0 false
    rw [heq]
    simp only [plainMinimaxF, hcw1, hF1, Bool.false_eq_true, if_false]
    refine le_trans (plainMinLoop_le_child _ _ _ _
      (List.mem_range.mpr (by rw [hlen1]; omega)) hcE1) ?_
    have hlen8 : (b.set i (some Player.X)).length = 8 + 1 := by
      rw [List.length_set, hlen]
    rw [hlen8]
    simp only [plainMinimaxF, hcw2]
    rw [Score.val_le_val]
    norm_num
  -- the blocking move is the unique strict argmax
  refine getBestMove_argmax_unique hclen hcE ?_
  intro i hib hie hic
  refine lt_of_le_of_lt (hnonblock i (by omega) hie hic) ?_
  exact lt_of_lt_of_le (Score.val_lt_val.mpr (by norm_num)) hblock

/-- C8 as frozen is false: on [X,X,_,O,O,_,_,_,_] the Opponent
threatens cell 5, yet getBestMove plays 2 (its own win), not 5. -/
theorem c8_counterexample :
    checkWinnerForMiniMax boardC7 = none ∧
    oThreatAt boardC7 (3, 4, 5) 5 ∧
    getBestMove boardC7 = 2 ∧ (2 : Int) ≠ 5 := by
  refine ⟨by decide, by decide, ?_, by decide⟩
  rw [← sGetBestMove_eq]
  decide

theorem c8_witness :
    getBestMove [some Player.O, some Player.O, none, some Player.X,
      none, none, none, none, none] = Int.ofNat 2 :=
  c8_blocks_unique_threat _ (0, 1, 2) 2 rfl (by decide) (by decide)
    (by decide) (by decide)

/-! ### Cell-level evaluator

The search must be evaluated on concrete boards for the self-play
claim.  Board reads through List.getD are the dominant kernel cost, so
this evaluator carries the nine cells as separate arguments; it is
proved equal to the score evaluator above and only then used on
concrete inputs. -/

def vWin3 (a b c : CellValue) : Option Player :=
  match a with
  | none => none
  | some q => if b = some q ∧ c = some q then some q else none

def vCheck (c0 c1 c2 c3 c4 c5 c6 c7 c8 : CellValue) : Option Player :=
  match vWin3 c0 c1 c2 with
  | some p => some p
  | none =>
  match vWin3 c3 c4 c5 with
  | some p => some p
  | none =>
  match vWin3 c6 c7 c8 with
  | some p => some p
  | none =>
  match vWin3 c0 c3 c6 with
  | some p => some p
  | none =>
  match vWin3 c1 c4 c7 with
  | some p => some p
  | none =>
  match vWin3 c2 c5 c8 with
  | some p => some p
  | none =>
  match vWin3 c0 c4 c8 with
  | some p => some p
  | none =>
  match vWin3 c2 c4 c6 with
  | some p => some p
  | none =>
  none

def vMax8 (f : CellValue → CellValue → CellValue → CellValue → CellValue → CellValue → CellValue → CellValue → CellValue → Nat → Bool → Score → Score → Score) (c0 c1 c2 c3 c4 c5 c6 c7 c8 : CellValue) (depth : Nat) (best alpha beta : Score) : Score :=
  if c8 = none then
    Score.force (f c0 c1 c2 c3 c4 c5 c6 c7 (some Player.X) (depth + 1) false alpha beta) fun s =>
      if Score.ble beta (Score.max alpha s) then Score.max s best
      else Score.max s best
  else best

def vMax7 (f : CellValue → CellValue → CellValue → CellValue → CellValue → CellValue → CellValue → CellValue → CellValue → Nat → Bool → Score → Score → Score) (c0 c1 c2 c3 c4 c5 c6 c7 c8 : CellValue) (depth : Nat) (best alpha beta : Score) : Score :=
  if c7 = none then
    Score.force (f c0 c1 c2 c3 c4 c5 c6 (some Player.X) c8 (depth + 1) false alpha beta) fun s =>
      if Score.ble beta (Score.max alpha s) then Score.max s best
      else vMax8 f c0 c1 c2 c3 c4 c5 c6 c7 c8 depth (Score.max s best) (Score.max alpha s) beta
  else vMax8 f c0 c1 c2 c3 c4 c5 c6 c7 c8 depth best alpha beta

def vMax6 (f : CellValue → CellValue → CellValue → CellValue → CellValue → CellValue → CellValue → CellValue → CellValue → Nat → Bool → Score → Score → Score) (c0 c1 c2 c3 c4 c5 c6 c7 c8 : CellValue) (depth : Nat) (best alpha beta : Score) : Score :=
  if c6 = none then
    Score.force (f c0 c1 c2 c3 c4 c5 (some Player.X) c7 c8 (depth + 1) false alpha beta) fun s =>
      if Score.ble beta (Score.max alpha s) then Score.max s best
      else vMax7 f c0 c1 c2 c3 c4 c5 c6 c7 c8 depth (Score.max s best) (Score.max alpha s) beta
  else vMax7 f c0 c1 c2 c3 c4 c5 c6 c7 c8 depth best alpha beta

def vMax5 (f : CellValue → CellValue → CellValue → CellValue → CellValue → CellValue → CellValue → CellValue → CellValue → Nat → Bool → Score → Score → Score) (c0 c1 c2 c3 c4 c5 c6 c7 c8 : CellValue) (depth : Nat) (best alpha beta : Score) : Score :=
  if c5 = none then
    Score.force (f c0 c1 c2 c3 c4 (some Player.X) c6 c7 c8 (depth + 1) false alpha beta) fun s =>
      if Score.ble beta (Score.max alpha s) then Score.max s best
      else vMax6 f c0 c1 c2 c3 c4 c5 c6 c7 c8 depth (Score.max s best) (Score.max alpha s) beta
  else vMax6 f c0 c1 c2 c3 c4 c5 c6 c7 c8 depth best alpha beta

def vMax4 (f : CellValue → CellValue → CellValue → CellValue → CellValue → CellValue → CellValue → CellValue → CellValue → Nat → Bool → Score → Score → Score) (c0 c1 c2 c3 c4 c5 c6 c7 c8 : CellValue) (depth : Nat) (best alpha beta : Score) : Score :=
  if c4 = none then
    Score.force (f c0 c1 c2 c3 (some Player.X) c5 c6 c7 c8 (depth + 1) false alpha beta) fun s =>
      if Score.ble beta (Score.max alpha s) then Score.max s best
      else vMax5 f c0 c1 c2 c3 c4 c5 c6 c7 c8 depth (Score.max s best) (Score.max alpha s) beta
  else vMax5 f c0 c1 c2 c3 c4 c5 c6 c7 c8 depth best alpha beta

def vMax3 (f : CellValue → CellValue → CellValue → CellValue → CellValue → CellValue → CellValue → CellValue → CellValue → Nat → Bool → Score → Score → Score) (c0 c1 c2 c3 c4 c5 c6 c7 c8 : CellValue) (depth : Nat) (best alpha beta : Score) : Score :=
  if c3 = none then
    Score.force (f c0 c1 c2 (some Player.X) c4 c5 c6 c7 c8 (depth + 1) false alpha beta) fun s =>
      if Score.ble beta (Score.max alpha s) then Score.max s best
      else vMax4 f c0 c1 c2 c3 c4 c5 c6 c7 c8 depth (Score.max s best) (Score.max alpha s) beta
  else vMax4 f c0 c1 c2 c3 c4 c5 c6 c7 c8 depth best alpha beta

def vMax2 (f : CellValue → CellValue → CellValue → CellValue → CellValue → CellValue → CellValue → CellValue → CellValue → Nat → Bool → Score → Score → Score) (c0 c1 c2 c3 c4 c5 c6 c7 c8 : CellValue) (depth : Nat) (best alpha beta : Score) : Score :=
  if c2 = none then
    Score.force (f c0 c1 (some Player.X) c3 c4 c5 c6 c7 c8 (depth + 1) false alpha beta) fun s =>
      if Score.ble beta (Score.max alpha s) then Score.max s best
      else vMax3 f c0 c1 c2 c3 c4 c5 c6 c7 c8 depth (Score.max s best) (Score.max alpha s) beta
  else vMax3 f c0 c1 c2 c3 c4 c5 c6 c7 c8 depth best alpha beta

def vMax1 (f : CellValue → CellValue → CellValue → CellValue → CellValue → CellValue → CellValue → CellValue → CellValue → Nat → Bool → Score → Score → Score) (c0 c1 c2 c3 c4 c5 c6 c7 c8 : CellValue) (depth : Nat) (best alpha beta : Score) : Score :=
  if c1 = none then
    Score.force (f c0 (some Player.X) c2 c3 c4 c5 c6 c7 c8 (depth + 1) false alpha beta) fun s =>
      if Score.ble beta (Score.max alpha s) then Score.max s best
      else vMax2 f c0 c1 c2 c3 c4 c5 c6 c7 c8 depth (Score.max s best) (Score.max alpha s) beta
  else vMax2 f c0 c1 c2 c3 c4 c5 c6 c7 c8 depth best alpha beta

def vMax0 (f : CellValue → CellValue → CellValue → CellValue → CellValue → CellValue → CellValue → CellValue → CellValue → Nat → Bool → Score → Score → Score) (c0 c1 c2 c3 c4 c5 c6 c7 c8 : CellValue) (depth : Nat) (best alpha beta : Score) : Score :=
  if c0 = none then
    Score.force (f (some Player.X) c1 c2 c3 c4 c5 c6 c7 c8 (depth + 1) false alpha beta) fun s =>
      if Score.ble beta (Score.max alpha s) then Score.max s best
      else vMax1 f c0 c1 c2 c3 c4 c5 c6 c7 c8 depth (Score.max s best) (Score.max alpha s) beta
  else vMax1 f c0 c1 c2 c3 c4 c5 c6 c7 c8 depth best alpha beta

def vMin8 (f : CellValue → CellValue → CellValue → CellValue → CellValue → CellValue → CellValue → CellValue → CellValue → Nat → Bool → Score → Score → Score) (c0 c1 c2 c3 c4 c5 c6 c7 c8 : CellValue) (depth : Nat) (best alpha beta : Score) : Score :=
  if c8 = none then
    Score.force (f c0 c1 c2 c3 c4 c5 c6 c7 (some Player.O) (depth + 1) true alpha beta) fun s =>
      if Score.ble (Score.min beta s) alpha then Score.min s best
      else Score.min s best
  else best

def vMin7 (f : CellValue → CellValue → CellValue → CellValue → CellValue → CellValue → CellValue → CellValue → CellValue → Nat → Bool → Score → Score → Score) (c0 c1 c2 c3 c4 c5 c6 c7 c8 : CellValue) (depth : Nat) (best alpha beta : Score) : Score :=
  if c7 = none then
    Score.force (f c0 c1 c2 c3 c4 c5 c6 (some Player.O) c8 (depth + 1) true alpha beta) fun s =>
      if Score.ble (Score.min beta s) alpha then Score.min s best
      else vMin8 f c0 c1 c2 c3 c4 c5 c6 c7 c8 depth (Score.min s best) alpha (Score.min beta s)
  else vMin8 f c0 c1 c2 c3 c4 c5 c6 c7 c8 depth best alpha beta

def vMin6 (f : CellValue → CellValue → CellValue → CellValue → CellValue → CellValue → CellValue → CellValue → CellValue → Nat → Bool → Score → Score → Score) (c0 c1 c2 c3 c4 c5 c6 c7 c8 : CellValue) (depth : Nat) (best alpha beta : Score) : Score :=
  if c6 = none then
    Score.force (f c0 c1 c2 c3 c4 c5 (some Player.O) c7 c8 (depth + 1) true alpha beta) fun s =>
      if Score.ble (Score.min beta s) alpha then Score.min s best
      else vMin7 f c0 c1 c2 c3 c4 c5 c6 c7 c8 depth (Score.min s best) alpha (Score.min beta s)
  else vMin7 f c0 c1 c2 c3 c4 c5 c6 c7 c8 depth best alpha beta

def vMin5 (f : CellValue → CellValue → CellValue → CellValue → CellValue → CellValue → CellValue → CellValue → CellValue → Nat → Bool → Score → Score → Score) (c0 c1 c2 c3 c4 c5 c6 c7 c8 : CellValue) (depth : Nat) (best alpha beta : Score) : Score :=
  if c5 = none then
    Score.force (f c0 c1 c2 c3 c4 (some Player.O) c6 c7 c8 (depth + 1) true alpha beta) fun s =>
      if Score.ble (Score.min beta s) alpha then Score.min s best
      else vMin6 f c0 c1 c2 c3 c4 c5 c6 c7 c8 depth (Score.min s best) alpha (Score.min beta s)
  else vMin6 f c0 c1 c2 c3 c4 c5 c6 c7 c8 depth best alpha beta

def vMin4 (f : CellValue → CellValue → CellValue → CellValue → CellValue → CellValue → CellValue → CellValue → CellValue → Nat → Bool → Score → Score → Score) (c0 c1 c2 c3 c4 c5 c6 c7 c8 : CellValue) (depth : Nat) (best alpha beta : Score) : Score :=
  if c4 = none then
    Score.force (f c0 c1 c2 c3 (some Player.O) c5 c6 c7 c8 (depth + 1) true alpha beta) fun s =>
      if Score.ble (Score.min beta s) alpha then Score.min s best
      else vMin5 f c0 c1 c2 c3 c4 c5 c6 c7 c8 depth (Score.min s best) alpha (Score.min beta s)
  else vMin5 f c0 c1 c2 c3 c4 c5 c6 c7 c8 depth best alpha beta

def vMin3 (f : CellValue → CellValue → CellValue → CellValue → CellValue → CellValue → CellValue → CellValue → CellValue → Nat → Bool → Score → Score → Score) (c0 c1 c2 c3 c4 c5 c6 c7 c8 : CellValue) (depth : Nat) (best alpha beta : Score) : Score :=
  if c3 = none then
    Score.force (f c0 c1 c2 (some Player.O) c4 c5 c6 c7 c8 (depth + 1) true alpha beta) fun s =>
      if Score.ble (Score.min beta s) alpha then Score.min s best
      else vMin4 f c0 c1 c2 c3 c4 c5 c6 c7 c8 depth (Score.min s best) alpha (Score.min beta s)
  else vMin4 f c0 c1 c2 c3 c4 c5 c6 c7 c8 depth best alpha beta

def vMin2 (f : CellValue → CellValue → CellValue → CellValue → CellValue → CellValue → CellValue → CellValue → CellValue → Nat → Bool → Score → Score → Score) (c0 c1 c2 c3 c4 c5 c6 c7 c8 : CellValue) (depth : Nat) (best alpha beta : Score) : Score :=
  if c2 = none then
    Score.force (f c0 c1 (some Player.O) c3 c4 c5 c6 c7 c8 (depth + 1) true alpha beta) fun s =>
      if Score.ble (Score.min beta s) alpha then Score.min s best
      else vMin3 f c0 c1 c2 c3 c4 c5 c6 c7 c8 depth (Score.min s best) alpha (Score.min beta s)
  else vMin3 f c0 c1 c2 c3 c4 c5 c6 c7 c8 depth best alpha beta

def vMin1 (f : CellValue → CellValue → CellValue → CellValue → CellValue → CellValue → CellValue → CellValue → CellValue → Nat → Bool → Score → Score → Score) (c0 c1 c2 c3 c4 c5 c6 c7 c8 : CellValue) (depth : Nat) (best alpha beta : Score) : Score :=
  if c1 = none then
    Score.force (f c0 (some Player.O) c2 c3 c4 c5 c6 c7 c8 (depth + 1) true alpha beta) fun s =>
      if Score.ble (Score.min beta s) alpha then Score.min s best
      else vMin2 f c0 c1 c2 c3 c4 c5 c6 c7 c8 depth (Score.min s best) alpha (Score.min beta s)
  else vMin2 f c0 c1 c2 c3 c4 c5 c6 c7 c8 depth best alpha beta

def vMin0 (f : CellValue → CellValue → CellValue → CellValue → CellValue → CellValue → CellValue → CellValue → CellValue → Nat → Bool → Score → Score → Score) (c0 c1 c2 c3 c4 c5 c6 c7 c8 : CellValue) (depth : Nat) (best alpha beta : Score) : Score :=
  if c0 = none then
    Score.force (f (some Player.O) c1 c2 c3 c4 c5 c6 c7 c8 (depth + 1) true alpha beta) fun s =>
      if Score.ble (Score.min beta s) alpha then Score.min s best
      else vMin1 f c0 c1 c2 c3 c4 c5 c6 c7 c8 depth (Score.min s best) alpha (Score.min beta s)
  else vMin1 f c0 c1 c2 c3 c4 c5 c6 c7 c8 depth best alpha beta


def vMinimaxF : Nat → CellValue → CellValue → CellValue → CellValue → CellValue → CellValue → CellValue → CellValue → CellValue → Nat → Bool → Score → Score → Score
  | 0, _, _, _, _, _, _, _, _, _, _, _, _, _ => Score.val 0
  | fuel + 1, c0, c1, c2, c3, c4, c5, c6, c7, c8, depth, isMaximizing, alpha, beta =>
    match vCheck c0 c1 c2 c3 c4 c5 c6 c7 c8 with
    | some Player.X => Score.val (10 - (depth : Int))
    | some Player.O => Score.val ((depth : Int) - 10)
    | none =>
      if isBoardFull [c0, c1, c2, c3, c4, c5, c6, c7, c8] then Score.val 0
      else if isMaximizing then
        vMax0 (vMinimaxF fuel) c0 c1 c2 c3 c4 c5 c6 c7 c8 depth
          Score.negInf alpha beta
      else
        vMin0 (vMinimaxF fuel) c0 c1 c2 c3 c4 c5 c6 c7 c8 depth
          Score.posInf alpha beta

def vGbm8 (c0 c1 c2 c3 c4 c5 c6 c7 c8 : CellValue) (bestScore : Score) (bestMove : Int) : Int :=
  if c8 = none then
    Score.force (vMinimaxF 10 c0 c1 c2 c3 c4 c5 c6 c7 (some Player.X) 0 false Score.negInf Score.posInf) fun s =>
      if Score.blt bestScore s then Int.ofNat 8
      else bestMove
  else bestMove

def vGbm7 (c0 c1 c2 c3 c4 c5 c6 c7 c8 : CellValue) (bestScore : Score) (bestMove : Int) : Int :=
  if c7 = none then
    Score.force (vMinimaxF 10 c0 c1 c2 c3 c4 c5 c6 (some Player.X) c8 0 false Score.negInf Score.posInf) fun s =>
      if Score.blt bestScore s then vGbm8 c0 c1 c2 c3 c4 c5 c6 c7 c8 s (Int.ofNat 7)
      else vGbm8 c0 c1 c2 c3 c4 c5 c6 c7 c8 bestScore bestMove
  else vGbm8 c0 c1 c2 c3 c4 c5 c6 c7 c8 bestScore bestMove

def vGbm6 (c0 c1 c2 c3 c4 c5 c6 c7 c8 : CellValue) (bestScore : Score) (bestMove : Int) : Int :=
  if c6 = none then
    Score.force (vMinimaxF 10 c0 c1 c2 c3 c4 c5 (some Player.X) c7 c8 0 false Score.negInf Score.posInf) fun s =>
      if Score.blt bestScore s then vGbm7 c0 c1 c2 c3 c4 c5 c6 c7 c8 s (Int.ofNat 6)
      else vGbm7 c0 c1 c2 c3 c4 c5 c6 c7 c8 bestScore bestMove
  else vGbm7 c0 c1 c2 c3 c4 c5 c6 c7 c8 bestScore bestMove

def vGbm5 (c0 c1 c2 c3 c4 c5 c6 c7 c8 : CellValue) (bestScore : Score) (bestMove : Int) : Int :=
  if c5 = none then
    Score.force (vMinimaxF 10 c0 c1 c2 c3 c4 (some Player.X) c6 c7 c8 0 false Score.negInf Score.posInf) fun s =>
      if Score.blt bestScore s then vGbm6 c0 c1 c2 c3 c4 c5 c6 c7 c8 s (Int.ofNat 5)
      else vGbm6 c0 c1 c2 c3 c4 c5 c6 c7 c8 bestScore bestMove
  else vGbm6 c0 c1 c2 c3 c4 c5 c6 c7 c8 bestScore bestMove

def vGbm4 (c0 c1 c2 c3 c4 c5 c6 c7 c8 : CellValue) (bestScore : Score) (bestMove : Int) : Int :=
  if c4 = none then
    Score.force (vMinimaxF 10 c0 c1 c2 c3 (some Player.X) c5 c6 c7 c8 0 false Score.negInf Score.posInf) fun s =>
      if Score.blt bestScore s then vGbm5 c0 c1 c2 c3 c4 c5 c6 c7 c8 s (Int.ofNat 4)
      else vGbm5 c0 c1 c2 c3 c4 c5 c6 c7 c8 bestScore bestMove
  else vGbm5 c0 c1 c2 c3 c4 c5 c6 c7 c8 bestScore bestMove

def vGbm3 (c0 c1 c2 c3 c4 c5 c6 c7 c8 : CellValue) (bestScore : Score) (bestMove : Int) : Int :=
  if c3 = none then
    Score.force (vMinimaxF 10 c0 c1 c2 (some Player.X) c4 c5 c6 c7 c8 0 false Score.negInf Score.posInf) fun s =>
      if Score.blt bestScore s then vGbm4 c0 c1 c2 c3 c4 c5 c6 c7 c8 s (Int.ofNat 3)
      else vGbm4 c0 c1 c2 c3 c4 c5 c6 c7 c8 bestScore bestMove
  else vGbm4 c0 c1 c2 c3 c4 c5 c6 c7 c8 bestScore bestMove

def vGbm2 (c0 c1 c2 c3 c4 c5 c6 c7 c8 : CellValue) (bestScore : Score) (bestMove : Int) : Int :=
  if c2 = none then
    Score.force (vMinimaxF 10 c0 c1 (some Player.X) c3 c4 c5 c6 c7 c8 0 false Score.negInf Score.posInf) fun s =>
      if Score.blt bestScore s then vGbm3 c0 c1 c2 c3 c4 c5 c6 c7 c8 s (Int.ofNat 2)
      else vGbm3 c0 c1 c2 c3 c4 c5 c6 c7 c8 bestScore bestMove
  else vGbm3 c0 c1 c2 c3 c4 c5 c6 c7 c8 bestScore bestMove

def vGbm1 (c0 c1 c2 c3 c4 c5 c6 c7 c8 : CellValue) (bestScore : Score) (bestMove : Int) : Int :=
  if c1 = none then
    Score.force (vMinimaxF 10 c0 (some Player.X) c2 c3 c4 c5 c6 c7 c8 0 false Score.negInf Score.posInf) fun s =>
      if Score.blt bestScore s then vGbm2 c0 c1 c2 c3 c4 c5 c6 c7 c8 s (Int.ofNat 1)
      else vGbm2 c0 c1 c2 c3 c4 c5 c6 c7 c8 bestScore bestMove
  else vGbm2 c0 c1 c2 c3 c4 c5 c6 c7 c8 bestScore bestMove

def vGbm0 (c0 c1 c2 c3 c4 c5 c6 c7 c8 : CellValue) (bestScore : Score) (bestMove : Int) : Int :=
  if c0 = none then
    Score.force (vMinimaxF 10 (some Player.X) c1 c2 c3 c4 c5 c6 c7 c8 0 false Score.negInf Score.posInf) fun s =>
      if Score.blt bestScore s then vGbm1 c0 c1 c2 c3 c4 c5 c6 c7 c8 s (Int.ofNat 0)
      else vGbm1 c0 c1 c2 c3 c4 c5 c6 c7 c8 bestScore bestMove
  else vGbm1 c0 c1 c2 c3 c4 c5 c6 c7 c8 bestScore bestMove

def vOpp8 (c0 c1 c2 c3 c4 c5 c6 c7 c8 : CellValue) (bestScore : Score) (bestMove : Int) : Int :=
  if c8 = none then
    Score.force (vMinimaxF 10 c0 c1 c2 c3 c4 c5 c6 c7 (some Player.O) 0 true Score.negInf Score.posInf) fun s =>
      if Score.blt s bestScore then Int.ofNat 8
      else bestMove
  else bestMove

def vOpp7 (c0 c1 c2 c3 c4 c5 c6 c7 c8 : CellValue) (bestScore : Score) (bestMove : Int) : Int :=
  if c7 = none then
    Score.force (vMinimaxF 10 c0 c1 c2 c3 c4 c5 c6 (some Player.O) c8 0 true Score.negInf Score.posInf) fun s =>
      if Score.blt s bestScore then vOpp8 c0 c1 c2 c3 c4 c5 c6 c7 c8 s (Int.ofNat 7)
      else vOpp8 c0 c1 c2 c3 c4 c5 c6 c7 c8 bestScore bestMove
  else vOpp8 c0 c1 c2 c3 c4 c5 c6 c7 c8 bestScore bestMove

def vOpp6 (c0 c1 c2 c3 c4 c5 c6 c7 c8 : CellValue) (bestScore : Score) (bestMove : Int) : Int :=
  if c6 = none then
    Score.force (vMinimaxF 10 c0 c1 c2 c3 c4 c5 (some Player.O) c7 c8 0 true Score.negInf Score.posInf) fun s =>
      if Score.blt s bestScore then vOpp7 c0 c1 c2 c3 c4 c5 c6 c7 c8 s (Int.ofNat 6)
      else vOpp7 c0 c1 c2 c3 c4 c5 c6 c7 c8 bestScore bestMove
  else vOpp7 c0 c1 c2 c3 c4 c5 c6 c7 c8 bestScore bestMove

def vOpp5 (c0 c1 c2 c3 c4 c5 c6 c7 c8 : CellValue) (bestScore : Score) (bestMove : Int) : Int :=
  if c5 = none then
    Score.force (vMinimaxF 10 c0 c1 c2 c3 c4 (some Player.O) c6 c7 c8 0 true Score.negInf Score.posInf) fun s =>
      if Score.blt s bestScore then vOpp6 c0 c1 c2 c3 c4 c5 c6 c7 c8 s (Int.ofNat 5)
      else vOpp6 c0 c1 c2 c3 c4 c5 c6 c7 c8 bestScore bestMove
  else vOpp6 c0 c1 c2 c3 c4 c5 c6 c7 c8 bestScore bestMove

def vOpp4 (c0 c1 c2 c3 c4 c5 c6 c7 c8 : CellValue) (bestScore : Score) (bestMove : Int) : Int :=
  if c4 = none then
    Score.force (vMinimaxF 10 c0 c1 c2 c3 (some Player.O) c5 c6 c7 c8 0 true Score.negInf Score.posInf) fun s =>
      if Score.blt s bestScore then vOpp5 c0 c1 c2 c3 c4 c5 c6 c7 c8 s (Int.ofNat 4)
      else vOpp5 c0 c1 c2 c3 c4 c5 c6 c7 c8 bestScore bestMove
  else vOpp5 c0 c1 c2 c3 c4 c5 c6 c7 c8 bestScore bestMove

def vOpp3 (c0 c1 c2 c3 c4 c5 c6 c7 c8 : CellValue) (bestScore : Score) (bestMove : Int) : Int :=
  if c3 = none then
    Score.force (vMinimaxF 10 c0 c1 c2 (some Player.O) c4 c5 c6 c7 c8 0 true Score.negInf Score.posInf) fun s =>
      if Score.blt s bestScore then vOpp4 c0 c1 c2 c3 c4 c5 c6 c7 c8 s (Int.ofNat 3)
      else vOpp4 c0 c1 c2 c3 c4 c5 c6 c7 c8 bestScore bestMove
  else vOpp4 c0 c1 c2 c3 c4 c5 c6 c7 c8 bestScore bestMove

def vOpp2 (c0 c1 c2 c3 c4 c5 c6 c7 c8 : CellValue) (bestScore : Score) (bestMove : Int) : Int :=
  if c2 = none then
    Score.force (vMinimaxF 10 c0 c1 (some Player.O) c3 c4 c5 c6 c7 c8 0 true Score.negInf Score.posInf) fun s =>
      if Score.blt s bestScore then vOpp3 c0 c1 c2 c3 c4 c5 c6 c7 c8 s (Int.ofNat 2)
      else vOpp3 c0 c1 c2 c3 c4 c5 c6 c7 c8 bestScore bestMove
  else vOpp3 c0 c1 c2 c3 c4 c5 c6 c7 c8 bestScore bestMove

def vOpp1 (c0 c1 c2 c3 c4 c5 c6 c7 c8 : CellValue) (bestScore : Score) (bestMove : Int) : Int :=
  if c1 = none then
    Score.force (vMinimaxF 10 c0 (some Player.O) c2 c3 c4 c5 c6 c7 c8 0 true Score.negInf Score.posInf) fun s =>
      if Score.blt s bestScore then vOpp2 c0 c1 c2 c3 c4 c5 c6 c7 c8 s (Int.ofNat 1)
      else vOpp2 c0 c1 c2 c3 c4 c5 c6 c7 c8 bestScore bestMove
  else vOpp2 c0 c1 c2 c3 c4 c5 c6 c7 c8 bestScore bestMove

def vOpp0 (c0 c1 c2 c3 c4 c5 c6 c7 c8 : CellValue) (bestScore : Score) (bestMove : Int) : Int :=
  if c0 = none then
    Score.force (vMinimaxF 10 (some Player.O) c1 c2 c3 c4 c5 c6 c7 c8 0 true Score.negInf Score.posInf) fun s =>
      if Score.blt s bestScore then vOpp1 c0 c1 c2 c3 c4 c5 c6 c7 c8 s (Int.ofNat 0)
      else vOpp1 c0 c1 c2 c3 c4 c5 c6 c7 c8 bestScore bestMove
  else vOpp1 c0 c1 c2 c3 c4 c5 c6 c7 c8 bestScore bestMove


def vGetBestMove (c0 c1 c2 c3 c4 c5 c6 c7 c8 : CellValue) : Int :=
  vGbm0 c0 c1 c2 c3 c4 c5 c6 c7 c8 Score.negInf (-1)

def vOpponentBestMove (c0 c1 c2 c3 c4 c5 c6 c7 c8 : CellValue) : Int :=
  vOpp0 c0 c1 c2 c3 c4 c5 c6 c7 c8 Score.posInf (-1)

theorem vCheck_eq (c0 c1 c2 c3 c4 c5 c6 c7 c8 : CellValue) :
    vCheck c0 c1 c2 c3 c4 c5 c6 c7 c8
      = checkWinnerForMiniMax [c0, c1, c2, c3, c4, c5, c6, c7, c8] := by
  simp only [checkWinnerForMiniMax, winPatterns, List.findSome?_cons,
    List.findSome?_nil]
  rw [show patCheck [c0, c1, c2, c3, c4, c5, c6, c7, c8] (0, 1, 2) = vWin3 c0 c1 c2 from rfl,
    show patCheck [c0, c1, c2, c3, c4, c5, c6, c7, c8] (3, 4, 5) = vWin3 c3 c4 c5 from rfl,
    show patCheck [c0, c1, c2, c3, c4, c5, c6, c7, c8] (6, 7, 8) = vWin3 c6 c7 c8 from rfl,
    show patCheck [c0, c1, c2, c3, c4, c5, c6, c7, c8] (0, 3, 6) = vWin3 c0 c3 c6 from rfl,
    show patCheck [c0, c1, c2, c3, c4, c5, c6, c7, c8] (1, 4, 7) = vWin3 c1 c4 c7 from rfl,
    show patCheck [c0, c1, c2, c3, c4, c5, c6, c7, c8] (2, 5, 8) = vWin3 c2 c5 c8 from rfl,
    show patCheck [c0, c1, c2, c3, c4, c5, c6, c7, c8] (0, 4, 8) = vWin3 c0 c4 c8 from rfl,
    show patCheck [c0, c1, c2, c3, c4, c5, c6, c7, c8] (2, 4, 6) = vWin3 c2 c4 c6 from rfl]
  simp only [vCheck]
  rcases hv0 : vWin3 c0 c1 c2 with _ | p0
  ·
    rcases hv1 : vWin3 c3 c4 c5 with _ | p1
    ·
      rcases hv2 : vWin3 c6 c7 c8 with _ | p2
      ·
        rcases hv3 : vWin3 c0 c3 c6 with _ | p3
        ·
          rcases hv4 : vWin3 c1 c4 c7 with _ | p4
          ·
            rcases hv5 : vWin3 c2 c5 c8 with _ | p5
            ·
              rcases hv6 : vWin3 c0 c4 c8 with _ | p6
              ·
                rcases hv7 : vWin3 c2 c4 c6 with _ | p7
                · rfl
                · rfl
              · rfl
            · rfl
          · rfl
        · rfl
      · rfl
    · rfl
  · rfl


theorem sMaxLoop_nil (f : Board → Nat → Bool → Score → Score → Score)
    (b : Board) (depth : Nat) (best alpha beta : Score) :
    sMaxLoop f [] b depth best alpha beta = best := rfl

theorem sMinLoop_nil (f : Board → Nat → Bool → Score → Score → Score)
    (b : Board) (depth : Nat) (best alpha beta : Score) :
    sMinLoop f [] b depth best alpha beta = best := rfl

theorem sMaxLoop_cons (f : Board → Nat → Bool → Score → Score → Score)
    (i : Nat) (rest : List Nat) (b : Board) (depth : Nat)
    (best alpha beta : Score) :
    sMaxLoop f (i :: rest) b depth best alpha beta =
      if b.getD i none = none then
        forceBoard (b.set i (some Player.X)) fun bX =>
          Score.force (f bX (depth + 1) false alpha beta) fun s =>
            if Score.ble beta (Score.max alpha s) then Score.max s best
            else sMaxLoop f rest b depth (Score.max s best)
              (Score.max alpha s) beta
      else sMaxLoop f rest b depth best alpha beta := rfl

theorem sMinLoop_cons (f : Board → Nat → Bool → Score → Score → Score)
    (i : Nat) (rest : List Nat) (b : Board) (depth : Nat)
    (best alpha beta : Score) :
    sMinLoop f (i :: rest) b depth best alpha beta =
      if b.getD i none = none then
        forceBoard (b.set i (some Player.O)) fun bO =>
          Score.force (f bO (depth + 1) true alpha beta) fun s =>
            if Score.ble (Score.min beta s) alpha then Score.min s best
            else sMinLoop f rest b depth (Score.min s best)
              alpha (Score.min beta s)
      else sMinLoop f rest b depth best alpha beta := rfl

theorem vMax8_eq (f₁ : CellValue → CellValue → CellValue → CellValue → CellValue → CellValue → CellValue → CellValue → CellValue → Nat → Bool → Score → Score → Score)
    (f₂ : Board → Nat → Bool → Score → Score → Score)
    (hf : ∀ d0 d1 d2 d3 d4 d5 d6 d7 d8 dd tt aa bb,
      f₁ d0 d1 d2 d3 d4 d5 d6 d7 d8 dd tt aa bb
        = f₂ [d0, d1, d2, d3, d4, d5, d6, d7, d8] dd tt aa bb)
    (c0 c1 c2 c3 c4 c5 c6 c7 c8 : CellValue) (depth : Nat)
    (best alpha beta : Score) :
    vMax8 f₁ c0 c1 c2 c3 c4 c5 c6 c7 c8 depth best alpha beta
      = sMaxLoop f₂ [8] [c0, c1, c2, c3, c4, c5, c6, c7, c8] depth best alpha beta := by
  rw [sMaxLoop_cons]
  by_cases hE : c8 = none
  · simp only [vMax8, List.getD_cons_zero, List.getD_cons_succ,
      List.set_cons_zero, List.set_cons_succ, forceBoard_eq, forceCell_eq,
      Score.force_eq, hE, if_pos, if_true, hf, sMaxLoop_nil, ite_self]
  · simp only [vMax8, List.getD_cons_zero, List.getD_cons_succ]
    rw [if_neg hE, if_neg hE]
    rfl

theorem vMax7_eq (f₁ : CellValue → CellValue → CellValue → CellValue → CellValue → CellValue → CellValue → CellValue → CellValue → Nat → Bool → Score → Score → Score)
    (f₂ : Board → Nat → Bool → Score → Score → Score)
    (hf : ∀ d0 d1 d2 d3 d4 d5 d6 d7 d8 dd tt aa bb,
      f₁ d0 d1 d2 d3 d4 d5 d6 d7 d8 dd tt aa bb
        = f₂ [d0, d1, d2, d3, d4, d5, d6, d7, d8] dd tt aa bb)
    (c0 c1 c2 c3 c4 c5 c6 c7 c8 : CellValue) (depth : Nat)
    (best alpha beta : Score) :
    vMax7 f₁ c0 c1 c2 c3 c4 c5 c6 c7 c8 depth best alpha beta
      = sMaxLoop f₂ [7, 8] [c0, c1, c2, c3, c4, c5, c6, c7, c8] depth best alpha beta := by
  rw [sMaxLoop_cons]
  by_cases hE : c7 = none
  · simp only [vMax7, List.getD_cons_zero, List.getD_cons_succ,
      List.set_cons_zero, List.set_cons_succ, forceBoard_eq, forceCell_eq,
      Score.force_eq, hE, if_pos, if_true, hf]
    split
    · rfl
    · exact vMax8_eq f₁ f₂ hf _ _ _ _ _ _ _ _ _ _ _ _ _
  · simp only [vMax7, List.getD_cons_zero, List.getD_cons_succ]
    rw [if_neg hE, if_neg hE]
    exact vMax8_eq f₁ f₂ hf _ _ _ _ _ _ _ _ _ _ _ _ _

theorem vMax6_eq (f₁ : CellValue → CellValue → CellValue → CellValue → CellValue → CellValue → CellValue → CellValue → CellValue → Nat → Bool → Score → Score → Score)
    (f₂ : Board → Nat → Bool → Score → Score → Score)
    (hf : ∀ d0 d1 d2 d3 d4 d5 d6 d7 d8 dd tt aa bb,
      f₁ d0 d1 d2 d3 d4 d5 d6 d7 d8 dd tt aa bb
        = f₂ [d0, d1, d2, d3, d4, d5, d6, d7, d8] dd tt aa bb)
    (c0 c1 c2 c3 c4 c5 c6 c7 c8 : CellValue) (depth : Nat)
    (best alpha beta : Score) :
    vMax6 f₁ c0 c1 c2 c3 c4 c5 c6 c7 c8 depth best alpha beta
      = sMaxLoop f₂ [6, 7, 8] [c0, c1, c2, c3, c4, c5, c6, c7, c8] depth best alpha beta := by
  rw [sMaxLoop_cons]
  by_cases hE : c6 = none
  · simp only [vMax6, List.getD_cons_zero, List.getD_cons_succ,
      List.set_cons_zero, List.set_cons_succ, forceBoard_eq, forceCell_eq,
      Score.force_eq, hE, if_pos, if_true, hf]
    split
    · rfl
    · exact vMax7_eq f₁ f₂ hf _ _ _ _ _ _ _ _ _ _ _ _ _
  · simp only [vMax6, List.getD_cons_zero, List.getD_cons_succ]
    rw [if_neg hE, if_neg hE]
    exact vMax7_eq f₁ f₂ hf _ _ _ _ _ _ _ _ _ _ _ _ _

theorem vMax5_eq (f₁ : CellValue → CellValue → CellValue → CellValue → CellValue → CellValue → CellValue → CellValue → CellValue → Nat → Bool → Score → Score → Score)
    (f₂ : Board → Nat → Bool → Score → Score → Score)
    (hf : ∀ d0 d1 d2 d3 d4 d5 d6 d7 d8 dd tt aa bb,
      f₁ d0 d1 d2 d3 d4 d5 d6 d7 d8 dd tt aa bb
        = f₂ [d0, d1, d2, d3, d4, d5, d6, d7, d8] dd tt aa bb)
    (c0 c1 c2 c3 c4 c5 c6 c7 c8 : CellValue) (depth : Nat)
    (best alpha beta : Score) :
    vMax5 f₁ c0 c1 c2 c3 c4 c5 c6 c7 c8 depth best alpha beta
      = sMaxLoop f₂ [5, 6, 7, 8] [c0, c1, c2, c3, c4, c5, c6, c7, c8] depth best alpha beta := by
  rw [sMaxLoop_cons]
  by_cases hE : c5 = none
  · simp only [vMax5, List.getD_cons_zero, List.getD_cons_succ,
      List.set_cons_zero, List.set_cons_succ, forceBoard_eq, forceCell_eq,
      Score.force_eq, hE, if_pos, if_true, hf]
    split
    · rfl
    · exact vMax6_eq f₁ f₂ hf _ _ _ _ _ _ _ _ _ _ _ _ _
  · simp only [vMax5, List.getD_cons_zero, List.getD_cons_succ]
    rw [if_neg hE, if_neg hE]
    exact vMax6_eq f₁ f₂ hf _ _ _ _ _ _ _ _ _ _ _ _ _

theorem vMax4_eq (f₁ : CellValue → CellValue → CellValue → CellValue → CellValue → CellValue → CellValue → CellValue → CellValue → Nat → Bool → Score → Score → Score)
    (f₂ : Board → Nat → Bool → Score → Score → Score)
    (hf : ∀ d0 d1 d2 d3 d4 d5 d6 d7 d8 dd tt aa bb,
      f₁ d0 d1 d2 d3 d4 d5 d6 d7 d8 dd tt aa bb
        = f₂ [d0, d1, d2, d3, d4, d5, d6, d7, d8] dd tt aa bb)
    (c0 c1 c2 c3 c4 c5 c6 c7 c8 : CellValue) (depth : Nat)
    (best alpha beta : Score) :
    vMax4 f₁ c0 c1 c2 c3 c4 c5 c6 c7 c8 depth best alpha beta
      = sMaxLoop f₂ [4, 5, 6, 7, 8] [c0, c1, c2, c3, c4, c5, c6, c7, c8] depth best alpha beta := by
  rw [sMaxLoop_cons]
  by_cases hE : c4 = none
  · simp only [vMax4, List.getD_cons_zero, List.getD_cons_succ,
      List.set_cons_zero, List.set_cons_succ, forceBoard_eq, forceCell_eq,
      Score.force_eq, hE, if_pos, if_true, hf]
    split
    · rfl
    · exact vMax5_eq f₁ f₂ hf _ _ _ _ _ _ _ _ _ _ _ _ _
  · simp only [vMax4, List.getD_cons_zero, List.getD_cons_succ]
    rw [if_neg hE, if_neg hE]
    exact vMax5_eq f₁ f₂ hf _ _ _ _ _ _ _ _ _ _ _ _ _

theorem vMax3_eq (f₁ : CellValue → CellValue → CellValue → CellValue → CellValue → CellValue → CellValue → CellValue → CellValue → Nat → Bool → Score → Score → Score)
    (f₂ : Board → Nat → Bool → Score → Score → Score)
    (hf : ∀ d0 d1 d2 d3 d4 d5 d6 d7 d8 dd tt aa bb,
      f₁ d0 d1 d2 d3 d4 d5 d6 d7 d8 dd tt aa bb
        = f₂ [d0, d1, d2, d3, d4, d5, d6, d7, d8] dd tt aa bb)
    (c0 c1 c2 c3 c4 c5 c6 c7 c8 : CellValue) (depth : Nat)
    (best alpha beta : Score) :
    vMax3 f₁ c0 c1 c2 c3 c4 c5 c6 c7 c8 depth best alpha beta
      = sMaxLoop f₂ [3, 4, 5, 6, 7, 8] [c0, c1, c2, c3, c4, c5, c6, c7, c8] depth best alpha beta := by
  rw [sMaxLoop_cons]
  by_cases hE : c3 = none
  · simp only [vMax3, List.getD_cons_zero, List.getD_cons_succ,
      List.set_cons_zero, List.set_cons_succ, forceBoard_eq, forceCell_eq,
      Score.force_eq, hE, if_pos, if_true, hf]
    split
    · rfl
    · exact vMax4_eq f₁ f₂ hf _ _ _ _ _ _ _ _ _ _ _ _ _
  · simp only [vMax3, List.getD_cons_zero, List.getD_cons_succ]
    rw [if_neg hE, if_neg hE]
    exact vMax4_eq f₁ f₂ hf _ _ _ _ _ _ _ _ _ _ _ _ _

theorem vMax2_eq (f₁ : CellValue → CellValue → CellValue → CellValue → CellValue → CellValue → CellValue → CellValue → CellValue → Nat → Bool → Score → Score → Score)
    (f₂ : Board → Nat → Bool → Score → Score → Score)
    (hf : ∀ d0 d1 d2 d3 d4 d5 d6 d7 d8 dd tt aa bb,
      f₁ d0 d1 d2 d3 d4 d5 d6 d7 d8 dd tt aa bb
        = f₂ [d0, d1, d2, d3, d4, d5, d6, d7, d8] dd tt aa bb)
    (c0 c1 c2 c3 c4 c5 c6 c7 c8 : CellValue) (depth : Nat)
    (best alpha beta : Score) :
    vMax2 f₁ c0 c1 c2 c3 c4 c5 c6 c7 c8 depth best alpha beta
      = sMaxLoop f₂ [2, 3, 4, 5, 6, 7, 8] [c0, c1, c2, c3, c4, c5, c6, c7, c8] depth best alpha beta := by
  rw [sMaxLoop_cons]
  by_cases hE : c2 = none
  · simp only [vMax2, List.getD_cons_zero, List.getD_cons_succ,
      List.set_cons_zero, List.set_cons_succ, forceBoard_eq, forceCell_eq,
      Score.force_eq, hE, if_pos, if_true, hf]
    split
    · rfl
    · exact vMax3_eq f₁ f₂ hf _ _ _ _ _ _ _ _ _ _ _ _ _
  · simp only [vMax2, List.getD_cons_zero, List.getD_cons_succ]
    rw [if_neg hE, if_neg hE]
    exact vMax3_eq f₁ f₂ hf _ _ _ _ _ _ _ _ _ _ _ _ _

theorem vMax1_eq (f₁ : CellValue → CellValue → CellValue → CellValue → CellValue → CellValue → CellValue → CellValue → CellValue → Nat → Bool → Score → Score → Score)
    (f₂ : Board → Nat → Bool → Score → Score → Score)
    (hf : ∀ d0 d1 d2 d3 d4 d5 d6 d7 d8 dd tt aa bb,
      f₁ d0 d1 d2 d3 d4 d5 d6 d7 d8 dd tt aa bb
        = f₂ [d0, d1, d2, d3, d4, d5, d6, d7, d8] dd tt aa bb)
    (c0 c1 c2 c3 c4 c5 c6 c7 c8 : CellValue) (depth : Nat)
    (best alpha beta : Score) :
    vMax1 f₁ c0 c1 c2 c3 c4 c5 c6 c7 c8 depth best alpha beta
      = sMaxLoop f₂ [1, 2, 3, 4, 5, 6, 7, 8] [c0, c1, c2, c3, c4, c5, c6, c7, c8] depth best alpha beta := by
  rw [sMaxLoop_cons]
  by_cases hE : c1 = none
  · simp only [vMax1, List.getD_cons_zero, List.getD_cons_succ,
      List.set_cons_zero, List.set_cons_succ, forceBoard_eq, forceCell_eq,
      Score.force_eq, hE, if_pos, if_true, hf]
    split
    · rfl
    · exact vMax2_eq f₁ f₂ hf _ _ _ _ _ _ _ _ _ _ _ _ _
  · simp only [vMax1, List.getD_cons_zero, List.getD_cons_succ]
    rw [if_neg hE, if_neg hE]
    exact vMax2_eq f₁ f₂ hf _ _ _ _ _ _ _ _ _ _ _ _ _

theorem vMax0_eq (f₁ : CellValue → CellValue → CellValue → CellValue → CellValue → CellValue → CellValue → CellValue → CellValue → Nat → Bool → Score → Score → Score)
    (f₂ : Board → Nat → Bool → Score → Score → Score)
    (hf : ∀ d0 d1 d2 d3 d4 d5 d6 d7 d8 dd tt aa bb,
      f₁ d0 d1 d2 d3 d4 d5 d6 d7 d8 dd tt aa bb
        = f₂ [d0, d1, d2, d3, d4, d5, d6, d7, d8] dd tt aa bb)
    (c0 c1 c2 c3 c4 c5 c6 c7 c8 : CellValue) (depth : Nat)
    (best alpha beta : Score) :
    vMax0 f₁ c0 c1 c2 c3 c4 c5 c6 c7 c8 depth best alpha beta
      = sMaxLoop f₂ [0, 1, 2, 3, 4, 5, 6, 7, 8] [c0, c1, c2, c3, c4, c5, c6, c7, c8] depth best alpha beta := by
  rw [sMaxLoop_cons]
  by_cases hE : c0 = none
  · simp only [vMax0, List.getD_cons_zero, List.getD_cons_succ,
      List.set_cons_zero, List.set_cons_succ, forceBoard_eq, forceCell_eq,
      Score.force_eq, hE, if_pos, if_true, hf]
    split
    · rfl
    · exact vMax1_eq f₁ f₂ hf _ _ _ _ _ _ _ _ _ _ _ _ _
  · simp only [vMax0, List.getD_cons_zero, List.getD_cons_succ]
    rw [if_neg hE, if_neg hE]
    exact vMax1_eq f₁ f₂ hf _ _ _ _ _ _ _ _ _ _ _ _ _

theorem vMin8_eq (f₁ : CellValue → CellValue → CellValue → CellValue → CellValue → CellValue → CellValue → CellValue → CellValue → Nat → Bool → Score → Score → Score)
    (f₂ : Board → Nat → Bool → Score → Score → Score)
    (hf : ∀ d0 d1 d2 d3 d4 d5 d6 d7 d8 dd tt aa bb,
      f₁ d0 d1 d2 d3 d4 d5 d6 d7 d8 dd tt aa bb
        = f₂ [d0, d1, d2, d3, d4, d5, d6, d7, d8] dd tt aa bb)
    (c0 c1 c2 c3 c4 c5 c6 c7 c8 : CellValue) (depth : Nat)
    (best alpha beta : Score) :
    vMin8 f₁ c0 c1 c2 c3 c4 c5 c6 c7 c8 depth best alpha beta
      = sMinLoop f₂ [8] [c0, c1, c2, c3, c4, c5, c6, c7, c8] depth best alpha beta := by
  rw [sMinLoop_cons]
  by_cases hE : c8 = none
  · simp only [vMin8, List.getD_cons_zero, List.getD_cons_succ,
      List.set_cons_zero, List.set_cons_succ, forceBoard_eq, forceCell_eq,
      Score.force_eq, hE, if_pos, if_true, hf, sMinLoop_nil, ite_self]
  · simp only [vMin8, List.getD_cons_zero, List.getD_cons_succ]
    rw [if_neg hE, if_neg hE]
    rfl

theorem vMin7_eq (f₁ : CellValue → CellValue → CellValue → CellValue → CellValue → CellValue → CellValue → CellValue → CellValue → Nat → Bool → Score → Score → Score)
    (f₂ : Board → Nat → Bool → Score → Score → Score)
    (hf : ∀ d0 d1 d2 d3 d4 d5 d6 d7 d8 dd tt aa bb,
      f₁ d0 d1 d2 d3 d4 d5 d6 d7 d8 dd tt aa bb
        = f₂ [d0, d1, d2, d3, d4, d5, d6, d7, d8] dd tt aa bb)
    (c0 c1 c2 c3 c4 c5 c6 c7 c8 : CellValue) (depth : Nat)
    (best alpha beta : Score) :
    vMin7 f₁ c0 c1 c2 c3 c4 c5 c6 c7 c8 depth best alpha beta
      = sMinLoop f₂ [7, 8] [c0, c1, c2, c3, c4, c5, c6, c7, c8] depth best alpha beta := by
  rw [sMinLoop_cons]
  by_cases hE : c7 = none
  · simp only [vMin7, List.getD_cons_zero, List.getD_cons_succ,
      List.set_cons_zero, List.set_cons_succ, forceBoard_eq, forceCell_eq,
      Score.force_eq, hE, if_pos, if_true, hf]
    split
    · rfl
    · exact vMin8_eq f₁ f₂ hf _ _ _ _ _ _ _ _ _ _ _ _ _
  · simp only [vMin7, List.getD_cons_zero, List.getD_cons_succ]
    rw [if_neg hE, if_neg hE]
    exact vMin8_eq f₁ f₂ hf _ _ _ _ _ _ _ _ _ _ _ _ _

theorem vMin6_eq (f₁ : CellValue → CellValue → CellValue → CellValue → CellValue → CellValue → CellValue → CellValue → CellValue → Nat → Bool → Score → Score → Score)
    (f₂ : Board → Nat → Bool → Score → Score → Score)
    (hf : ∀ d0 d1 d2 d3 d4 d5 d6 d7 d8 dd tt aa bb,
      f₁ d0 d1 d2 d3 d4 d5 d6 d7 d8 dd tt aa bb
        = f₂ [d0, d1, d2, d3, d4, d5, d6, d7, d8] dd tt aa bb)
    (c0 c1 c2 c3 c4 c5 c6 c7 c8 : CellValue) (depth : Nat)
    (best alpha beta : Score) :
    vMin6 f₁ c0 c1 c2 c3 c4 c5 c6 c7 c8 depth best alpha beta
      = sMinLoop f₂ [6, 7, 8] [c0, c1, c2, c3, c4, c5, c6, c7, c8] depth best alpha beta := by
  rw [sMinLoop_cons]
  by_cases hE : c6 = none
  · simp only [vMin6, List.getD_cons_zero, List.getD_cons_succ,
      List.set_cons_zero, List.set_cons_succ, forceBoard_eq, forceCell_eq,
      Score.force_eq, hE, if_pos, if_true, hf]
    split
    · rfl
    · exact vMin7_eq f₁ f₂ hf _ _ _ _ _ _ _ _ _ _ _ _ _
  · simp only [vMin6, List.getD_cons_zero, List.getD_cons_succ]
    rw [if_neg hE, if_neg hE]
    exact vMin7_eq f₁ f₂ hf _ _ _ _ _ _ _ _ _ _ _ _ _

theorem vMin5_eq (f₁ : CellValue → CellValue → CellValue → CellValue → CellValue → CellValue → CellValue → CellValue → CellValue → Nat → Bool → Score → Score → Score)
    (f₂ : Board → Nat → Bool → Score → Score → Score)
    (hf : ∀ d0 d1 d2 d3 d4 d5 d6 d7 d8 dd tt aa bb,
      f₁ d0 d1 d2 d3 d4 d5 d6 d7 d8 dd tt aa bb
        = f₂ [d0, d1, d2, d3, d4, d5, d6, d7, d8] dd tt aa bb)
    (c0 c1 c2 c3 c4 c5 c6 c7 c8 : CellValue) (depth : Nat)
    (best alpha beta : Score) :
    vMin5 f₁ c0 c1 c2 c3 c4 c5 c6 c7 c8 depth best alpha beta
      = sMinLoop f₂ [5, 6, 7, 8] [c0, c1, c2, c3, c4, c5, c6, c7, c8] depth best alpha beta := by
  rw [sMinLoop_cons]
  by_cases hE : c5 = none
  · simp only [vMin5, List.getD_cons_zero, List.getD_cons_succ,
      List.set_cons_zero, List.set_cons_succ, forceBoard_eq, forceCell_eq,
      Score.force_eq, hE, if_pos, if_true, hf]
    split
    · rfl
    · exact vMin6_eq f₁ f₂ hf _ _ _ _ _ _ _ _ _ _ _ _ _
  · simp only [vMin5, List.getD_cons_zero, List.getD_cons_succ]
    rw [if_neg hE, if_neg hE]
    exact vMin6_eq f₁ f₂ hf _ _ _ _ _ _ _ _ _ _ _ _ _

theorem vMin4_eq (f₁ : CellValue → CellValue → CellValue → CellValue → CellValue → CellValue → CellValue → CellValue → CellValue → Nat → Bool → Score → Score → Score)
    (f₂ : Board → Nat → Bool → Score → Score → Score)
    (hf : ∀ d0 d1 d2 d3 d4 d5 d6 d7 d8 dd tt aa bb,
      f₁ d0 d1 d2 d3 d4 d5 d6 d7 d8 dd tt aa bb
        = f₂ [d0, d1, d2, d3, d4, d5, d6, d7, d8] dd tt aa bb)
    (c0 c1 c2 c3 c4 c5 c6 c7 c8 : CellValue) (depth : Nat)
    (best alpha beta : Score) :
    vMin4 f₁ c0 c1 c2 c3 c4 c5 c6 c7 c8 depth best alpha beta
      = sMinLoop f₂ [4, 5, 6, 7, 8] [c0, c1, c2, c3, c4, c5, c6, c7, c8] depth best alpha beta := by
  rw [sMinLoop_cons]
  by_cases hE : c4 = none
  · simp only [vMin4, List.getD_cons_zero, List.getD_cons_succ,
      List.set_cons_zero, List.set_cons_succ, forceBoard_eq, forceCell_eq,
      Score.force_eq, hE, if_pos, if_true, hf]
    split
    · rfl
    · exact vMin5_eq f₁ f₂ hf _ _ _ _ _ _ _ _ _ _ _ _ _
  · simp only [vMin4, List.getD_cons_zero, List.getD_cons_succ]
    rw [if_neg hE, if_neg hE]
    exact vMin5_eq f₁ f₂ hf _ _ _ _ _ _ _ _ _ _ _ _ _

theorem vMin3_eq (f₁ : CellValue → CellValue → CellValue → CellValue → CellValue → CellValue → CellValue → CellValue → CellValue → Nat → Bool → Score → Score → Score)
    (f₂ : Board → Nat → Bool → Score → Score → Score)
    (hf : ∀ d0 d1 d2 d3 d4 d5 d6 d7 d8 dd tt aa bb,
      f₁ d0 d1 d2 d3 d4 d5 d6 d7 d8 dd tt aa bb
        = f₂ [d0, d1, d2, d3, d4, d5, d6, d7, d8] dd tt aa bb)
    (c0 c1 c2 c3 c4 c5 c6 c7 c8 : CellValue) (depth : Nat)
    (best alpha beta : Score) :
    vMin3 f₁ c0 c1 c2 c3 c4 c5 c6 c7 c8 depth best alpha beta
      = sMinLoop f₂ [3, 4, 5, 6, 7, 8] [c0, c1, c2, c3, c4, c5, c6, c7, c8] depth best alpha beta := by
  rw [sMinLoop_cons]
  by_cases hE : c3 = none
  · simp only [vMin3, List.getD_cons_zero, List.getD_cons_succ,
      List.set_cons_zero, List.set_cons_succ, forceBoard_eq, forceCell_eq,
      Score.force_eq, hE, if_pos, if_true, hf]
    split
    · rfl
    · exact vMin4_eq f₁ f₂ hf _ _ _ _ _ _ _ _ _ _ _ _ _
  · simp only [vMin3, List.getD_cons_zero, List.getD_cons_succ]
    rw [if_neg hE, if_neg hE]
    exact vMin4_eq f₁ f₂ hf _ _ _ _ _ _ _ _ _ _ _ _ _

theorem vMin2_eq (f₁ : CellValue → CellValue → CellValue → CellValue → CellValue → CellValue → CellValue → CellValue → CellValue → Nat → Bool → Score → Score → Score)
    (f₂ : Board → Nat → Bool → Score → Score → Score)
    (hf : ∀ d0 d1 d2 d3 d4 d5 d6 d7 d8 dd tt aa bb,
      f₁ d0 d1 d2 d3 d4 d5 d6 d7 d8 dd tt aa bb
        = f₂ [d0, d1, d2, d3, d4, d5, d6, d7, d8] dd tt aa bb)
    (c0 c1 c2 c3 c4 c5 c6 c7 c8 : CellValue) (depth : Nat)
    (best alpha beta : Score) :
    vMin2 f₁ c0 c1 c2 c3 c4 c5 c6 c7 c8 depth best alpha beta
      = sMinLoop f₂ [2, 3, 4, 5, 6, 7, 8] [c0, c1, c2, c3, c4, c5, c6, c7, c8] depth best alpha beta := by
  rw [sMinLoop_cons]
  by_cases hE : c2 = none
  · simp only [vMin2, List.getD_cons_zero, List.getD_cons_succ,
      List.set_cons_zero, List.set_cons_succ, forceBoard_eq, forceCell_eq,
      Score.force_eq, hE, if_pos, if_true, hf]
    split
    · rfl
    · exact vMin3_eq f₁ f₂ hf _ _ _ _ _ _ _ _ _ _ _ _ _
  · simp only [vMin2, List.getD_cons_zero, List.getD_cons_succ]
    rw [if_neg hE, if_neg hE]
    exact vMin3_eq f₁ f₂ hf _ _ _ _ _ _ _ _ _ _ _ _ _

theorem vMin1_eq (f₁ : CellValue → CellValue → CellValue → CellValue → CellValue → CellValue → CellValue → CellValue → CellValue → Nat → Bool → Score → Score → Score)
    (f₂ : Board → Nat → Bool → Score → Score → Score)
    (hf : ∀ d0 d1 d2 d3 d4 d5 d6 d7 d8 dd tt aa bb,
      f₁ d0 d1 d2 d3 d4 d5 d6 d7 d8 dd tt aa bb
        = f₂ [d0, d1, d2, d3, d4, d5, d6, d7, d8] dd tt aa bb)
    (c0 c1 c2 c3 c4 c5 c6 c7 c8 : CellValue) (depth : Nat)
    (best alpha beta : Score) :
    vMin1 f₁ c0 c1 c2 c3 c4 c5 c6 c7 c8 depth best alpha beta
      = sMinLoop f₂ [1, 2, 3, 4, 5, 6, 7, 8] [c0, c1, c2, c3, c4, c5, c6, c7, c8] depth best alpha beta := by
  rw [sMinLoop_cons]
  by_cases hE : c1 = none
  · simp only [vMin1, List.getD_cons_zero, List.getD_cons_succ,
      List.set_cons_zero, List.set_cons_succ, forceBoard_eq, forceCell_eq,
      Score.force_eq, hE, if_pos, if_true, hf]
    split
    · rfl
    · exact vMin2_eq f₁ f₂ hf _ _ _ _ _ _ _ _ _ _ _ _ _
  · simp only [vMin1, List.getD_cons_zero, List.getD_cons_succ]
    rw [if_neg hE, if_neg hE]
    exact vMin2_eq f₁ f₂ hf _ _ _ _ _ _ _ _ _ _ _ _ _

theorem vMin0_eq (f₁ : CellValue → CellValue → CellValue → CellValue → CellValue → CellValue → CellValue → CellValue → CellValue → Nat → Bool → Score → Score → Score)
    (f₂ : Board → Nat → Bool → Score → Score → Score)
    (hf : ∀ d0 d1 d2 d3 d4 d5 d6 d7 d8 dd tt aa bb,
      f₁ d0 d1 d2 d3 d4 d5 d6 d7 d8 dd tt aa bb
        = f₂ [d0, d1, d2, d3, d4, d5, d6, d7, d8] dd tt aa bb)
    (c0 c1 c2 c3 c4 c5 c6 c7 c8 : CellValue) (depth : Nat)
    (best alpha beta : Score) :
    vMin0 f₁ c0 c1 c2 c3 c4 c5 c6 c7 c8 depth best alpha beta
      = sMinLoop f₂ [0, 1, 2, 3, 4, 5, 6, 7, 8] [c0, c1, c2, c3, c4, c5, c6, c7, c8] depth best alpha beta := by
  rw [sMinLoop_cons]
  by_cases hE : c0 = none
  · simp only [vMin0, List.getD_cons_zero, List.getD_cons_succ,
      List.set_cons_zero, List.set_cons_succ, forceBoard_eq, forceCell_eq,
      Score.force_eq, hE, if_pos, if_true, hf]
    split
    · rfl
    · exact vMin1_eq f₁ f₂ hf _ _ _ _ _ _ _ _ _ _ _ _ _
  · simp only [vMin0, List.getD_cons_zero, List.getD_cons_succ]
    rw [if_neg hE, if_neg hE]
    exact vMin1_eq f₁ f₂ hf _ _ _ _ _ _ _ _ _ _ _ _ _

theorem vMinimaxF_eq :
    ∀ (fuel : Nat) (c0 c1 c2 c3 c4 c5 c6 c7 c8 : CellValue) (d : Nat)
      (t : Bool) (α β : Score),
      vMinimaxF fuel c0 c1 c2 c3 c4 c5 c6 c7 c8 d t α β
        = sMinimaxF fuel [c0, c1, c2, c3, c4, c5, c6, c7, c8] d t α β := by
  intro fuel
  induction fuel with
  | zero => intro c0 c1 c2 c3 c4 c5 c6 c7 c8 d t α β; rfl
  | succ fuel ih =>
    intro c0 c1 c2 c3 c4 c5 c6 c7 c8 d t α β
    simp only [vMinimaxF, sMinimaxF, vCheck_eq]
    rcases hw : checkWinnerForMiniMax [c0, c1, c2, c3, c4, c5, c6, c7, c8]
      with _ | p
    · rcases hF : isBoardFull [c0, c1, c2, c3, c4, c5, c6, c7, c8] with _ | _
      · simp only [Bool.false_eq_true, if_false]
        rw [show List.range
            (List.length ([c0, c1, c2, c3, c4, c5, c6, c7, c8] : Board))
            = [0, 1, 2, 3, 4, 5, 6, 7, 8] from rfl]
        cases t
        · simp only [Bool.false_eq_true, if_false]
          exact vMin0_eq (vMinimaxF fuel) (sMinimaxF fuel) ih
            c0 c1 c2 c3 c4 c5 c6 c7 c8 d Score.posInf α β
        · simp only [if_true]
          exact vMax0_eq (vMinimaxF fuel) (sMinimaxF fuel) ih
            c0 c1 c2 c3 c4 c5 c6 c7 c8 d Score.negInf α β
      · simp only [if_true]
    · cases p <;> rfl

theorem len9_succ (d0 d1 d2 d3 d4 d5 d6 d7 d8 : CellValue) :
    (List.length ([d0, d1, d2, d3, d4, d5, d6, d7, d8] : Board) + 1) = 10 :=
  rfl

theorem sGetBestMoveLoop_cons (i : Nat) (rest : List Nat) (b : Board)
    (bestScore : Score) (bestMove : Int) :
    sGetBestMoveLoop (i :: rest) b bestScore bestMove =
      if b.getD i none = none then
        forceBoard (b.set i (some Player.X)) fun bX =>
          Score.force (sMinimaxF (b.length + 1) bX 0 false
              Score.negInf Score.posInf) fun s =>
            if Score.blt bestScore s then
              sGetBestMoveLoop rest b s (Int.ofNat i)
            else sGetBestMoveLoop rest b bestScore bestMove
      else sGetBestMoveLoop rest b bestScore bestMove := rfl

theorem sOpponentBestMoveLoop_cons (i : Nat) (rest : List Nat) (b : Board)
    (bestScore : Score) (bestMove : Int) :
    sOpponentBestMoveLoop (i :: rest) b bestScore bestMove =
      if b.getD i none = none then
        forceBoard (b.set i (some Player.O)) fun bO =>
          Score.force (sMinimaxF (b.length + 1) bO 0 true
              Score.negInf Score.posInf) fun s =>
            if Score.blt s bestScore then
              sOpponentBestMoveLoop rest b s (Int.ofNat i)
            else sOpponentBestMoveLoop rest b bestScore bestMove
      else sOpponentBestMoveLoop rest b bestScore bestMove := rfl

theorem vGbm8_eq (c0 c1 c2 c3 c4 c5 c6 c7 c8 : CellValue)
    (bestScore : Score) (bestMove : Int) :
    vGbm8 c0 c1 c2 c3 c4 c5 c6 c7 c8 bestScore bestMove
      = sGetBestMoveLoop [8] [c0, c1, c2, c3, c4, c5, c6, c7, c8] bestScore bestMove := by
  rw [sGetBestMoveLoop_cons]
  by_cases hE : c8 = none
  · simp only [vGbm8, List.getD_cons_zero, List.getD_cons_succ,
      List.set_cons_zero, List.set_cons_succ, forceBoard_eq, forceCell_eq,
      Score.force_eq, hE, if_pos, if_true, vMinimaxF_eq, len9_succ]
    split
    · rfl
    · rfl
  · simp only [vGbm8, List.getD_cons_zero, List.getD_cons_succ]
    rw [if_neg hE, if_neg hE]
    rfl

theorem vGbm7_eq (c0 c1 c2 c3 c4 c5 c6 c7 c8 : CellValue)
    (bestScore : Score) (bestMove : Int) :
    vGbm7 c0 c1 c2 c3 c4 c5 c6 c7 c8 bestScore bestMove
      = sGetBestMoveLoop [7, 8] [c0, c1, c2, c3, c4, c5, c6, c7, c8] bestScore bestMove := by
  rw [sGetBestMoveLoop_cons]
  by_cases hE : c7 = none
  · simp only [vGbm7, List.getD_cons_zero, List.getD_cons_succ,
      List.set_cons_zero, List.set_cons_succ, forceBoard_eq, forceCell_eq,
      Score.force_eq, hE, if_pos, if_true, vMinimaxF_eq, len9_succ]
    split
    · exact vGbm8_eq _ _ _ _ _ _ _ _ _ _ _
    · exact vGbm8_eq _ _ _ _ _ _ _ _ _ _ _
  · simp only [vGbm7, List.getD_cons_zero, List.getD_cons_succ]
    rw [if_neg hE, if_neg hE]
    exact vGbm8_eq _ _ _ _ _ _ _ _ _ _ _

theorem vGbm6_eq (c0 c1 c2 c3 c4 c5 c6 c7 c8 : CellValue)
    (bestScore : Score) (bestMove : Int) :
    vGbm6 c0 c1 c2 c3 c4 c5 c6 c7 c8 bestScore bestMove
      = sGetBestMoveLoop [6, 7, 8] [c0, c1, c2, c3, c4, c5, c6, c7, c8] bestScore bestMove := by
  rw [sGetBestMoveLoop_cons]
  by_cases hE : c6 = none
  · simp only [vGbm6, List.getD_cons_zero, List.getD_cons_succ,
      List.set_cons_zero, List.set_cons_succ, forceBoard_eq, forceCell_eq,
      Score.force_eq, hE, if_pos, if_true, vMinimaxF_eq, len9_succ]
    split
    · exact vGbm7_eq _ _ _ _ _ _ _ _ _ _ _
    · exact vGbm7_eq _ _ _ _ _ _ _ _ _ _ _
  · simp only [vGbm6, List.getD_cons_zero, List.getD_cons_succ]
    rw [if_neg hE, if_neg hE]
    exact vGbm7_eq _ _ _ _ _ _ _ _ _ _ _

theorem vGbm5_eq (c0 c1 c2 c3 c4 c5 c6 c7 c8 : CellValue)
    (bestScore : Score) (bestMove : Int) :
    vGbm5 c0 c1 c2 c3 c4 c5 c6 c7 c8 bestScore bestMove
      = sGetBestMoveLoop [5, 6, 7, 8] [c0, c1, c2, c3, c4, c5, c6, c7, c8] bestScore bestMove := by
  rw [sGetBestMoveLoop_cons]
  by_cases hE : c5 = none
  · simp only [vGbm5, List.getD_cons_zero, List.getD_cons_succ,
      List.set_cons_zero, List.set_cons_succ, forceBoard_eq, forceCell_eq,
      Score.force_eq, hE, if_pos, if_true, vMinimaxF_eq, len9_succ]
    split
    · exact vGbm6_eq _ _ _ _ _ _ _ _ _ _ _
    · exact vGbm6_eq _ _ _ _ _ _ _ _ _ _ _
  · simp only [vGbm5, List.getD_cons_zero, List.getD_cons_succ]
    rw [if_neg hE, if_neg hE]
    exact vGbm6_eq _ _ _ _ _ _ _ _ _ _ _

theorem vGbm4_eq (c0 c1 c2 c3 c4 c5 c6 c7 c8 : CellValue)
    (bestScore : Score) (bestMove : Int) :
    vGbm4 c0 c1 c2 c3 c4 c5 c6 c7 c8 bestScore bestMove
      = sGetBestMoveLoop [4, 5, 6, 7, 8] [c0, c1, c2, c3, c4, c5, c6, c7, c8] bestScore bestMove := by
  rw [sGetBestMoveLoop_cons]
  by_cases hE : c4 = none
  · simp only [vGbm4, List.getD_cons_zero, List.getD_cons_succ,
      List.set_cons_zero, List.set_cons_succ, forceBoard_eq, forceCell_eq,
      Score.force_eq, hE, if_pos, if_true, vMinimaxF_eq, len9_succ]
    split
    · exact vGbm5_eq _ _ _ _ _ _ _ _ _ _ _
    · exact vGbm5_eq _ _ _ _ _ _ _ _ _ _ _
  · simp only [vGbm4, List.getD_cons_zero, List.getD_cons_succ]
    rw [if_neg hE, if_neg hE]
    exact vGbm5_eq _ _ _ _ _ _ _ _ _ _ _

theorem vGbm3_eq (c0 c1 c2 c3 c4 c5 c6 c7 c8 : CellValue)
    (bestScore : Score) (bestMove : Int) :
    vGbm3 c0 c1 c2 c3 c4 c5 c6 c7 c8 bestScore bestMove
      = sGetBestMoveLoop [3, 4, 5, 6, 7, 8] [c0, c1, c2, c3, c4, c5, c6, c7, c8] bestScore bestMove := by
  rw [sGetBestMoveLoop_cons]
  by_cases hE : c3 = none
  · simp only [vGbm3, List.getD_cons_zero, List.getD_cons_succ,
      List.set_cons_zero, List.set_cons_succ, forceBoard_eq, forceCell_eq,
      Score.force_eq, hE, if_pos, if_true, vMinimaxF_eq, len9_succ]
    split
    · exact vGbm4_eq _ _ _ _ _ _ _ _ _ _ _
    · exact vGbm4_eq _ _ _ _ _ _ _ _ _ _ _
  · simp only [vGbm3, List.getD_cons_zero, List.getD_cons_succ]
    rw [if_neg hE, if_neg hE]
    exact vGbm4_eq _ _ _ _ _ _ _ _ _ _ _

theorem vGbm2_eq (c0 c1 c2 c3 c4 c5 c6 c7 c8 : CellValue)
    (bestScore : Score) (bestMove : Int) :
    vGbm2 c0 c1 c2 c3 c4 c5 c6 c7 c8 bestScore bestMove
      = sGetBestMoveLoop [2, 3, 4, 5, 6, 7, 8] [c0, c1, c2, c3, c4, c5, c6, c7, c8] bestScore bestMove := by
  rw [sGetBestMoveLoop_cons]
  by_cases hE : c2 = none
  · simp only [vGbm2, List.getD_cons_zero, List.getD_cons_succ,
      List.set_cons_zero, List.set_cons_succ, forceBoard_eq, forceCell_eq,
      Score.force_eq, hE, if_pos, if_true, vMinimaxF_eq, len9_succ]
    split
    · exact vGbm3_eq _ _ _ _ _ _ _ _ _ _ _
    · exact vGbm3_eq _ _ _ _ _ _ _ _ _ _ _
  · simp only [vGbm2, List.getD_cons_zero, List.getD_cons_succ]
    rw [if_neg hE, if_neg hE]
    exact vGbm3_eq _ _ _ _ _ _ _ _ _ _ _

theorem vGbm1_eq (c0 c1 c2 c3 c4 c5 c6 c7 c8 : CellValue)
    (bestScore : Score) (bestMove : Int) :
    vGbm1 c0 c1 c2 c3 c4 c5 c6 c7 c8 bestScore bestMove
      = sGetBestMoveLoop [1, 2, 3, 4, 5, 6, 7, 8] [c0, c1, c2, c3, c4, c5, c6, c7, c8] bestScore bestMove := by
  rw [sGetBestMoveLoop_cons]
  by_cases hE : c1 = none
  · simp only [vGbm1, List.getD_cons_zero, List.getD_cons_succ,
      List.set_cons_zero, List.set_cons_succ, forceBoard_eq, forceCell_eq,
      Score.force_eq, hE, if_pos, if_true, vMinimaxF_eq, len9_succ]
    split
    · exact vGbm2_eq _ _ _ _ _ _ _ _ _ _ _
    · exact vGbm2_eq _ _ _ _ _ _ _ _ _ _ _
  · simp only [vGbm1, List.getD_cons_zero, List.getD_cons_succ]
    rw [if_neg hE, if_neg hE]
    exact vGbm2_eq _ _ _ _ _ _ _ _ _ _ _

theorem vGbm0_eq (c0 c1 c2 c3 c4 c5 c6 c7 c8 : CellValue)
    (bestScore : Score) (bestMove : Int) :
    vGbm0 c0 c1 c2 c3 c4 c5 c6 c7 c8 bestScore bestMove
      = sGetBestMoveLoop [0, 1, 2, 3, 4, 5, 6, 7, 8] [c0, c1, c2, c3, c4, c5, c6, c7, c8] bestScore bestMove := by
  rw [sGetBestMoveLoop_cons]
  by_cases hE : c0 = none
  · simp only [vGbm0, List.getD_cons_zero, List.getD_cons_succ,
      List.set_cons_zero, List.set_cons_succ, forceBoard_eq, forceCell_eq,
      Score.force_eq, hE, if_pos, if_true, vMinimaxF_eq, len9_succ]
    split
    · exact vGbm1_eq _ _ _ _ _ _ _ _ _ _ _
    · exact vGbm1_eq _ _ _ _ _ _ _ _ _ _ _
  · simp only [vGbm0, List.getD_cons_zero, List.getD_cons_succ]
    rw [if_neg hE, if_neg hE]
    exact vGbm1_eq _ _ _ _ _ _ _ _ _ _ _

theorem vOpp8_eq (c0 c1 c2 c3 c4 c5 c6 c7 c8 : CellValue)
    (bestScore : Score) (bestMove : Int) :
    vOpp8 c0 c1 c2 c3 c4 c5 c6 c7 c8 bestScore bestMove
      = sOpponentBestMoveLoop [8] [c0, c1, c2, c3, c4, c5, c6, c7, c8] bestScore bestMove := by
  rw [sOpponentBestMoveLoop_cons]
  by_cases hE : c8 = none
  · simp only [vOpp8, List.getD_cons_zero, List.getD_cons_succ,
      List.set_cons_zero, List.set_cons_succ, forceBoard_eq, forceCell_eq,
      Score.force_eq, hE, if_pos, if_true, vMinimaxF_eq, len9_succ]
    split
    · rfl
    · rfl
  · simp only [vOpp8, List.getD_cons_zero, List.getD_cons_succ]
    rw [if_neg hE, if_neg hE]
    rfl

theorem vOpp7_eq (c0 c1 c2 c3 c4 c5 c6 c7 c8 : CellValue)
    (bestScore : Score) (bestMove : Int) :
    vOpp7 c0 c1 c2 c3 c4 c5 c6 c7 c8 bestScore bestMove
      = sOpponentBestMoveLoop [7, 8] [c0, c1, c2, c3, c4, c5, c6, c7, c8] bestScore bestMove := by
  rw [sOpponentBestMoveLoop_cons]
  by_cases hE : c7 = none
  · simp only [vOpp7, List.getD_cons_zero, List.getD_cons_succ,
      List.set_cons_zero, List.set_cons_succ, forceBoard_eq, forceCell_eq,
      Score.force_eq, hE, if_pos, if_true, vMinimaxF_eq, len9_succ]
    split
    · exact vOpp8_eq _ _ _ _ _ _ _ _ _ _ _
    · exact vOpp8_eq _ _ _ _ _ _ _ _ _ _ _
  · simp only [vOpp7, List.getD_cons_zero, List.getD_cons_succ]
    rw [if_neg hE, if_neg hE]
    exact vOpp8_eq _ _ _ _ _ _ _ _ _ _ _

theorem vOpp6_eq (c0 c1 c2 c3 c4 c5 c6 c7 c8 : CellValue)
    (bestScore : Score) (bestMove : Int) :
    vOpp6 c0 c1 c2 c3 c4 c5 c6 c7 c8 bestScore bestMove
      = sOpponentBestMoveLoop [6, 7, 8] [c0, c1, c2, c3, c4, c5, c6, c7, c8] bestScore bestMove := by
  rw [sOpponentBestMoveLoop_cons]
  by_cases hE : c6 = none
  · simp only [vOpp6, List.getD_cons_zero, List.getD_cons_succ,
      List.set_cons_zero, List.set_cons_succ, forceBoard_eq, forceCell_eq,
      Score.force_eq, hE, if_pos, if_true, vMinimaxF_eq, len9_succ]
    split
    · exact vOpp7_eq _ _ _ _ _ _ _ _ _ _ _
    · exact vOpp7_eq _ _ _ _ _ _ _ _ _ _ _
  · simp only [vOpp6, List.getD_cons_zero, List.getD_cons_succ]
    rw [if_neg hE, if_neg hE]
    exact vOpp7_eq _ _ _ _ _ _ _ _ _ _ _

theorem vOpp5_eq (c0 c1 c2 c3 c4 c5 c6 c7 c8 : CellValue)
    (bestScore : Score) (bestMove : Int) :
    vOpp5 c0 c1 c2 c3 c4 c5 c6 c7 c8 bestScore bestMove
      = sOpponentBestMoveLoop [5, 6, 7, 8] [c0, c1, c2, c3, c4, c5, c6, c7, c8] bestScore bestMove := by
  rw [sOpponentBestMoveLoop_cons]
  by_cases hE : c5 = none
  · simp only [vOpp5, List.getD_cons_zero, List.getD_cons_succ,
      List.set_cons_zero, List.set_cons_succ, forceBoard_eq, forceCell_eq,
      Score.force_eq, hE, if_pos, if_true, vMinimaxF_eq, len9_succ]
    split
    · exact vOpp6_eq _ _ _ _ _ _ _ _ _ _ _
    · exact vOpp6_eq _ _ _ _ _ _ _ _ _ _ _
  · simp only [vOpp5, List.getD_cons_zero, List.getD_cons_succ]
    rw [if_neg hE, if_neg hE]
    exact vOpp6_eq _ _ _ _ _ _ _ _ _ _ _

theorem vOpp4_eq (c0 c1 c2 c3 c4 c5 c6 c7 c8 : CellValue)
    (bestScore : Score) (bestMove : Int) :
    vOpp4 c0 c1 c2 c3 c4 c5 c6 c7 c8 bestScore bestMove
      = sOpponentBestMoveLoop [4, 5, 6, 7, 8] [c0, c1, c2, c3, c4, c5, c6, c7, c8] bestScore bestMove := by
  rw [sOpponentBestMoveLoop_cons]
  by_cases hE : c4 = none
  · simp only [vOpp4, List.getD_cons_zero, List.getD_cons_succ,
      List.set_cons_zero, List.set_cons_succ, forceBoard_eq, forceCell_eq,
      Score.force_eq, hE, if_pos, if_true, vMinimaxF_eq, len9_succ]
    split
    · exact vOpp5_eq _ _ _ _ _ _ _ _ _ _ _
    · exact vOpp5_eq _ _ _ _ _ _ _ _ _ _ _
  · simp only [vOpp4, List.getD_cons_zero, List.getD_cons_succ]
    rw [if_neg hE, if_neg hE]
    exact vOpp5_eq _ _ _ _ _ _ _ _ _ _ _

theorem vOpp3_eq (c0 c1 c2 c3 c4 c5 c6 c7 c8 : CellValue)
    (bestScore : Score) (bestMove : Int) :
    vOpp3 c0 c1 c2 c3 c4 c5 c6 c7 c8 bestScore bestMove
      = sOpponentBestMoveLoop [3, 4, 5, 6, 7, 8] [c0, c1, c2, c3, c4, c5, c6, c7, c8] bestScore bestMove := by
  rw [sOpponentBestMoveLoop_cons]
  by_cases hE : c3 = none
  · simp only [vOpp3, List.getD_cons_zero, List.getD_cons_succ,
      List.set_cons_zero, List.set_cons_succ, forceBoard_eq, forceCell_eq,
      Score.force_eq, hE, if_pos, if_true, vMinimaxF_eq, len9_succ]
    split
    · exact vOpp4_eq _ _ _ _ _ _ _ _ _ _ _
    · exact vOpp4_eq _ _ _ _ _ _ _ _ _ _ _
  · simp only [vOpp3, List.getD_cons_zero, List.getD_cons_succ]
    rw [if_neg hE, if_neg hE]
    exact vOpp4_eq _ _ _ _ _ _ _ _ _ _ _

theorem vOpp2_eq (c0 c1 c2 c3 c4 c5 c6 c7 c8 : CellValue)
    (bestScore : Score) (bestMove : Int) :
    vOpp2 c0 c1 c2 c3 c4 c5 c6 c7 c8 bestScore bestMove
      = sOpponentBestMoveLoop [2, 3, 4, 5, 6, 7, 8] [c0, c1, c2, c3, c4, c5, c6, c7, c8] bestScore bestMove := by
  rw [sOpponentBestMoveLoop_cons]
  by_cases hE : c2 = none
  · simp only [vOpp2, List.getD_cons_zero, List.getD_cons_succ,
      List.set_cons_zero, List.set_cons_succ, forceBoard_eq, forceCell_eq,
      Score.force_eq, hE, if_pos, if_true, vMinimaxF_eq, len9_succ]
    split
    · exact vOpp3_eq _ _ _ _ _ _ _ _ _ _ _
    · exact vOpp3_eq _ _ _ _ _ _ _ _ _ _ _
  · simp only [vOpp2, List.getD_cons_zero, List.getD_cons_succ]
    rw [if_neg hE, if_neg hE]
    exact vOpp3_eq _ _ _ _ _ _ _ _ _ _ _

theorem vOpp1_eq (c0 c1 c2 c3 c4 c5 c6 c7 c8 : CellValue)
    (bestScore : Score) (bestMove : Int) :
    vOpp1 c0 c1 c2 c3 c4 c5 c6 c7 c8 bestScore bestMove
      = sOpponentBestMoveLoop [1, 2, 3, 4, 5, 6, 7, 8] [c0, c1, c2, c3, c4, c5, c6, c7, c8] bestScore bestMove := by
  rw [sOpponentBestMoveLoop_cons]
  by_cases hE : c1 = none
  · simp only [vOpp1, List.getD_cons_zero, List.getD_cons_succ,
      List.set_cons_zero, List.set_cons_succ, forceBoard_eq, forceCell_eq,
      Score.force_eq, hE, if_pos, if_true, vMinimaxF_eq, len9_succ]
    split
    · exact vOpp2_eq _ _ _ _ _ _ _ _ _ _ _
    · exact vOpp2_eq _ _ _ _ _ _ _ _ _ _ _
  · simp only [vOpp1, List.getD_cons_zero, List.getD_cons_succ]
    rw [if_neg hE, if_neg hE]
    exact vOpp2_eq _ _ _ _ _ _ _ _ _ _ _

theorem vOpp0_eq (c0 c1 c2 c3 c4 c5 c6 c7 c8 : CellValue)
    (bestScore : Score) (bestMove : Int) :
    vOpp0 c0 c1 c2 c3 c4 c5 c6 c7 c8 bestScore bestMove
      = sOpponentBestMoveLoop [0, 1, 2, 3, 4, 5, 6, 7, 8] [c0, c1, c2, c3, c4, c5, c6, c7, c8] bestScore bestMove := by
  rw [sOpponentBestMoveLoop_cons]
  by_cases hE : c0 = none
  · simp only [vOpp0, List.getD_cons_zero, List.getD_cons_succ,
      List.set_cons_zero, List.set_cons_succ, forceBoard_eq, forceCell_eq,
      Score.force_eq, hE, if_pos, if_true, vMinimaxF_eq, len9_succ]
    split
    · exact vOpp1_eq _ _ _ _ _ _ _ _ _ _ _
    · exact vOpp1_eq _ _ _ _ _ _ _ _ _ _ _
  · simp only [vOpp0, List.getD_cons_zero, List.getD_cons_succ]
    rw [if_neg hE, if_neg hE]
    exact vOpp1_eq _ _ _ _ _ _ _ _ _ _ _

theorem vGetBestMove_eq (c0 c1 c2 c3 c4 c5 c6 c7 c8 : CellValue) :
    vGetBestMove c0 c1 c2 c3 c4 c5 c6 c7 c8
      = getBestMove [c0, c1, c2, c3, c4, c5, c6, c7, c8] := by
  rw [← sGetBestMove_eq]
  simp only [vGetBestMove, sGetBestMove]
  rw [show List.range
      (List.length ([c0, c1, c2, c3, c4, c5, c6, c7, c8] : Board))
      = [0, 1, 2, 3, 4, 5, 6, 7, 8] from rfl]
  exact vGbm0_eq _ _ _ _ _ _ _ _ _ _ _

theorem vOpponentBestMove_eq (c0 c1 c2 c3 c4 c5 c6 c7 c8 : CellValue) :
    vOpponentBestMove c0 c1 c2 c3 c4 c5 c6 c7 c8
      = opponentBestMove [c0, c1, c2, c3, c4, c5, c6, c7, c8] := by
  rw [← sOpponentBestMove_eq]
  simp only [vOpponentBestMove, sOpponentBestMove]
  rw [show List.range
      (List.length ([c0, c1, c2, c3, c4, c5, c6, c7, c8] : Board))
      = [0, 1, 2, 3, 4, 5, 6, 7, 8] from rfl]
  exact vOpp0_eq _ _ _ _ _ _ _ _ _ _ _

theorem selfPlay_succ_X (n : Nat) (b : Board) :
    selfPlay (n + 1) b true =
      if (checkWinnerForMiniMax b).isSome ∨ isBoardFull b = true then b
      else if getBestMove b < 0 then b
      else selfPlay n (b.set (getBestMove b).toNat (some Player.X)) false :=
  rfl

theorem selfPlay_succ_O (n : Nat) (b : Board) :
    selfPlay (n + 1) b false =
      if (checkWinnerForMiniMax b).isSome ∨ isBoardFull b = true then b
      else if opponentBestMove b < 0 then b
      else selfPlay n (b.set (opponentBestMove b).toNat (some Player.O)) true :=
  rfl

set_option maxHeartbeats 4000000 in
/-- Step 0 of optimal self-play: X's best move from this position is 0. -/
theorem c9move0 : getBestMove [none, none, none, none, none, none, none, none, none] = 0 := by
  rw [← vGetBestMove_eq]
  decide

set_option maxHeartbeats 4000000 in
/-- Step 1 of optimal self-play: O's best move from this position is 4. -/
theorem c9move1 : opponentBestMove [some Player.X, none, none, none, none, none, none, none, none] = 4 := by
  rw [← vOpponentBestMove_eq]
  decide

set_option maxHeartbeats 4000000 in
/-- Step 2 of optimal self-play: X's best move from this position is 1. -/
theorem c9move2 : getBestMove [some Player.X, none, none, none, some Player.O, none, none, none, none] = 1 := by
  rw [← vGetBestMove_eq]
  decide

set_option maxHeartbeats 4000000 in
/-- Step 3 of optimal self-play: O's best move from this position is 2. -/
theorem c9move3 : opponentBestMove [some Player.X, some Player.X, none, none, some Player.O, none, none, none, none] = 2 := by
  rw [← vOpponentBestMove_eq]
  decide

set_option maxHeartbeats 4000000 in
/-- Step 4 of optimal self-play: X's best move from this position is 6. -/
theorem c9move4 : getBestMove [some Player.X, some Player.X, some Player.O, none, some Player.O, none, none, none, none] = 6 := by
  rw [← vGetBestMove_eq]
  decide

set_option maxHeartbeats 4000000 in
/-- Step 5 of optimal self-play: O's best move from this position is 3. -/
theorem c9move5 : opponentBestMove [some Player.X, some Player.X, some Player.O, none, some Player.O, none, some Player.X, none, none] = 3 := by
  rw [← vOpponentBestMove_eq]
  decide

set_option maxHeartbeats 4000000 in
/-- Step 6 of optimal self-play: X's best move from this position is 5. -/
theorem c9move6 : getBestMove [some Player.X, some Player.X, some Player.O, some Player.O, some Player.O, none, some Player.X, none, none] = 5 := by
  rw [← vGetBestMove_eq]
  decide

set_option maxHeartbeats 4000000 in
/-- Step 7 of optimal self-play: O's best move from this position is 7. -/
theorem c9move7 : opponentBestMove [some Player.X, some Player.X, some Player.O, some Player.O, some Player.O, some Player.X, some Player.X, none, none] = 7 := by
  rw [← vOpponentBestMove_eq]
  decide

set_option maxHeartbeats 4000000 in
/-- Step 8 of optimal self-play: X's best move from this position is 8. -/
theorem c9move8 : getBestMove [some Player.X, some Player.X, some Player.O, some Player.O, some Player.O, some Player.X, some Player.X, some Player.O, none] = 8 := by
  rw [← vGetBestMove_eq]
  decide

/-- Optimal self-play from the empty board plays 0,4,1,2,6,3,5,7,8 and
ends on a full, winnerless board. -/
theorem selfPlay_result :
    selfPlay 9 emptyBoard true = [some Player.X, some Player.X, some Player.O, some Player.O, some Player.O, some Player.X, some Player.X, some Player.O, some Player.X] := by
  rw [show emptyBoard = ([none, none, none, none, none, none, none, none, none] : Board) from rfl]
  rw [selfPlay_succ_X, if_neg (by decide), c9move0, if_neg (by decide)]
  rw [show ([none, none, none, none, none, none, none, none, none] : Board).set ((0 : Int)).toNat
      (some Player.X) = [some Player.X, none, none, none, none, none, none, none, none] from rfl]
  rw [selfPlay_succ_O, if_neg (by decide), c9move1, if_neg (by decide)]
  rw [show ([some Player.X, none, none, none, none, none, none, none, none] : Board).set ((4 : Int)).toNat
      (some Player.O) = [some Player.X, none, none, none, some Player.O, none, none, none, none] from rfl]
  rw [selfPlay_succ_X, if_neg (by decide), c9move2, if_neg (by decide)]
  rw [show ([some Player.X, none, none, none, some Player.O, none, none, none, none] : Board).set ((1 : Int)).toNat
      (some Player.X) = [some Player.X, some Player.X, none, none, some Player.O, none, none, none, none] from rfl]
  rw [selfPlay_succ_O, if_neg (by decide), c9move3, if_neg (by decide)]
  rw [show ([some Player.X, some Player.X, none, none, some Player.O, none, none, none, none] : Board).set ((2 : Int)).toNat
      (some Player.O) = [some Player.X, some Player.X, some Player.O, none, some Player.O, none, none, none, none] from rfl]
  rw [selfPlay_succ_X, if_neg (by decide), c9move4, if_neg (by decide)]
  rw [show ([some Player.X, some Player.X, some Player.O, none, some Player.O, none, none, none, none] : Board).set ((6 : Int)).toNat
      (some Player.X) = [some Player.X, some Player.X, some Player.O, none, some Player.O, none, some Player.X, none, none] from rfl]
  rw [selfPlay_succ_O, if_neg (by decide), c9move5, if_neg (by decide)]
  rw [show ([some Player.X, some Player.X, some Player.O, none, some Player.O, none, some Player.X, none, none] : Board).set ((3 : Int)).toNat
      (some Player.O) = [some Player.X, some Player.X, some Player.O, some Player.O, some Player.O, none, some Player.X, none, none] from rfl]
  rw [selfPlay_succ_X, if_neg (by decide), c9move6, if_neg (by decide)]
  rw [show ([some Player.X, some Player.X, some Player.O, some Player.O, some Player.O, none, some Player.X, none, none] : Board).set ((5 : Int)).toNat
      (some Player.X) = [some Player.X, some Player.X, some Player.O, some Player.O, some Player.O, some Player.X, some Player.X, none, none] from rfl]
  rw [selfPlay_succ_O, if_neg (by decide), c9move7, if_neg (by decide)]
  rw [show ([some Player.X, some Player.X, some Player.O, some Player.O, some Player.O, some Player.X, some Player.X, none, none] : Board).set ((7 : Int)).toNat
      (some Player.O) = [some Player.X, some Player.X, some Player.O, some Player.O, some Player.O, some Player.X, some Player.X, some Player.O, none] from rfl]
  rw [selfPlay_succ_X, if_neg (by decide), c9move8, if_neg (by decide)]
  rw [show ([some Player.X, some Player.X, some Player.O, some Player.O, some Player.O, some Player.X, some Player.X, some Player.O, none] : Board).set ((8 : Int)).toNat
      (some Player.X) = [some Player.X, some Player.X, some Player.O, some Player.O, some Player.O, some Player.X, some Player.X, some Player.O, some Player.X] from rfl]
  rfl

/-- C9: getBestMove on the all-empty board returns a corner or the
center cell (it returns the corner 0), and the self-play game in which
X always plays getBestMove and O always plays the mirror-image optimal
move ends in a position reported as a draw. -/
theorem c9_opening_and_selfplay_draw :
    (getBestMove emptyBoard = 0 ∨ getBestMove emptyBoard = 2 ∨
     getBestMove emptyBoard = 4 ∨ getBestMove emptyBoard = 6 ∨
     getBestMove emptyBoard = 8) ∧
    isDrawReported (selfPlay 9 emptyBoard true) = true := by
  constructor
  · exact Or.inl (by rw [show emptyBoard = ([none, none, none, none, none, none, none, none, none] : Board) from rfl]; exact c9move0)
  · rw [selfPlay_result]
    decide
